import Mathlib

/-!
# ArtraCFD: ghost-cell immersed boundary, node classification and reconstruction

A shallow embedding of the node classifier of `gcibm.c`
(`ComputeDomainGeometryGCIBM` and its four passes), of the reconstructor and
boundary applicator of the same file (`LinearReconstruction`,
`BoundaryConditionGCIBM`), of `DomainPartition` (`domainpartition.c`) and of
the entropy fix `Q` of the TVD scheme (`tvd.c`), and proofs about them.

Modelling conventions.

* `Real` quantities of the classifier are exact rationals (`ℚ`); the C cast
  `(int)x` is truncation toward zero. The reconstructor is embedded over an
  arbitrary field, with the square root and the integer cast as parameters;
  the grid and geometry data enter it through the cast from `ℚ`.
* Node flags and indices are mathematical integers. The additive flag
  arithmetic (`-offset - geoCount`, `-flag`, `flag - totalN`) and the index
  arithmetic stay far inside the 32-bit range for every array that fits in
  memory and are kept exact. The six-fold product of pass 3 is the one place
  where the 32-bit width is within reach, so every multiplication there
  wraps modulo `2^32` (`mul32`).
* The flag array is a list addressed by the flat index
  `(k * jMax + j) * iMax + i`, the conserved field a list with five entries
  per node. A read or write outside an array makes the function return
  `none`; a function that returns `some` has stayed inside the arrays.
* A `for (x = lo; x < hi; ++x)` loop is `forLoop lo hi body`; the state it
  threads is the array the loop writes.
* The index range the classifier and the boundary applicator sweep is entry 0
  of the partition arrays (`part->kSub[0]` ... `part->iSup[0]`), called
  region 0 below.
* The linear solver `MatrixLinearSystemSolver` is not among the sources; the
  reconstructor takes it as a parameter and ignores its status, as the
  source does.
-/

namespace ArtraCFD

/-! ## Data model -/

/-- Modelled from the spec: the declaration of `Space` (header `commons.h`)
is not among the sources. Grid descriptor and node flag array, with the
fields the sources access: node counts, ghost width, extended dimensions,
spacing and its reciprocal, minimum corner, flag offset and flag array. -/
structure Space where
  nx : Int
  ny : Int
  nz : Int
  ng : Int
  iMax : Int
  jMax : Int
  kMax : Int
  nMax : Int
  dx : ℚ
  dy : ℚ
  dz : ℚ
  ddx : ℚ
  ddy : ℚ
  ddz : ℚ
  xMin : ℚ
  yMin : ℚ
  zMin : ℚ
  nodeFlagOffset : Int
  nodeFlag : List Int

/-- Modelled from the spec: the declaration of `Particle` (header
`commons.h`) is not among the sources. Geometry store: `totalN` records of
`entryN` reals each, starting at `headAddress`; a record holds centre x, y, z
and radius in entries 0..3. The count `totalN` is non-negative. -/
structure Particle where
  totalN : Nat
  entryN : Int
  headAddress : Int → ℚ

/-- Modelled from the spec: the declaration of `Partition` (header
`commons.h`) is not among the sources. Index control arrays of the
partition: region `n` spans
`[iSub n, iSup n) × [jSub n, jSup n) × [kSub n, kSup n)`; `subN` regions
carry a name, and every region an outward normal. -/
structure Partition where
  kSub : Nat → Int
  kSup : Nat → Int
  jSub : Nat → Int
  jSup : Nat → Int
  iSub : Nat → Int
  iSup : Nat → Int
  subN : Nat := 13
  name : Nat → String := fun _ => ""
  normalX : Nat → Int := fun _ => 0
  normalY : Nat → Int := fun _ => 0
  normalZ : Nat → Int := fun _ => 0

/-! ## Machine-level helpers -/

/-- The C cast `(int)x` of a real: truncation toward zero. -/
def truncToInt (x : ℚ) : Int := Int.tdiv x.num x.den

/-- Reduction of an integer to the signed 32-bit range (two's complement). -/
def wrap32 (x : Int) : Int := (x + 2147483648) % 4294967296 - 2147483648

/-- Product of two `int` values, wrapping modulo `2^32`. -/
def mul32 (x y : Int) : Int := wrap32 (x * y)

/-- Read `nodeFlag[idx]`; `none` outside the array. -/
def readFlag (nodeFlag : List Int) (idx : Int) : Option Int :=
  if 0 ≤ idx then nodeFlag[idx.toNat]? else none

/-- Assign `nodeFlag[idx] = v`; `none` outside the array. -/
def writeFlag (nodeFlag : List Int) (idx : Int) (v : Int) : Option (List Int) :=
  if 0 ≤ idx ∧ idx.toNat < nodeFlag.length then some (nodeFlag.set idx.toNat v) else none

/-- Run `body i` for `n` consecutive values of the counter starting at `i`. -/
def loopFrom {σ : Type} (body : Int → σ → Option σ) : Int → Nat → σ → Option σ
  | _, 0, s => some s
  | i, n + 1, s =>
    match body i s with
    | none => none
    | some s' => loopFrom body (i + 1) n s'

/-- The loop `for (i = lo; i < hi; ++i) body`. -/
def forLoop {σ : Type} (lo hi : Int) (body : Int → σ → Option σ) (init : σ) : Option σ :=
  loopFrom body lo (hi - lo).toNat init

/-- Short-circuit `&&` over tests that may fail: the right operand is only
consulted when the left one is true. -/
def andAlso (a b : Option Bool) : Option Bool :=
  match a with
  | none => none
  | some false => some false
  | some true => b

/-- Source function `Min`. -/
def Min (x y : Int) : Int := if x < y then x else y

/-- Source function `Max`. -/
def Max (x y : Int) : Int := if x > y then x else y

/-! ## The four passes of the node classifier (`gcibm.c`) -/

/-- Pass 1: every node becomes `1`, then every node of region 0 becomes `0`. -/
def InitializeDomainGeometry (space : Space) (part : Partition) : Option Space :=
  (forLoop 0 space.nMax (fun idx flags => writeFlag flags idx 1) space.nodeFlag).bind
  fun flags1 =>
  (forLoop (part.kSub 0) (part.kSup 0) (fun k flags =>
    forLoop (part.jSub 0) (part.jSup 0) (fun j flags =>
      forLoop (part.iSub 0) (part.iSup 0) (fun i flags =>
        let idx := (k * space.jMax + j) * space.iMax + i
        writeFlag flags idx 0) flags) flags) flags1).bind
  fun flags2 => some { space with nodeFlagOffset := 10, nodeFlag := flags2 }

/-- Pass 2: every node of the clamped index box of a geometry that lies in the
open sphere is flagged `-offset - geoCount`. -/
def LocateSolidGeometry (space : Space) (particle : Particle) (part : Partition) :
    Option Space :=
  let offset := space.nodeFlagOffset
  (forLoop 0 particle.totalN (fun geoCount flags =>
    let ptk : Int → ℚ := fun m => particle.headAddress (geoCount * particle.entryN + m)
    let iCenter := truncToInt ((ptk 0 - space.xMin) * space.ddx) + space.ng
    let jCenter := truncToInt ((ptk 1 - space.yMin) * space.ddy) + space.ng
    let kCenter := truncToInt ((ptk 2 - space.zMin) * space.ddz) + space.ng
    let safetyCoe : ℚ := 3 / 2
    let iRange := truncToInt (safetyCoe * ptk 3 * space.ddx)
    let jRange := truncToInt (safetyCoe * ptk 3 * space.ddy)
    let kRange := truncToInt (safetyCoe * ptk 3 * space.ddz)
    let kSub := Max (kCenter - kRange) (part.kSub 0)
    let kSup := Min (kCenter + kRange + 1) (part.kSup 0)
    let jSub := Max (jCenter - jRange) (part.jSub 0)
    let jSup := Min (jCenter + jRange + 1) (part.jSup 0)
    let iSub := Max (iCenter - iRange) (part.iSub 0)
    let iSup := Min (iCenter + iRange + 1) (part.iSup 0)
    forLoop kSub kSup (fun k flags =>
      forLoop jSub jSup (fun j flags =>
        forLoop iSub iSup (fun i flags =>
          let idx := (k * space.jMax + j) * space.iMax + i
          let distX := space.xMin + ((i - space.ng : Int) : ℚ) * space.dx - ptk 0
          let distY := space.yMin + ((j - space.ng : Int) : ℚ) * space.dy - ptk 1
          let distZ := space.zMin + ((k - space.ng : Int) : ℚ) * space.dz - ptk 2
          let distance := distX * distX + distY * distY + distZ * distZ - ptk 3 * ptk 3
          if 0 > distance then writeFlag flags idx (-offset - geoCount)
          else some flags) flags) flags) flags) space.nodeFlag).bind
  fun flags => some { space with nodeFlag := flags }

/-- Pass 3: a solid node whose six neighbour flags have a zero (32-bit)
product has its flag negated. -/
def IdentifyGhostNodes (space : Space) (part : Partition) : Option Space :=
  let offset := space.nodeFlagOffset
  (forLoop (part.kSub 0) (part.kSup 0) (fun k flags =>
    forLoop (part.jSub 0) (part.jSup 0) (fun j flags =>
      forLoop (part.iSub 0) (part.iSup 0) (fun i flags =>
        let idx := (k * space.jMax + j) * space.iMax + i
        (readFlag flags idx).bind fun self =>
        if -offset < self then some flags
        else
          let idxW := (k * space.jMax + j) * space.iMax + i - 1
          let idxE := (k * space.jMax + j) * space.iMax + i + 1
          let idxS := (k * space.jMax + j - 1) * space.iMax + i
          let idxN := (k * space.jMax + j + 1) * space.iMax + i
          let idxF := ((k - 1) * space.jMax + j) * space.iMax + i
          let idxB := ((k + 1) * space.jMax + j) * space.iMax + i
          (readFlag flags idxW).bind fun fW =>
          (readFlag flags idxE).bind fun fE =>
          (readFlag flags idxS).bind fun fS =>
          (readFlag flags idxN).bind fun fN =>
          (readFlag flags idxF).bind fun fF =>
          (readFlag flags idxB).bind fun fB =>
          let flag := mul32 (mul32 (mul32 (mul32 (mul32 fW fE) fS) fN) fF) fB
          if 0 = flag then writeFlag flags idx (-self)
          else some flags) flags) flags) space.nodeFlag).bind
  fun flags => some { space with nodeFlag := flags }

/-- Pass 4: a solid node with a neighbour whose flag is above `-offset` has
`totalN` subtracted from its flag. -/
def IdentifySolidNodeWithGhostNeighbours (space : Space) (particle : Particle)
    (part : Partition) : Option Space :=
  let offset := space.nodeFlagOffset
  (forLoop (part.kSub 0) (part.kSup 0) (fun k flags =>
    forLoop (part.jSub 0) (part.jSup 0) (fun j flags =>
      forLoop (part.iSub 0) (part.iSup 0) (fun i flags =>
        let idx := (k * space.jMax + j) * space.iMax + i
        (readFlag flags idx).bind fun self =>
        if -offset < self then some flags
        else
          let idxW := (k * space.jMax + j) * space.iMax + i - 1
          let idxE := (k * space.jMax + j) * space.iMax + i + 1
          let idxS := (k * space.jMax + j - 1) * space.iMax + i
          let idxN := (k * space.jMax + j + 1) * space.iMax + i
          let idxF := ((k - 1) * space.jMax + j) * space.iMax + i
          let idxB := ((k + 1) * space.jMax + j) * space.iMax + i
          let solidAt : Int → Option Bool := fun n =>
            (readFlag flags n).map fun f => decide (-offset ≥ f)
          (andAlso (solidAt idxW) (andAlso (solidAt idxE) (andAlso (solidAt idxS)
            (andAlso (solidAt idxN) (andAlso (solidAt idxF) (solidAt idxB)))))).bind
          fun noGhost =>
          if noGhost then some flags
          else writeFlag flags idx (self - particle.totalN)) flags) flags)
    space.nodeFlag).bind
  fun flags => some { space with nodeFlag := flags }

/-- The node classifier: the four passes in order. -/
def ComputeDomainGeometryGCIBM (space : Space) (particle : Particle) (part : Partition) :
    Option Space :=
  (InitializeDomainGeometry space part).bind fun s1 =>
  (LocateSolidGeometry s1 particle part).bind fun s2 =>
  (IdentifyGhostNodes s2 part).bind fun s3 =>
  IdentifySolidNodeWithGhostNeighbours s3 particle part

/-! ## Loops as folds over the visited counters -/

/-- The counter values of `loopFrom _ i n`, in order. -/
def intsFrom : Int → Nat → List Int
  | _, 0 => []
  | i, n + 1 => i :: intsFrom (i + 1) n

/-- The counter values of `forLoop lo hi`. -/
def intRange (lo hi : Int) : List Int := intsFrom lo (hi - lo).toNat

/-- Sequential execution of `body` over a list of work items. -/
def foldOpt {α σ : Type} (body : α → σ → Option σ) : List α → σ → Option σ
  | [], s => some s
  | x :: xs, s => (body x s).bind (foldOpt body xs)

/-- The nodes of an index box in the order of the `k`-`j`-`i` loop nest. -/
def boxNodes (kLo kHi jLo jHi iLo iHi : Int) : List (Int × Int × Int) :=
  (intRange kLo kHi).flatMap fun k =>
    (intRange jLo jHi).flatMap fun j =>
      (intRange iLo iHi).map fun i => (k, j, i)

/-! ## Well-formed inputs and node addressing -/

/-- The flag array has one entry per node of the extended grid and `nMax`
is the number of nodes. -/
def Space.WellFormed (space : Space) : Prop :=
  space.nMax = space.iMax * space.jMax * space.kMax ∧
    (space.nodeFlag.length : Int) = space.nMax

instance (space : Space) : Decidable space.WellFormed := by
  unfold Space.WellFormed; infer_instance

/-- Region 0 of the partition lies in `[1, Max - 1)` on each axis, so every
node of the region has its six face neighbours inside the grid. -/
def RangeInside (space : Space) (part : Partition) : Prop :=
  (1 ≤ part.kSub 0 ∧ part.kSup 0 ≤ space.kMax - 1) ∧
    (1 ≤ part.jSub 0 ∧ part.jSup 0 ≤ space.jMax - 1) ∧
    (1 ≤ part.iSub 0 ∧ part.iSup 0 ≤ space.iMax - 1)

instance (space : Space) (part : Partition) : Decidable (RangeInside space part) := by
  unfold RangeInside; infer_instance

/-- Region 0 of the partition lies inside the grid and away from the first
and last `k`-plane: no array access of the four passes leaves the array. -/
def RangeInBounds (space : Space) (part : Partition) : Prop :=
  (1 ≤ part.kSub 0 ∧ part.kSup 0 ≤ space.kMax - 1) ∧
    (0 ≤ part.jSub 0 ∧ part.jSup 0 ≤ space.jMax) ∧
    (0 ≤ part.iSub 0 ∧ part.iSup 0 ≤ space.iMax)

instance (space : Space) (part : Partition) : Decidable (RangeInBounds space part) := by
  unfold RangeInBounds; infer_instance

/-- Node `(k, j, i)` belongs to region 0 of the partition. -/
def InRange (part : Partition) (k j i : Int) : Prop :=
  (part.kSub 0 ≤ k ∧ k < part.kSup 0) ∧ (part.jSub 0 ≤ j ∧ j < part.jSup 0) ∧
    (part.iSub 0 ≤ i ∧ i < part.iSup 0)

instance (part : Partition) (k j i : Int) : Decidable (InRange part k j i) := by
  unfold InRange; infer_instance

/-- Node `(k, j, i)` belongs to the extended grid. -/
def InGrid (space : Space) (k j i : Int) : Prop :=
  (0 ≤ k ∧ k < space.kMax) ∧ (0 ≤ j ∧ j < space.jMax) ∧ (0 ≤ i ∧ i < space.iMax)

instance (space : Space) (k j i : Int) : Decidable (InGrid space k j i) := by
  unfold InGrid; infer_instance

/-- Flat index of node `(k, j, i)`. -/
def Space.nodeIdx (space : Space) (k j i : Int) : Int :=
  (k * space.jMax + j) * space.iMax + i

/-- Flag of node `(k, j, i)`. -/
def Space.flagAt (space : Space) (k j i : Int) : Option Int :=
  readFlag space.nodeFlag (space.nodeIdx k j i)

/-- Flat index of a work item of a sweep. -/
def nodeKey (jMax iMax : Int) (x : Int × Int × Int) : Int :=
  (x.1 * jMax + x.2.1) * iMax + x.2.2

/-- The nodes of region 0 in sweep order. -/
def rangeNodes (part : Partition) : List (Int × Int × Int) :=
  boxNodes (part.kSub 0) (part.kSup 0) (part.jSub 0) (part.jSup 0) (part.iSub 0) (part.iSup 0)

/-! ## Pointwise rules of passes 3 and 4 -/

/-- The six-fold wrapped product as pass 3 computes it. -/
def prod32 (a b c d e f : Int) : Int :=
  mul32 (mul32 (mul32 (mul32 (mul32 a b) c) d) e) f

/-- Value of a cell with default `0` outside the array (specification side
only; the passes themselves never read outside the array). -/
def flagD (flags : List Int) (p : Int) : Int := (readFlag flags p).getD 0

/-- New flag pass 3 gives the cell at flat index `p`, from the flags `f` the
pass started with. -/
def ghostRule (offset jMax iMax : Int) (f : Int → Int) (p : Int) : Int :=
  if -offset < f p then f p
  else if 0 = prod32 (f (p - 1)) (f (p + 1)) (f (p - iMax)) (f (p + iMax))
      (f (p - jMax * iMax)) (f (p + jMax * iMax)) then -f p
  else f p

/-- New flag pass 4 gives the cell at flat index `p`, from the flags `f` the
pass started with. -/
def ghostNeighbourRule (offset : Int) (totalN : Nat) (jMax iMax : Int) (f : Int → Int)
    (p : Int) : Int :=
  if -offset < f p then f p
  else if -offset ≥ f (p - 1) ∧ -offset ≥ f (p + 1) ∧ -offset ≥ f (p - iMax) ∧
      -offset ≥ f (p + iMax) ∧ -offset ≥ f (p - jMax * iMax) ∧
      -offset ≥ f (p + jMax * iMax) then f p
  else f p - totalN

/-- Loop body of pass 3 at node `(k, j, i)`. -/
def ghostBody (space : Space) (k j i : Int) (flags : List Int) : Option (List Int) :=
  let offset := space.nodeFlagOffset
  let idx := (k * space.jMax + j) * space.iMax + i
  (readFlag flags idx).bind fun self =>
  if -offset < self then some flags
  else
    let idxW := (k * space.jMax + j) * space.iMax + i - 1
    let idxE := (k * space.jMax + j) * space.iMax + i + 1
    let idxS := (k * space.jMax + j - 1) * space.iMax + i
    let idxN := (k * space.jMax + j + 1) * space.iMax + i
    let idxF := ((k - 1) * space.jMax + j) * space.iMax + i
    let idxB := ((k + 1) * space.jMax + j) * space.iMax + i
    (readFlag flags idxW).bind fun fW =>
    (readFlag flags idxE).bind fun fE =>
    (readFlag flags idxS).bind fun fS =>
    (readFlag flags idxN).bind fun fN =>
    (readFlag flags idxF).bind fun fF =>
    (readFlag flags idxB).bind fun fB =>
    let flag := mul32 (mul32 (mul32 (mul32 (mul32 fW fE) fS) fN) fF) fB
    if 0 = flag then writeFlag flags idx (-self)
    else some flags

/-- Loop body of pass 4 at node `(k, j, i)`. -/
def ghostNeighbourBody (space : Space) (particle : Particle) (k j i : Int)
    (flags : List Int) : Option (List Int) :=
  let offset := space.nodeFlagOffset
  let idx := (k * space.jMax + j) * space.iMax + i
  (readFlag flags idx).bind fun self =>
  if -offset < self then some flags
  else
    let idxW := (k * space.jMax + j) * space.iMax + i - 1
    let idxE := (k * space.jMax + j) * space.iMax + i + 1
    let idxS := (k * space.jMax + j - 1) * space.iMax + i
    let idxN := (k * space.jMax + j + 1) * space.iMax + i
    let idxF := ((k - 1) * space.jMax + j) * space.iMax + i
    let idxB := ((k + 1) * space.jMax + j) * space.iMax + i
    let solidAt : Int → Option Bool := fun n =>
      (readFlag flags n).map fun f => decide (-offset ≥ f)
    (andAlso (solidAt idxW) (andAlso (solidAt idxE) (andAlso (solidAt idxS)
      (andAlso (solidAt idxN) (andAlso (solidAt idxF) (solidAt idxB)))))).bind
    fun noGhost =>
    if noGhost then some flags
    else writeFlag flags idx (self - particle.totalN)

/-! ## Pass 2: index box and sphere test of a geometry -/

/-- Entry `m` of the record of geometry `geoCount` (`ptk[m]` in the source). -/
def Particle.ptk (particle : Particle) (geoCount m : Int) : ℚ :=
  particle.headAddress (geoCount * particle.entryN + m)

/-- The clamped index box pass 2 sweeps for geometry `geoCount`, as
`(kSub, kSup, jSub, jSup, iSub, iSup)`. -/
def searchBox (space : Space) (particle : Particle) (part : Partition) (geoCount : Int) :
    Int × Int × Int × Int × Int × Int :=
  let ptk : Int → ℚ := fun m => particle.headAddress (geoCount * particle.entryN + m)
  let iCenter := truncToInt ((ptk 0 - space.xMin) * space.ddx) + space.ng
  let jCenter := truncToInt ((ptk 1 - space.yMin) * space.ddy) + space.ng
  let kCenter := truncToInt ((ptk 2 - space.zMin) * space.ddz) + space.ng
  let safetyCoe : ℚ := 3 / 2
  let iRange := truncToInt (safetyCoe * ptk 3 * space.ddx)
  let jRange := truncToInt (safetyCoe * ptk 3 * space.ddy)
  let kRange := truncToInt (safetyCoe * ptk 3 * space.ddz)
  (Max (kCenter - kRange) (part.kSub 0), Min (kCenter + kRange + 1) (part.kSup 0),
    Max (jCenter - jRange) (part.jSub 0), Min (jCenter + jRange + 1) (part.jSup 0),
    Max (iCenter - iRange) (part.iSub 0), Min (iCenter + iRange + 1) (part.iSup 0))

/-- The quantity `distance` pass 2 computes for geometry `geoCount` at node
`(k, j, i)`: squared distance to the centre minus squared radius. -/
def sphereDistance (space : Space) (particle : Particle) (geoCount k j i : Int) : ℚ :=
  let ptk : Int → ℚ := fun m => particle.headAddress (geoCount * particle.entryN + m)
  let distX := space.xMin + ((i - space.ng : Int) : ℚ) * space.dx - ptk 0
  let distY := space.yMin + ((j - space.ng : Int) : ℚ) * space.dy - ptk 1
  let distZ := space.zMin + ((k - space.ng : Int) : ℚ) * space.dz - ptk 2
  distX * distX + distY * distY + distZ * distZ - ptk 3 * ptk 3

/-- Node `(k, j, i)` lies in the index box swept for geometry `geoCount`. -/
def InBox (space : Space) (particle : Particle) (part : Partition) (geoCount k j i : Int) :
    Prop :=
  ((searchBox space particle part geoCount).1 ≤ k ∧
      k < (searchBox space particle part geoCount).2.1) ∧
    ((searchBox space particle part geoCount).2.2.1 ≤ j ∧
      j < (searchBox space particle part geoCount).2.2.2.1) ∧
    ((searchBox space particle part geoCount).2.2.2.2.1 ≤ i ∧
      i < (searchBox space particle part geoCount).2.2.2.2.2)

instance (space : Space) (particle : Particle) (part : Partition) (geoCount k j i : Int) :
    Decidable (InBox space particle part geoCount k j i) := by
  unfold InBox; infer_instance

/-- Node `(k, j, i)` passes the sphere test of geometry `geoCount`. -/
def InSphere (space : Space) (particle : Particle) (geoCount k j i : Int) : Prop :=
  0 > sphereDistance space particle geoCount k j i

instance (space : Space) (particle : Particle) (geoCount k j i : Int) :
    Decidable (InSphere space particle geoCount k j i) := by
  unfold InSphere; infer_instance

/-- Geometry `geoCount` rasterizes node `(k, j, i)`: the node is in its index
box and passes its sphere test. -/
def Rasterizes (space : Space) (particle : Particle) (part : Partition)
    (geoCount k j i : Int) : Prop :=
  InBox space particle part geoCount k j i ∧ InSphere space particle geoCount k j i

instance (space : Space) (particle : Particle) (part : Partition) (geoCount k j i : Int) :
    Decidable (Rasterizes space particle part geoCount k j i) := by
  unfold Rasterizes; infer_instance

/-- Flag of node `(k, j, i)` once the first `n` geometries have been
rasterized over a cell that held `init`. -/
def ownerFlag (space : Space) (particle : Particle) (part : Partition) (offset init : Int)
    (k j i : Int) : Nat → Int
  | 0 => init
  | n + 1 =>
    if Rasterizes space particle part n k j i then -offset - n
    else ownerFlag space particle part offset init k j i n

/-- The nodes of the index box of geometry `geoCount` in sweep order. -/
def geoNodes (space : Space) (particle : Particle) (part : Partition) (geoCount : Int) :
    List (Int × Int × Int) :=
  boxNodes (searchBox space particle part geoCount).1
    (searchBox space particle part geoCount).2.1
    (searchBox space particle part geoCount).2.2.1
    (searchBox space particle part geoCount).2.2.2.1
    (searchBox space particle part geoCount).2.2.2.2.1
    (searchBox space particle part geoCount).2.2.2.2.2

/-! ## Vocabulary of the claims -/

/-- The grid descriptor after pass 1 with flag array `flags`: pass 1 sets
the offset to `10`, the later passes only replace the flag array. -/
def stage (space : Space) (flags : List Int) : Space :=
  { space with nodeFlagOffset := 10, nodeFlag := flags }

/-- The six face neighbours of node `(k, j, i)`, in the order west, east,
south, north, front, back of the source. -/
def faceNeighbours (k j i : Int) : List (Int × Int × Int) :=
  [(k, j, i - 1), (k, j, i + 1), (k, j - 1, i), (k, j + 1, i), (k - 1, j, i), (k + 1, j, i)]

/-- Number of the five flag bands (boundary `1`, fluid `0`, solid, ghost,
solid with ghost neighbour) that contain the flag `f`, for `n` geometries. -/
def bandCount (offset : Int) (n : Nat) (f : Int) : Nat :=
  (if f = 1 then 1 else 0) + (if f = 0 then 1 else 0) +
    (if -offset - n + 1 ≤ f ∧ f ≤ -offset then 1 else 0) +
    (if offset ≤ f ∧ f ≤ offset + n - 1 then 1 else 0) +
    (if -offset - 2 * n + 1 ≤ f ∧ f ≤ -offset - n then 1 else 0)

/-- Squared Euclidean distance from node `(k, j, i)` to the centre of
geometry `geoCount`, with the node position `min + (index - ng) * spacing`
of the source. -/
def centreDistSq (space : Space) (particle : Particle) (geoCount k j i : Int) : ℚ :=
  let ptk : Int → ℚ := fun m => particle.headAddress (geoCount * particle.entryN + m)
  let distX := space.xMin + ((i - space.ng : Int) : ℚ) * space.dx - ptk 0
  let distY := space.yMin + ((j - space.ng : Int) : ℚ) * space.dy - ptk 1
  let distZ := space.zMin + ((k - space.ng : Int) : ℚ) * space.dz - ptk 2
  distX * distX + distY * distY + distZ * distZ

/-- Geometry index the boundary applicator recovers from the flag of an
interior ghost node (`geoID = nodeFlag[idx] - offset`). -/
def ghostGeoID (space : Space) (flag : Int) : Int := flag - space.nodeFlagOffset

/-- Geometry index the boundary applicator recovers from the flag of a solid
node with ghost neighbour (`geoID = nodeFlag[idx] + offset + totalN`). -/
def solidGeoID (space : Space) (particle : Particle) (flag : Int) : Int :=
  flag + space.nodeFlagOffset + particle.totalN

/-- Flat indices of the six face neighbours of the cell at flat index `p`, in
the order west, east, south, north, front, back. -/
def flatNeighbours (jMax iMax p : Int) : List Int :=
  [p - 1, p + 1, p - iMax, p + iMax, p - jMax * iMax, p + jMax * iMax]

/-! ## Concrete inputs

A `5 × 5 × 5` grid (`nx = ny = nz = 5`, ghost width `0`) with unit spacing
and origin `0`; node `(k, j, i)` sits at position `(i, j, k)`. Region 0 is
`[1, 4)` on each axis, the range `[ng + 1, n + ng - 1)` of the interior nodes.
The flag array starts with arbitrary content. -/

/-- The `5 × 5 × 5` grid. -/
def demoSpace : Space :=
  { nx := 5, ny := 5, nz := 5, ng := 0, iMax := 5, jMax := 5, kMax := 5, nMax := 125, dx := 1, dy := 1, dz := 1, ddx := 1, ddy := 1, ddz := 1, xMin := 0, yMin := 0, zMin := 0, nodeFlagOffset := 0, nodeFlag := List.replicate 125 7 }

/-- Region 0 is `[1, 4)` on each axis. -/
def demoPart : Partition :=
  { kSub := (fun _ => 1), kSup := (fun _ => 4), jSub := (fun _ => 1), jSup := (fun _ => 4), iSub := (fun _ => 1), iSup := (fun _ => 4) }

/-- A geometry store with records of four entries taken from a list. -/
def sphereStore (n : Nat) (records : List ℚ) : Particle :=
  { totalN := n, entryN := 4, headAddress := (fun m => records.getD m.toNat 0) }

/-- One sphere of radius `6/5` centred on node `(2, 2, 2)`. -/
def oneSphere : Particle := sphereStore 1 [2, 2, 2, 6 / 5]

/-- Sphere 0 of radius `1/2` on node `(1, 1, 1)` and sphere 1 of radius
`6/5` on node `(2, 2, 2)`. -/
def twoSpheres : Particle := sphereStore 2 [1, 1, 1, 1 / 2, 2, 2, 2, 6 / 5]

/-- One sphere of radius `5` centred on node `(2, 2, 2)`: it contains every
node of region 0. -/
def bigSphere : Particle := sphereStore 1 [2, 2, 2, 5]

/-- One sphere of radius `3/5` centred half a cell west of node `(2, 2, 2)`. -/
def offNodeSphere : Particle := sphereStore 1 [3 / 2, 2, 2, 3 / 5]

/-- Flags of the six face neighbours of a node. -/
def Space.neighbourFlags (space : Space) (k j i : Int) : List (Option Int) :=
  (faceNeighbours k j i).map fun n => space.flagAt n.1 n.2.1 n.2.2

/-- The flag array after passes 1 to 3 on the one-sphere input. -/
def demoFlags3 : List Int :=
  (((InitializeDomainGeometry demoSpace demoPart).bind fun s1 =>
    (LocateSolidGeometry s1 oneSphere demoPart).bind fun s2 =>
      IdentifyGhostNodes s2 demoPart).map fun s3 => s3.nodeFlag).getD []

/-- The grid after passes 1 to 3 on the one-sphere input. -/
def demoAfterPass3 : Space := stage demoSpace demoFlags3

/-! ## Domain partition (`domainpartition.c`) -/

/-- The table `partName` of `DomainPartition`: the names of the 13 parts. -/
def partName : List String :=
  ["West Ghost", "East Ghost", "South Ghost", "North Ghost", "Front Ghost", "Back Ghost",
    "Domain West", "Domain East", "Domain South", "Domain North", "Domain Front",
    "Domain Back", "Interior"]

/-- The C library call `strncpy(dst, src, n)` as the content of `dst`: the
first `n` characters of `src`. -/
def strncpy (src : String) (n : Nat) : String := src.take n

/-- Assignment `a[n] = v` for each listed `(n, v)`, later entries of the list
are assigned later; other entries of `a` are kept. -/
def assignAll {α : Type} (a : Nat → α) : List (Nat × α) → Nat → α
  | [], m => a m
  | (n, v) :: rest, m => assignAll (fun x => if x = n then v else a x) rest m

/-- Source function `DomainPartition`: names, outward normals and index
ranges of the 13 parts. `nameSize` is `sizeof part->name[partCount]`, fixed by
the missing declaration of `Partition`. The calls of `ShowInformation` only
print and the returned status is always `0`; the result is the partition
record after the call. -/
def DomainPartition (nameSize : Nat) (part : Partition) (space : Space) : Partition :=
  { subN := part.subN
    name := fun n =>
      if n < part.subN then strncpy (partName.getD n "") nameSize else part.name n
    normalZ := assignAll part.normalZ
      [(0, 0), (1, 0), (2, 0), (3, 0), (4, -1), (5, 1), (6, 0), (7, 0), (8, 0), (9, 0),
        (10, -1), (11, 1), (12, 0)]
    normalY := assignAll part.normalY
      [(0, 0), (1, 0), (2, -1), (3, 1), (4, 0), (5, 0), (6, 0), (7, 0), (8, -1), (9, 1),
        (10, 0), (11, 0), (12, 0)]
    normalX := assignAll part.normalX
      [(0, -1), (1, 1), (2, 0), (3, 0), (4, 0), (5, 0), (6, -1), (7, 1), (8, 0), (9, 0),
        (10, 0), (11, 0), (12, 0)]
    kSub := assignAll part.kSub
      [(0, space.ng + 1), (1, space.ng + 1), (2, space.ng + 1), (3, space.ng + 1), (4, 0),
        (5, space.nz + space.ng), (6, space.ng + 1), (7, space.ng + 1), (8, space.ng + 1),
        (9, space.ng + 1), (10, space.ng), (11, space.nz + space.ng - 1), (12, space.ng + 1)]
    kSup := assignAll part.kSup
      [(0, space.nz + space.ng - 1), (1, space.nz + space.ng - 1),
        (2, space.nz + space.ng - 1), (3, space.nz + space.ng - 1), (4, space.ng),
        (5, space.nz + 2 * space.ng), (6, space.nz + space.ng - 1),
        (7, space.nz + space.ng - 1), (8, space.nz + space.ng - 1),
        (9, space.nz + space.ng - 1), (10, space.ng + 1), (11, space.nz + space.ng),
        (12, space.nz + space.ng - 1)]
    jSub := assignAll part.jSub
      [(0, space.ng + 1), (1, space.ng + 1), (2, 0), (3, space.ny + space.ng),
        (4, space.ng + 1), (5, space.ng + 1), (6, space.ng + 1), (7, space.ng + 1),
        (8, space.ng), (9, space.ny + space.ng - 1), (10, space.ng + 1), (11, space.ng + 1),
        (12, space.ng + 1)]
    jSup := assignAll part.jSup
      [(0, space.ny + space.ng - 1), (1, space.ny + space.ng - 1), (2, space.ng),
        (3, space.ny + 2 * space.ng), (4, space.ny + space.ng - 1),
        (5, space.ny + space.ng - 1), (6, space.ny + space.ng - 1),
        (7, space.ny + space.ng - 1), (8, space.ng + 1), (9, space.ny + space.ng),
        (10, space.ny + space.ng - 1), (11, space.ny + space.ng - 1),
        (12, space.ny + space.ng - 1)]
    iSub := assignAll part.iSub
      [(0, 0), (1, space.nx + space.ng), (2, space.ng + 1), (3, space.ng + 1),
        (4, space.ng + 1), (5, space.ng + 1), (6, space.ng), (7, space.nx + space.ng - 1),
        (8, space.ng + 1), (9, space.ng + 1), (10, space.ng + 1), (11, space.ng + 1),
        (12, space.ng + 1)]
    iSup := assignAll part.iSup
      [(0, space.ng), (1, space.nx + 2 * space.ng), (2, space.nx + space.ng - 1),
        (3, space.nx + space.ng - 1), (4, space.nx + space.ng - 1),
        (5, space.nx + space.ng - 1), (6, space.ng + 1), (7, space.nx + space.ng),
        (8, space.nx + space.ng - 1), (9, space.nx + space.ng - 1),
        (10, space.nx + space.ng - 1), (11, space.nx + space.ng - 1),
        (12, space.nx + space.ng - 1)] }

/-- Region `n` of a partition contains node `(k, j, i)`. -/
def InRegion (part : Partition) (n : Nat) (k j i : Int) : Prop :=
  (part.kSub n ≤ k ∧ k < part.kSup n) ∧ (part.jSub n ≤ j ∧ j < part.jSup n) ∧
    (part.iSub n ≤ i ∧ i < part.iSup n)

instance (part : Partition) (n : Nat) (k j i : Int) : Decidable (InRegion part n k j i) := by
  unfold InRegion; infer_instance

/-- A grid of `5` nodes per axis with ghost width `2` (extended dimensions
`9 × 9 × 9`), unit spacing, origin at the first node of the domain. -/
def ghostSpace : Space :=
  { nx := 5, ny := 5, nz := 5, ng := 2, iMax := 9, jMax := 9, kMax := 9, nMax := 729, dx := 1, dy := 1, dz := 1, ddx := 1, ddy := 1, ddz := 1, xMin := 0, yMin := 0, zMin := 0, nodeFlagOffset := 0, nodeFlag := List.replicate 729 0 }

/-- A partition record before `DomainPartition` has filled it. -/
def blankPart : Partition :=
  { kSub := (fun _ => 0), kSup := (fun _ => 0), jSub := (fun _ => 0), jSup := (fun _ => 0), iSub := (fun _ => 0), iSup := (fun _ => 0) }

/-! ## Local reconstructor and boundary applicator (`gcibm.c`)

The reconstructor works on `Real` numbers with a square root. It is embedded
over an arbitrary field `R` (the rationals for evaluation, the reals for the
geometry), with the two operations a field lacks passed in as `RealOps`. The
grid and geometry data of `Space` and `Particle` enter through the cast
`ℚ → R`, and equality on `R` is decidable. For a node on the centre of its
geometry `distToCenter` is zero: the source divides by it and casts the
results to `int`, which is undefined, so `LinearReconstruction` returns `none`
there, as it does when the record of the geometry lies outside the geometry
store. The other quotients (by the density of a stencil node, by
`gamma - 1`) are quotients of the field; statements that depend on them
carry the hypothesis that the denominator is non-zero. -/

/-- Modelled from the spec: the declaration of `Flow` (header `commons.h`)
is not among the sources. Flow parameters; the reconstructor reads the gas
constant `gamma` only. -/
structure Flow (R : Type) where
  gamma : R

/-- The C library function `sqrt` and the C cast `(int)` on the number
type `R`. -/
structure RealOps (R : Type) where
  sqrt : R → R
  toInt : R → Int

/-- Interpolation scratch state of `LinearReconstruction`: position matrix,
right hand side vectors and number of stencil nodes found so far. -/
structure Stencil (R : Type) where
  posMatrix : Nat → Nat → R
  rhsVector : Nat → Nat → R
  tally : Nat

/-- Read `a[idx]`; `none` outside the array. -/
def readAt {α : Type} (a : List α) (idx : Int) : Option α :=
  if 0 ≤ idx then a[idx.toNat]? else none

/-- Assign `a[idx] = v`; `none` outside the array. -/
def writeAt {α : Type} (a : List α) (idx : Int) (v : α) : Option (List α) :=
  if 0 ≤ idx ∧ idx.toNat < a.length then some (a.set idx.toNat v) else none

/-- Assignment `a[n] = v` on a scratch array. -/
def assign {α : Type} (a : Nat → α) (n : Nat) (v : α) : Nat → α :=
  fun m => if m = n then v else a m

/-- Assignment of the leading entries of row `r` of a scratch matrix. -/
def assignRow {α : Type} (a : Nat → Nat → α) (r : Nat) (row : List α) : Nat → Nat → α :=
  fun m c => if m = r then row.getD c (a m c) else a m c

/-- The search path of `LinearReconstruction`: offsets `{i, j, k}` around the
truncated image node, in order of precedence. -/
def path : List (Int × Int × Int) :=
  [(0, 0, 0), (1, 1, 1), (1, 1, 0), (1, 0, 1),
    (0, 1, 1), (1, 0, 0), (0, 1, 0), (0, 0, 1),
    (-1, 0, 0), (0, -1, 0), (0, 0, -1), (-1, 1, 0),
    (-1, 0, 1), (1, -1, 0), (0, -1, 1), (1, 0, -1),
    (0, 1, -1), (-1, 1, 1), (1, -1, 1), (1, 1, -1),
    (-1, -1, 0), (-1, 0, -1), (0, -1, -1), (-1, -1, 1),
    (-1, 1, -1), (1, -1, -1), (-1, -1, -1)]

/-- The stencil search loop
`for (loop = 0; (tally < stencilN) && (loop < 27); ++loop)` of
`LinearReconstruction`, with `stencilN = 4`; the first argument bounds the
number of iterations. -/
def stencilLoop {R : Type} [Field R] (space : Space) (flow : Flow R) (U : List R)
    (imageI imageJ imageK : Int) : Nat → Nat → Stencil R → Option (Stencil R)
  | 0, _, st => some st
  | fuel + 1, loop, st =>
    if st.tally < 4 ∧ loop < 27 then
      let ih := imageI + (path.getD loop (0, 0, 0)).1
      let jh := imageJ + (path.getD loop (0, 0, 0)).2.1
      let kh := imageK + (path.getD loop (0, 0, 0)).2.2
      let idxh := (kh * space.jMax + jh) * space.iMax + ih
      (readFlag space.nodeFlag idxh).bind fun flag =>
      if 0 ≠ flag then stencilLoop space flow U imageI imageJ imageK fuel (loop + 1) st
      else
        let idxh := idxh * 5
        (readAt U (idxh + 0)).bind fun rho_h =>
        (readAt U (idxh + 1)).bind fun U1 =>
        (readAt U (idxh + 2)).bind fun U2 =>
        (readAt U (idxh + 3)).bind fun U3 =>
        (readAt U (idxh + 4)).bind fun U4 =>
        let u_h := U1 / rho_h
        let v_h := U2 / rho_h
        let w_h := U3 / rho_h
        let eT_h := U4 / rho_h
        let p_h := (flow.gamma - 1) * rho_h *
          (eT_h - 1 / 2 * (u_h * u_h + v_h * v_h + w_h * w_h))
        stencilLoop space flow U imageI imageJ imageK fuel (loop + 1)
          { posMatrix := assignRow st.posMatrix st.tally [1, (ih : R), (jh : R), (kh : R)]
            rhsVector := assignRow st.rhsVector st.tally [rho_h, u_h, v_h, w_h, p_h]
            tally := st.tally + 1 }
    else some st

/-- Source function `LinearReconstruction`: the five primitives reconstructed
for node `(k, j, i)` with respect to geometry `geoID`. The solver
`MatrixLinearSystemSolver` is not among the sources and is passed in as
`solver posMatrix rhsVector`, the content of `rhsVector` after the call. The
caller's array `Uo` is overwritten in all five entries; the result is the
array after the call. The entries `ptk[0]` to `ptk[3]` are read from the
geometry store of `totalN * entryN` reals: a record outside the store is a
read outside an array. With `distToCenter = 0` the quotients that form the
normal are undefined and so is the cast of the image displacement to `int`.
Both make the function return `none`. -/
def LinearReconstruction {R : Type} [Field R] [DecidableEq R] (ops : RealOps R)
    (solver : (Nat → Nat → R) → (Nat → Nat → R) → Nat → Nat → R)
    (k j i geoID : Int) (U : List R) (space : Space) (particle : Particle)
    (flow : Flow R) : Option (Nat → R) :=
  if 0 ≤ geoID * particle.entryN ∧
      geoID * particle.entryN + 3 < particle.totalN * particle.entryN then
  let ptk : Int → R := fun m =>
    ((particle.headAddress (geoID * particle.entryN + m) : ℚ) : R)
  let distX : R := (space.xMin : R) + ((i - space.ng : Int) : R) * (space.dx : R) - ptk 0
  let distY : R := (space.yMin : R) + ((j - space.ng : Int) : R) * (space.dy : R) - ptk 1
  let distZ : R := (space.zMin : R) + ((k - space.ng : Int) : R) * (space.dz : R) - ptk 2
  let distToCenter := ops.sqrt (distX * distX + distY * distY + distZ * distZ)
  if distToCenter = 0 then none
  else
  let normalX := distX / distToCenter
  let normalY := distY / distToCenter
  let normalZ := distZ / distToCenter
  let distToSurface := ptk 3 - distToCenter
  let imageI := i + ops.toInt (2 * distToSurface * normalX * (space.ddx : R))
  let imageJ := j + ops.toInt (2 * distToSurface * normalY * (space.ddy : R))
  let imageK := k + ops.toInt (2 * distToSurface * normalZ * (space.ddz : R))
  (stencilLoop space flow U imageI imageJ imageK 27 0
    { posMatrix := fun _ _ => 0, rhsVector := fun _ _ => 0, tally := 0 }).bind fun st =>
  let rhsVector := solver st.posMatrix st.rhsVector
  let imageX : R := ((i : Int) : R) + 2 * distToSurface * normalX * (space.ddx : R)
  let imageY : R := ((j : Int) : R) + 2 * distToSurface * normalY * (space.ddy : R)
  let imageZ : R := ((k : Int) : R) + 2 * distToSurface * normalZ * (space.ddz : R)
  let Uo : Nat → R := (List.range 5).foldl (fun Uo m =>
    assign Uo m (rhsVector 0 m + rhsVector 1 m * imageX + rhsVector 2 m * imageY
      + rhsVector 3 m * imageZ)) (fun _ => 0)
  let Uo := assign Uo 1 (-Uo 1)
  let Uo := assign Uo 2 (-Uo 2)
  let Uo := assign Uo 3 (-Uo 3)
  some Uo
  else none

/-- Source function `BoundaryConditionGCIBM`: the conserved field after the
two sweeps, and the returned status. -/
def BoundaryConditionGCIBM {R : Type} [Field R] [DecidableEq R] (ops : RealOps R)
    (solver : (Nat → Nat → R) → (Nat → Nat → R) → Nat → Nat → R)
    (U : List R) (space : Space) (particle : Particle) (part : Partition)
    (flow : Flow R) : Option (List R × Int) :=
  let offset := space.nodeFlagOffset
  (forLoop (part.kSub 0) (part.kSup 0) (fun k U =>
    forLoop (part.jSub 0) (part.jSup 0) (fun j U =>
      forLoop (part.iSub 0) (part.iSup 0) (fun i U =>
        let idx := (k * space.jMax + j) * space.iMax + i
        (readFlag space.nodeFlag idx).bind fun flag =>
        if offset > flag then some U
        else
          let geoID := flag - offset
          (LinearReconstruction ops solver k j i geoID U space particle flow).bind fun Uo =>
          let idx := idx * 5
          (writeAt U (idx + 0) (Uo 0)).bind fun U =>
          (writeAt U (idx + 1) (Uo 0 * Uo 1)).bind fun U =>
          (writeAt U (idx + 2) (Uo 0 * Uo 2)).bind fun U =>
          (writeAt U (idx + 3) (Uo 0 * Uo 3)).bind fun U =>
          writeAt U (idx + 4) (Uo 4 / (flow.gamma - 1)
            + 1 / 2 * Uo 0 * (Uo 1 * Uo 1 + Uo 2 * Uo 2 + Uo 3 * Uo 3))) U) U) U).bind
  fun U =>
  (forLoop (part.kSub 0) (part.kSup 0) (fun k U =>
    forLoop (part.jSub 0) (part.jSup 0) (fun j U =>
      forLoop (part.iSub 0) (part.iSup 0) (fun i U =>
        let idx := (k * space.jMax + j) * space.iMax + i
        (readFlag space.nodeFlag idx).bind fun flag =>
        if -offset - particle.totalN < flag then some U
        else
          let geoID := flag + offset + particle.totalN
          (LinearReconstruction ops solver k j i geoID U space particle flow).bind fun Uo =>
          let idx := idx * 5
          (writeAt U (idx + 0) (Uo 0)).bind fun U =>
          (writeAt U (idx + 1) (Uo 0 * Uo 1)).bind fun U =>
          (writeAt U (idx + 2) (Uo 0 * Uo 2)).bind fun U =>
          (writeAt U (idx + 3) (Uo 0 * Uo 3)).bind fun U =>
          writeAt U (idx + 4) (Uo 4 / (flow.gamma - 1)
            + 1 / 2 * Uo 0 * (Uo 1 * Uo 1 + Uo 2 * Uo 2 + Uo 3 * Uo 3))) U) U) U).bind
  fun U => some (U, 0)

/-! ## Vocabulary of the reconstructor claims

Triples of node indices are written `(k, j, i)` for grid nodes, as in the
loop nests, and `(i, j, k)` for the image node, the image point and the
entries of the search path, as in `LinearReconstruction`. -/

/-- Entry `m` of the record of geometry `geoID`, as a number of `R`. -/
def geoEntry {R : Type} [Field R] (particle : Particle) (geoID m : Int) : R :=
  ((particle.headAddress (geoID * particle.entryN + m) : ℚ) : R)

/-- The vector `(distX, distY, distZ)` of `LinearReconstruction`: from the
centre of geometry `geoID` to node `(k, j, i)`. -/
def centreToNode {R : Type} [Field R] (space : Space) (particle : Particle)
    (k j i geoID : Int) : R × R × R :=
  ((space.xMin : R) + ((i - space.ng : Int) : R) * (space.dx : R) - geoEntry particle geoID 0,
    (space.yMin : R) + ((j - space.ng : Int) : R) * (space.dy : R) - geoEntry particle geoID 1,
    (space.zMin : R) + ((k - space.ng : Int) : R) * (space.dz : R) - geoEntry particle geoID 2)

/-- The value `distToCenter` of `LinearReconstruction`. -/
def distToCenter {R : Type} [Field R] (ops : RealOps R) (space : Space) (particle : Particle)
    (k j i geoID : Int) : R :=
  ops.sqrt
    ((centreToNode space particle k j i geoID).1 * (centreToNode space particle k j i geoID).1
      + (centreToNode space particle k j i geoID).2.1
        * (centreToNode space particle k j i geoID).2.1
      + (centreToNode space particle k j i geoID).2.2
        * (centreToNode space particle k j i geoID).2.2)

/-- The value `distToSurface` of `LinearReconstruction`: radius minus distance
to the centre. -/
def distToSurface {R : Type} [Field R] (ops : RealOps R) (space : Space)
    (particle : Particle) (k j i geoID : Int) : R :=
  geoEntry particle geoID 3 - distToCenter ops space particle k j i geoID

/-- The vector `(normalX, normalY, normalZ)` of `LinearReconstruction`. -/
def surfaceNormal {R : Type} [Field R] (ops : RealOps R) (space : Space)
    (particle : Particle) (k j i geoID : Int) : R × R × R :=
  ((centreToNode space particle k j i geoID).1 / distToCenter ops space particle k j i geoID,
    (centreToNode space particle k j i geoID).2.1
      / distToCenter ops space particle k j i geoID,
    (centreToNode space particle k j i geoID).2.2
      / distToCenter ops space particle k j i geoID)

/-- The exact image point `(imageX, imageY, imageZ)` of `LinearReconstruction`,
in index coordinates. -/
def imagePoint {R : Type} [Field R] (ops : RealOps R) (space : Space) (particle : Particle)
    (k j i geoID : Int) : R × R × R :=
  (((i : Int) : R) + 2 * distToSurface ops space particle k j i geoID
      * (surfaceNormal ops space particle k j i geoID).1 * (space.ddx : R),
    ((j : Int) : R) + 2 * distToSurface ops space particle k j i geoID
      * (surfaceNormal ops space particle k j i geoID).2.1 * (space.ddy : R),
    ((k : Int) : R) + 2 * distToSurface ops space particle k j i geoID
      * (surfaceNormal ops space particle k j i geoID).2.2 * (space.ddz : R))

/-- The truncated image node `(imageI, imageJ, imageK)` of
`LinearReconstruction`. -/
def imageNode {R : Type} [Field R] (ops : RealOps R) (space : Space) (particle : Particle)
    (k j i geoID : Int) : Int × Int × Int :=
  (i + ops.toInt (2 * distToSurface ops space particle k j i geoID
      * (surfaceNormal ops space particle k j i geoID).1 * (space.ddx : R)),
    j + ops.toInt (2 * distToSurface ops space particle k j i geoID
      * (surfaceNormal ops space particle k j i geoID).2.1 * (space.ddy : R)),
    k + ops.toInt (2 * distToSurface ops space particle k j i geoID
      * (surfaceNormal ops space particle k j i geoID).2.2 * (space.ddz : R)))

/-- Physical position of the point with index coordinates `(x, y, z)`: the
node `(k, j, i)` lies at the position of `(i, j, k)`. -/
def Space.position {R : Type} [Field R] (space : Space) (p : R × R × R) : R × R × R :=
  ((space.xMin : R) + (p.1 - ((space.ng : Int) : R)) * (space.dx : R),
    (space.yMin : R) + (p.2.1 - ((space.ng : Int) : R)) * (space.dy : R),
    (space.zMin : R) + (p.2.2 - ((space.ng : Int) : R)) * (space.dz : R))

/-- Centre of geometry `geoID`. -/
def geoCentre {R : Type} [Field R] (particle : Particle) (geoID : Int) : R × R × R :=
  (geoEntry particle geoID 0, geoEntry particle geoID 1, geoEntry particle geoID 2)

/-- Squared Euclidean distance of two points. -/
def distSq {R : Type} [Field R] (p q : R × R × R) : R :=
  (p.1 - q.1) * (p.1 - q.1) + (p.2.1 - q.2.1) * (p.2.1 - q.2.1)
    + (p.2.2 - q.2.2) * (p.2.2 - q.2.2)

/-- The empty stencil `LinearReconstruction` starts from. -/
def emptyStencil {R : Type} [Field R] : Stencil R :=
  { posMatrix := fun _ _ => 0, rhsVector := fun _ _ => 0, tally := 0 }

/-- The stencil search of `LinearReconstruction` around a given image node
`(imageI, imageJ, imageK)`. -/
def searchAround {R : Type} [Field R] (space : Space) (flow : Flow R) (U : List R)
    (node : Int × Int × Int) : Option (Stencil R) :=
  stencilLoop space flow U node.1 node.2.1 node.2.2 27 0 emptyStencil

/-- The stencil search of `LinearReconstruction` for node `(k, j, i)` and
geometry `geoID`. -/
def stencilSearch {R : Type} [Field R] (ops : RealOps R) (k j i geoID : Int) (U : List R)
    (space : Space) (particle : Particle) (flow : Flow R) : Option (Stencil R) :=
  searchAround space flow U (imageNode ops space particle k j i geoID)

/-- Value at the point `p` of the linear model with coefficient columns `X`,
for variable `m`. -/
def imageValue {R : Type} [Field R] (X : Nat → Nat → R) (p : R × R × R) (m : Nat) : R :=
  X 0 m + X 1 m * p.1 + X 2 m * p.2.1 + X 3 m * p.2.2

/-- Node `(ih, jh, kh)` of probe number `loop` around the image node. -/
def probeNode (node : Int × Int × Int) (loop : Nat) : Int × Int × Int :=
  (node.1 + (path.getD loop (0, 0, 0)).1, node.2.1 + (path.getD loop (0, 0, 0)).2.1,
    node.2.2 + (path.getD loop (0, 0, 0)).2.2)

/-- Flat index `idxh` of probe number `loop`. -/
def probeIdx (space : Space) (node : Int × Int × Int) (loop : Nat) : Int :=
  ((probeNode node loop).2.2 * space.jMax + (probeNode node loop).2.1) * space.iMax
    + (probeNode node loop).1

/-- Probe number `loop` hits a fluid node (flag `0`). -/
def probeFluid (space : Space) (node : Int × Int × Int) (loop : Nat) : Bool :=
  readFlag space.nodeFlag (probeIdx space node loop) == some 0

/-- The fluid probes among the first `loop` probes, in table order. -/
def fluidProbes (space : Space) (node : Int × Int × Int) (loop : Nat) : List Nat :=
  (List.range loop).filter (probeFluid space node)

/-- The five values `U[idx * 5 + 0 .. idx * 5 + 4]` of the node with flat
index `idx`; `none` when one of them lies outside the array. -/
def cellsAt {α : Type} (U : List α) (idx : Int) : Option (List α) :=
  (readAt U (idx * 5 + 0)).bind fun a0 =>
  (readAt U (idx * 5 + 1)).bind fun a1 =>
  (readAt U (idx * 5 + 2)).bind fun a2 =>
  (readAt U (idx * 5 + 3)).bind fun a3 =>
  (readAt U (idx * 5 + 4)).bind fun a4 => some [a0, a1, a2, a3, a4]

/-- The conserved state `BoundaryConditionGCIBM` writes for the primitives
`(rho, u, v, w, p)`. -/
def conservedOf {R : Type} [Field R] (gamma : R) : List R → List R
  | [rho, u, v, w, p] =>
    [rho, rho * u, rho * v, rho * w,
      p / (gamma - 1) + 1 / 2 * rho * (u * u + v * v + w * w)]
  | _ => []

/-- The primitives `(rho_h, u_h, v_h, w_h, p_h)` the stencil search recovers
from the conserved state of a node. -/
def primitiveOf {R : Type} [Field R] (gamma : R) : List R → List R
  | [U0, U1, U2, U3, U4] =>
    [U0, U1 / U0, U2 / U0, U3 / U0,
      (gamma - 1) * U0 * (U4 / U0
        - 1 / 2 * (U1 / U0 * (U1 / U0) + U2 / U0 * (U2 / U0) + U3 / U0 * (U3 / U0)))]
  | _ => []

/-- The first five entries of a scratch array. -/
def firstFive {α : Type} (Uo : Nat → α) : List α := [Uo 0, Uo 1, Uo 2, Uo 3, Uo 4]

/-- The stencil `st` holds the first `min 4 m` of the `m` fluid probes among
the first `loop` probes around `node`, in table order: row `r` of the
position matrix is `[1, ih, jh, kh]` and row `r` of the right hand side the
primitives of the `r`-th of them; the rows from `tally` on are zero. -/
def StencilUpTo {R : Type} [Field R] (space : Space) (flow : Flow R) (U : List R)
    (node : Int × Int × Int) (loop : Nat) (st : Stencil R) : Prop :=
  st.tally = min 4 (fluidProbes space node loop).length ∧
  (∀ r, r < st.tally → ∃ n cells, (fluidProbes space node loop)[r]? = some n ∧
    cellsAt U (probeIdx space node n) = some cells ∧
    (st.posMatrix r 0 = 1 ∧ st.posMatrix r 1 = (((probeNode node n).1 : Int) : R) ∧
      st.posMatrix r 2 = (((probeNode node n).2.1 : Int) : R) ∧
      st.posMatrix r 3 = (((probeNode node n).2.2 : Int) : R)) ∧
    ∀ m, m < 5 → st.rhsVector r m = (primitiveOf flow.gamma cells).getD m 0) ∧
  ∀ r, st.tally ≤ r → ∀ c, st.posMatrix r c = 0 ∧ st.rhsVector r c = 0

/-- Every probe the search around `node` examines (a probe is examined while
fewer than four fluid probes precede it) reads the flag array, and for a
fluid probe the field, inside the array. -/
def ProbesInBounds {α : Type} (space : Space) (U : List α) (node : Int × Int × Int) : Prop :=
  ∀ n, n < 27 → (fluidProbes space node n).length < 4 →
    (readFlag space.nodeFlag (probeIdx space node n)).isSome = true ∧
    (probeFluid space node n = true → (cellsAt U (probeIdx space node n)).isSome = true)

instance {α : Type} (space : Space) (U : List α) (node : Int × Int × Int) :
    Decidable (ProbesInBounds space U node) := by
  unfold ProbesInBounds; infer_instance

/-- The body of the two loop nests of `BoundaryConditionGCIBM` at node
`(k, j, i)`: a node whose flag satisfies `skip` is left alone (`continue`),
any other node is reconstructed for geometry `geo flag` and its five entries
are overwritten with the conserved state. -/
def applyBody {R : Type} [Field R] [DecidableEq R] (ops : RealOps R)
    (solver : (Nat → Nat → R) → (Nat → Nat → R) → Nat → Nat → R)
    (space : Space) (particle : Particle) (flow : Flow R) (skip : Int → Prop)
    [DecidablePred skip] (geo : Int → Int) (k j i : Int) (U : List R) : Option (List R) :=
  (readFlag space.nodeFlag ((k * space.jMax + j) * space.iMax + i)).bind fun flag =>
  if skip flag then some U
  else
    (LinearReconstruction ops solver k j i (geo flag) U space particle flow).bind fun Uo =>
    (writeAt U (((k * space.jMax + j) * space.iMax + i) * 5 + 0) (Uo 0)).bind fun U =>
    (writeAt U (((k * space.jMax + j) * space.iMax + i) * 5 + 1) (Uo 0 * Uo 1)).bind fun U =>
    (writeAt U (((k * space.jMax + j) * space.iMax + i) * 5 + 2) (Uo 0 * Uo 2)).bind fun U =>
    (writeAt U (((k * space.jMax + j) * space.iMax + i) * 5 + 3) (Uo 0 * Uo 3)).bind fun U =>
    writeAt U (((k * space.jMax + j) * space.iMax + i) * 5 + 4) (Uo 4 / (flow.gamma - 1)
      + 1 / 2 * Uo 0 * (Uo 1 * Uo 1 + Uo 2 * Uo 2 + Uo 3 * Uo 3))

/-- The two loop nests of `BoundaryConditionGCIBM` with the nodes visited in
the order of the list `ghostOrder` in the first and `solidOrder` in the
second; the source visits the nodes of region 0 in the order of the
`k`-`j`-`i` loop nest both times. -/
def applyInOrder {R : Type} [Field R] [DecidableEq R] (ops : RealOps R)
    (solver : (Nat → Nat → R) → (Nat → Nat → R) → Nat → Nat → R)
    (U : List R) (space : Space) (particle : Particle) (flow : Flow R)
    (ghostOrder solidOrder : List (Int × Int × Int)) : Option (List R) :=
  (foldOpt (fun x W => applyBody ops solver space particle flow
      (fun flag => space.nodeFlagOffset > flag) (fun flag => flag - space.nodeFlagOffset)
      x.1 x.2.1 x.2.2 W) ghostOrder U).bind fun U1 =>
  foldOpt (fun x W => applyBody ops solver space particle flow
      (fun flag => -space.nodeFlagOffset - particle.totalN < flag)
      (fun flag => flag + space.nodeFlagOffset + particle.totalN)
      x.1 x.2.1 x.2.2 W) solidOrder U1

/-- Every probe examined by a reconstruction of `BoundaryConditionGCIBM`
reads inside the arrays: for each node of region 0 with flag `f`, the probes
around the image node for geometry `f - offset` when `f ≥ offset`, and for
geometry `f + offset + totalN` when `f ≤ -offset - totalN`. -/
def ApplicatorInBounds {R : Type} [Field R] (ops : RealOps R) (U : List R) (space : Space)
    (particle : Particle) (part : Partition) : Prop :=
  ∀ x ∈ rangeNodes part, ∀ f ∈ space.flagAt x.1 x.2.1 x.2.2,
    (space.nodeFlagOffset ≤ f → ProbesInBounds space U
      (imageNode ops space particle x.1 x.2.1 x.2.2 (f - space.nodeFlagOffset))) ∧
    (f ≤ -space.nodeFlagOffset - particle.totalN → ProbesInBounds space U
      (imageNode ops space particle x.1 x.2.1 x.2.2
        (f + space.nodeFlagOffset + particle.totalN)))

instance {R : Type} [Field R] (ops : RealOps R) (U : List R) (space : Space)
    (particle : Particle) (part : Partition) :
    Decidable (ApplicatorInBounds ops U space particle part) := by
  unfold ApplicatorInBounds; infer_instance

/-- The unit normal of `LinearReconstruction` for node `(k, j, i)` and
geometry `geoID` is defined: the record `ptk[0..3]` of the geometry lies in
the geometry store of `totalN * entryN` reals, and `distToCenter`, the
divisor of the three quotients that form the normal, is non-zero. -/
def NormalDefined {R : Type} [Field R] (ops : RealOps R) (space : Space) (particle : Particle)
    (k j i geoID : Int) : Prop :=
  (0 ≤ geoID * particle.entryN ∧
    geoID * particle.entryN + 3 < particle.totalN * particle.entryN) ∧
  distToCenter ops space particle k j i geoID ≠ 0

instance {R : Type} [Field R] [DecidableEq R] (ops : RealOps R) (space : Space)
    (particle : Particle) (k j i geoID : Int) :
    Decidable (NormalDefined ops space particle k j i geoID) := by
  unfold NormalDefined; infer_instance

/-- Every quotient `LinearReconstruction` evaluates for node `(k, j, i)` and
geometry `geoID` is defined: the unit normal is, and the density
`U[idxh * 5 + 0]` of every fluid probe around the image node is non-zero. -/
def ReconstructionDefined {R : Type} [Field R] (ops : RealOps R) (U : List R) (space : Space)
    (particle : Particle) (k j i geoID : Int) : Prop :=
  NormalDefined ops space particle k j i geoID ∧
  ∀ n, n < 27 → probeFluid space (imageNode ops space particle k j i geoID) n = true →
    readAt U (probeIdx space (imageNode ops space particle k j i geoID) n * 5 + 0) ≠ some 0

instance {R : Type} [Field R] [DecidableEq R] (ops : RealOps R) (U : List R) (space : Space)
    (particle : Particle) (k j i geoID : Int) :
    Decidable (ReconstructionDefined ops U space particle k j i geoID) := by
  unfold ReconstructionDefined; infer_instance

/-- Every quotient `BoundaryConditionGCIBM` evaluates is defined: `gamma - 1`
is non-zero, and for each node of region 0 with flag `f` the reconstruction
for geometry `f - offset` when `f ≥ offset`, and for geometry
`f + offset + totalN` when `f ≤ -offset - totalN`, has its normal and its
quotients by the density defined. In particular no reconstructed node lies on
the centre of its geometry. -/
def ApplicatorDefined {R : Type} [Field R] (ops : RealOps R) (U : List R) (space : Space)
    (particle : Particle) (part : Partition) (flow : Flow R) : Prop :=
  flow.gamma ≠ 1 ∧
  ∀ x ∈ rangeNodes part, ∀ f ∈ space.flagAt x.1 x.2.1 x.2.2,
    (space.nodeFlagOffset ≤ f → ReconstructionDefined ops U space particle x.1 x.2.1 x.2.2
      (f - space.nodeFlagOffset)) ∧
    (f ≤ -space.nodeFlagOffset - particle.totalN →
      ReconstructionDefined ops U space particle x.1 x.2.1 x.2.2
        (f + space.nodeFlagOffset + particle.totalN))

instance {R : Type} [Field R] [DecidableEq R] (ops : RealOps R) (U : List R) (space : Space)
    (particle : Particle) (part : Partition) (flow : Flow R) :
    Decidable (ApplicatorDefined ops U space particle part flow) := by
  unfold ApplicatorDefined; infer_instance

/-- Determinant of a `3 × 3` matrix given by its rows. -/
def det3 {R : Type} [Field R] (a b c d e f g h i : R) : R :=
  a * (e * i - f * h) - b * (d * i - f * g) + c * (d * h - e * g)

/-- Determinant of the leading `4 × 4` block of `A`, expanded along row 0. -/
def det4 {R : Type} [Field R] (A : Nat → Nat → R) : R :=
  A 0 0 * det3 (A 1 1) (A 1 2) (A 1 3) (A 2 1) (A 2 2) (A 2 3) (A 3 1) (A 3 2) (A 3 3)
    - A 0 1 * det3 (A 1 0) (A 1 2) (A 1 3) (A 2 0) (A 2 2) (A 2 3) (A 3 0) (A 3 2) (A 3 3)
    + A 0 2 * det3 (A 1 0) (A 1 1) (A 1 3) (A 2 0) (A 2 1) (A 2 3) (A 3 0) (A 3 1) (A 3 3)
    - A 0 3 * det3 (A 1 0) (A 1 1) (A 1 2) (A 2 0) (A 2 1) (A 2 2) (A 3 0) (A 3 1) (A 3 2)

/-- Modelled from the spec: the source of `MatrixLinearSystemSolver` is not
among the sources. `solve(A, B) -> X` solving `A · X = B` for all right hand
sides at once, for the `4 × 4` systems of the reconstructor, by Cramer's
rule: entry `(r, m)` of the result is the determinant of `A` with column `r`
replaced by column `m` of `B`, over the determinant of `A`. -/
def cramerSolver {R : Type} [Field R] (A B : Nat → Nat → R) : Nat → Nat → R :=
  fun r m => det4 (fun a c => if c = r then B a m else A a c) / det4 A

/-! ## Concrete inputs of the reconstructor

The `5 × 5 × 5` grid of the classifier inputs with the final flags of a
classification, the gas constant `7/5` and a conserved field whose
primitives are affine in the node indices. Square roots are taken on the
rationals by search and are exact for squares of rationals, the only
arguments that occur on these inputs. -/

/-- Square root on the rationals: exact for the square of a rational. -/
def ratSqrt (x : ℚ) : ℚ :=
  (((List.range (x.num.toNat + 1)).find? fun a => a * a == x.num.toNat).getD 0 : Nat)
    / (((List.range (x.den + 1)).find? fun b => b * b == x.den).getD 1 : Nat)

/-- Square root and integer cast on the rationals. -/
def demoOps : RealOps ℚ := { sqrt := ratSqrt, toInt := truncToInt }

/-- Gas constant `7/5`. -/
def demoFlow : Flow ℚ := { gamma := 7 / 5 }

/-- Conserved field on the `5 × 5 × 5` grid with primitives
`rho = 1 + i`, `u = j`, `v = k`, `w = i + j`, `p = 1 + k` at node `(k, j, i)`. -/
def demoField : List ℚ :=
  (List.range 125).flatMap fun n =>
    conservedOf (7 / 5) [1 + ((n % 5 : Nat) : ℚ), ((n / 5 % 5 : Nat) : ℚ), ((n / 25 : Nat) : ℚ),
      ((n % 5 : Nat) : ℚ) + ((n / 5 % 5 : Nat) : ℚ), 1 + ((n / 25 : Nat) : ℚ)]

/-- Final flags of the one-sphere input: the centre node (flat index 62) is
solid with ghost neighbours, its six face neighbours are ghosts, the other
nodes of region 0 are fluid. -/
def oneSphereFlags : List Int :=
  (List.range 125).map fun n =>
    if n = 62 then -11 else if n ∈ [37, 57, 61, 63, 67, 87] then 10
    else if (1 ≤ n % 5 ∧ n % 5 < 4) ∧ (1 ≤ n / 5 % 5 ∧ n / 5 % 5 < 4)
      ∧ (1 ≤ n / 25 ∧ n / 25 < 4) then 0 else 1

/-- The classified grid of the one-sphere input. -/
def oneSphereGrid : Space := stage demoSpace oneSphereFlags

/-- Final flags of the input with the sphere of radius `3/5` centred half a
cell west of node `(2, 2, 2)`: node `(2, 2, 1)` (flat index 61) is a ghost,
the other nodes of region 0 are fluid. -/
def offNodeFlags : List Int :=
  (List.range 125).map fun n =>
    if n = 61 then 10
    else if (1 ≤ n % 5 ∧ n % 5 < 4) ∧ (1 ≤ n / 5 % 5 ∧ n / 5 % 5 < 4)
      ∧ (1 ≤ n / 25 ∧ n / 25 < 4) then 0 else 1

/-- The classified grid of the off-node input. -/
def offNodeGrid : Space := stage demoSpace offNodeFlags

/-- Region 0 is the line of the three nodes `(2, 2, 1)`, `(2, 2, 2)`,
`(2, 2, 3)`. -/
def linePart : Partition :=
  { kSub := (fun _ => 2), kSup := (fun _ => 3), jSub := (fun _ => 2), jSup := (fun _ => 3), iSub := (fun _ => 1), iSup := (fun _ => 4) }

/-- Final flags of the off-node sphere classified over the line: node
`(2, 2, 1)` is a ghost, nodes `(2, 2, 2)` and `(2, 2, 3)` are fluid, every
other node is a boundary node. -/
def lineFlags : List Int :=
  (List.range 125).map fun n => if n = 61 then 10 else if n = 62 ∨ n = 63 then 0 else 1

/-- The classified grid of the off-node sphere over the line. -/
def lineGrid : Space := stage demoSpace lineFlags

/-- One sphere of radius `1` centred half a cell west of node `(2, 2, 2)`. -/
def shiftedSphere : Particle := sphereStore 1 [3 / 2, 2, 2, 1]

/-- Final flags of the shifted-sphere input: nodes `(2, 2, 1)` and
`(2, 2, 2)` are ghosts, the other nodes of region 0 are fluid. -/
def shiftedFlags : List Int :=
  (List.range 125).map fun n =>
    if n = 61 ∨ n = 62 then 10
    else if (1 ≤ n % 5 ∧ n % 5 < 4) ∧ (1 ≤ n / 5 % 5 ∧ n / 5 % 5 < 4)
      ∧ (1 ≤ n / 25 ∧ n / 25 < 4) then 0 else 1

/-- The classified grid of the shifted-sphere input. -/
def shiftedGrid : Space := stage demoSpace shiftedFlags

/-! ## The single-sphere scenario -/

/-- Chebyshev distance of two nodes. -/
def chebyshev (x c : Int × Int × Int) : Nat :=
  max (max (x.1 - c.1).natAbs (x.2.1 - c.2.1).natAbs) (x.2.2 - c.2.2).natAbs

/-- The 26 non-zero offsets of `{-1, 0, 1}³`. -/
def shellOffsets : List (Int × Int × Int) :=
  (boxNodes (-1) 2 (-1) 2 (-1) 2).filter fun d => d ≠ (0, 0, 0)

/-- The shell of the 26 nodes around node `c`. -/
def ghostShell (c : Int × Int × Int) : List (Int × Int × Int) :=
  shellOffsets.map fun d => (c.1 + d.1, c.2.1 + d.2.1, c.2.2 + d.2.2)

/-- A grid of `12` nodes per axis with ghost width `2` (extended dimensions
`16 × 16 × 16`), unit spacing. -/
def shellSpace : Space :=
  { nx := 12, ny := 12, nz := 12, ng := 2, iMax := 16, jMax := 16, kMax := 16, nMax := 4096, dx := 1, dy := 1, dz := 1, ddx := 1, ddy := 1, ddz := 1, xMin := 0, yMin := 0, zMin := 0, nodeFlagOffset := 0, nodeFlag := List.replicate 4096 0 }

/-- Region 0 is the interior range `[ng + 1, n + ng - 1) = [3, 13)` on each
axis: `10 × 10 × 10` nodes. -/
def shellPart : Partition :=
  { kSub := (fun _ => 3), kSup := (fun _ => 13), jSub := (fun _ => 3), jSup := (fun _ => 13), iSub := (fun _ => 3), iSup := (fun _ => 13) }

/-- One sphere of radius `2` centred on node `(7, 7, 7)`, at position
`(5, 5, 5)`. -/
def shellSphere : Particle := sphereStore 1 [5, 5, 5, 2]

/-- The single-sphere scenario: unit spacing (and unit reciprocal spacing),
one geometry, of radius `2`, centred on the node `c = (ck, cj, ci)`, which
lies at least three nodes from the first and from the last node of region 0
on each axis. -/
def SingleSphere (space : Space) (particle : Particle) (part : Partition)
    (c : Int × Int × Int) : Prop :=
  (space.dx = 1 ∧ space.dy = 1 ∧ space.dz = 1 ∧
    space.ddx = 1 ∧ space.ddy = 1 ∧ space.ddz = 1) ∧
  particle.totalN = 1 ∧
  (particle.ptk 0 0 = space.xMin + ((c.2.2 - space.ng : Int) : ℚ) ∧
    particle.ptk 0 1 = space.yMin + ((c.2.1 - space.ng : Int) : ℚ) ∧
    particle.ptk 0 2 = space.zMin + ((c.1 - space.ng : Int) : ℚ)) ∧
  particle.ptk 0 3 = 2 ∧
  (part.kSub 0 + 3 ≤ c.1 ∧ c.1 + 3 < part.kSup 0) ∧
  (part.jSub 0 + 3 ≤ c.2.1 ∧ c.2.1 + 3 < part.jSup 0) ∧
  (part.iSub 0 + 3 ≤ c.2.2 ∧ c.2.2 + 3 < part.iSup 0)

instance (space : Space) (particle : Particle) (part : Partition) (c : Int × Int × Int) :
    Decidable (SingleSphere space particle part c) := by
  unfold SingleSphere; infer_instance

/-- Number of nodes of region 0 whose flag satisfies `p`. -/
def flagCount (s : Space) (part : Partition) (p : Int → Bool) : Nat :=
  ((rangeNodes part).filter fun x => (s.flagAt x.1 x.2.1 x.2.2).any p).length

/-- Node `x` is solid (flag `≤ -offset`) and one of its six face neighbours
is a ghost (flag `≥ offset`). -/
def touchesGhost (s : Space) (x : Int × Int × Int) : Bool :=
  ((s.flagAt x.1 x.2.1 x.2.2).any fun f => decide (f ≤ -s.nodeFlagOffset)) &&
    (faceNeighbours x.1 x.2.1 x.2.2).any fun n =>
      (s.flagAt n.1 n.2.1 n.2.2).any fun g => decide (s.nodeFlagOffset ≤ g)

/-! ## Vocabulary of the partition and neighbour-access claims -/

/-- Coordinate `x` lies in the interior range `[ng + 1, n + ng - 1)` of an
axis with `n` nodes and ghost width `ng`. -/
def InteriorRange (n ng x : Int) : Prop := ng + 1 ≤ x ∧ x < n + ng - 1

instance (n ng x : Int) : Decidable (InteriorRange n ng x) := by
  unfold InteriorRange; infer_instance

/-- At least two of the three coordinates of node `(k, j, i)` lie in the
interior range of their axis. -/
def TwoInterior (space : Space) (k j i : Int) : Prop :=
  (InteriorRange space.nz space.ng k ∧ InteriorRange space.ny space.ng j) ∨
    (InteriorRange space.nz space.ng k ∧ InteriorRange space.nx space.ng i) ∨
    (InteriorRange space.ny space.ng j ∧ InteriorRange space.nx space.ng i)

instance (space : Space) (k j i : Int) : Decidable (TwoInterior space k j i) := by
  unfold TwoInterior; infer_instance

/-- Node `(k, j, i)` belongs to the extended grid
`[0, nx + 2 ng) × [0, ny + 2 ng) × [0, nz + 2 ng)`. -/
def InExtended (space : Space) (k j i : Int) : Prop :=
  (0 ≤ k ∧ k < space.nz + 2 * space.ng) ∧ (0 ≤ j ∧ j < space.ny + 2 * space.ng) ∧
    (0 ≤ i ∧ i < space.nx + 2 * space.ng)

instance (space : Space) (k j i : Int) : Decidable (InExtended space k j i) := by
  unfold InExtended; infer_instance

/-- The number of the region that holds node `(k, j, i)` when the node lies
in the extended grid with at least two coordinates in the interior range:
read off the one coordinate that may leave the interior range (exterior
ghost low or high, boundary face low or high), else `12`. -/
def regionOf (space : Space) (k j i : Int) : Nat :=
  if i < space.ng then 0 else if space.nx + space.ng ≤ i then 1
  else if j < space.ng then 2 else if space.ny + space.ng ≤ j then 3
  else if k < space.ng then 4 else if space.nz + space.ng ≤ k then 5
  else if i = space.ng then 6 else if i = space.nx + space.ng - 1 then 7
  else if j = space.ng then 8 else if j = space.ny + space.ng - 1 then 9
  else if k = space.ng then 10 else if k = space.nz + space.ng - 1 then 11 else 12

/-- The six flat indices `idxW`, `idxE`, `idxS`, `idxN`, `idxF`, `idxB` that
passes 3 and 4 compute for node `(k, j, i)`, in this order. -/
def neighbourIdx (space : Space) (k j i : Int) : List Int :=
  [(k * space.jMax + j) * space.iMax + i - 1, (k * space.jMax + j) * space.iMax + i + 1,
    (k * space.jMax + j - 1) * space.iMax + i, (k * space.jMax + j + 1) * space.iMax + i,
    ((k - 1) * space.jMax + j) * space.iMax + i, ((k + 1) * space.jMax + j) * space.iMax + i]

/-- Fifty-four spheres of radius `1/2` on node `(1, 1, 1)` followed by
sphere 54 of radius `6/5` on node `(2, 2, 2)`. -/
def manySpheres : Particle :=
  sphereStore 55 ((List.replicate 54 [1, 1, 1, 1 / 2]).flatten ++ [2, 2, 2, 6 / 5])

/-- The `5 × 5 × 5` grid with every node fluid. -/
def fluidGrid : Space := stage demoSpace (List.replicate 125 0)

/-! ## Entropy fix of the TVD scheme (`tvd.c`)

The function `Q` works on `Real` numbers; it is embedded over an arbitrary
linear ordered field in exact arithmetic. Its quotient is fallible: `none`
stands for a division by zero. -/

/-- The C quotient `x / y` of two reals; `none` for a zero divisor. -/
def divide {R : Type} [LinearOrderedField R] (x y : R) : Option R :=
  if y = 0 then none else some (x / y)

/-- Source function `Q` of `tvd.c`: `fabs(z)` when `fabs(z) >= delta`, else
`0.5 * (z * z / delta + delta)`. -/
def Q {R : Type} [LinearOrderedField R] (z delta : R) : Option R :=
  if |z| ≥ delta then some |z|
  else (divide (z * z) delta).bind fun q => some (1 / 2 * (q + delta))

/-! ## Loop lemmas -/

theorem mem_intsFrom (x : Int) : ∀ (n : Nat) (i : Int), x ∈ intsFrom i n ↔ i ≤ x ∧ x < i + n
  | 0, i => by simp [intsFrom]
  | n + 1, i => by
    simp only [intsFrom, List.mem_cons, mem_intsFrom x n (i + 1)]
    push_cast
    omega

theorem mem_intRange {x lo hi : Int} : x ∈ intRange lo hi ↔ lo ≤ x ∧ x < hi := by
  unfold intRange
  rw [mem_intsFrom]
  omega

theorem nodup_intsFrom : ∀ (n : Nat) (i : Int), (intsFrom i n).Nodup
  | 0, _ => by simp [intsFrom]
  | n + 1, i => by
    simp only [intsFrom, List.nodup_cons, mem_intsFrom, nodup_intsFrom n (i + 1), and_true]
    omega

theorem nodup_intRange (lo hi : Int) : (intRange lo hi).Nodup := nodup_intsFrom _ _

theorem loopFrom_eq_foldOpt {σ : Type} (body : Int → σ → Option σ) :
    ∀ (n : Nat) (i : Int) (s : σ), loopFrom body i n s = foldOpt body (intsFrom i n) s
  | 0, _, _ => rfl
  | n + 1, i, s => by
    simp only [loopFrom, intsFrom, foldOpt]
    cases body i s with
    | none => rfl
    | some s' => exact loopFrom_eq_foldOpt body n (i + 1) s'

theorem forLoop_eq_foldOpt {σ : Type} (lo hi : Int) (body : Int → σ → Option σ) (s : σ) :
    forLoop lo hi body s = foldOpt body (intRange lo hi) s :=
  loopFrom_eq_foldOpt body _ _ _

theorem foldOpt_append {α σ : Type} (body : α → σ → Option σ) :
    ∀ (l₁ l₂ : List α) (s : σ),
      foldOpt body (l₁ ++ l₂) s = (foldOpt body l₁ s).bind (foldOpt body l₂)
  | [], _, _ => rfl
  | x :: xs, l₂, s => by
    simp only [List.cons_append, foldOpt]
    cases body x s with
    | none => rfl
    | some s' => exact foldOpt_append body xs l₂ s'

theorem foldOpt_flatMap {α β σ : Type} (body : β → σ → Option σ) (g : α → List β) :
    ∀ (l : List α) (s : σ),
      foldOpt body (l.flatMap g) s = foldOpt (fun a t => foldOpt body (g a) t) l s
  | [], _ => rfl
  | a :: l, s => by
    simp only [List.flatMap_cons, foldOpt_append, foldOpt]
    cases foldOpt body (g a) s with
    | none => rfl
    | some s' => exact foldOpt_flatMap body g l s'

theorem foldOpt_map {α β σ : Type} (body : β → σ → Option σ) (g : α → β) :
    ∀ (l : List α) (s : σ),
      foldOpt body (l.map g) s = foldOpt (fun a t => body (g a) t) l s
  | [], _ => rfl
  | a :: l, s => by
    simp only [List.map_cons, foldOpt]
    cases body (g a) s with
    | none => rfl
    | some s' => exact foldOpt_map body g l s'

/-- A `k`-`j`-`i` loop nest is the sequential execution of its body over the
nodes of the box. -/
theorem sweep_eq_foldOpt {σ : Type} (kLo kHi jLo jHi iLo iHi : Int)
    (body : Int → Int → Int → σ → Option σ) (s : σ) :
    forLoop kLo kHi (fun k t => forLoop jLo jHi (fun j t =>
      forLoop iLo iHi (fun i t => body k j i t) t) t) s
    = foldOpt (fun x t => body x.1 x.2.1 x.2.2 t) (boxNodes kLo kHi jLo jHi iLo iHi) s := by
  unfold boxNodes
  rw [foldOpt_flatMap, forLoop_eq_foldOpt]
  congr 1
  funext k t
  rw [foldOpt_flatMap, forLoop_eq_foldOpt]
  congr 1
  funext j u
  rw [foldOpt_map, forLoop_eq_foldOpt]

theorem mem_boxNodes {kLo kHi jLo jHi iLo iHi : Int} {x : Int × Int × Int} :
    x ∈ boxNodes kLo kHi jLo jHi iLo iHi ↔
      (kLo ≤ x.1 ∧ x.1 < kHi) ∧ (jLo ≤ x.2.1 ∧ x.2.1 < jHi) ∧ (iLo ≤ x.2.2 ∧ x.2.2 < iHi) := by
  obtain ⟨k, j, i⟩ := x
  simp only [boxNodes, List.mem_flatMap, List.mem_map, mem_intRange, Prod.mk.injEq]
  constructor
  · rintro ⟨k', hk, j', hj, i', hi, rfl, rfl, rfl⟩
    exact ⟨hk, hj, hi⟩
  · rintro ⟨hk, hj, hi⟩
    exact ⟨k, hk, j, hj, i, hi, rfl, rfl, rfl⟩

theorem nodup_boxNodes (kLo kHi jLo jHi iLo iHi : Int) :
    (boxNodes kLo kHi jLo jHi iLo iHi).Nodup := by
  unfold boxNodes
  rw [List.nodup_flatMap]
  refine ⟨fun k _ => ?_, ?_⟩
  · rw [List.nodup_flatMap]
    refine ⟨fun j _ => ?_, ?_⟩
    · refine (nodup_intRange iLo iHi).map ?_
      intro a b h
      simpa using h
    · refine (nodup_intRange jLo jHi).pairwise_of_forall_ne ?_
      intro a _ b _ hab x hx hy
      simp only [List.mem_map] at hx hy
      obtain ⟨_, _, rfl⟩ := hx
      obtain ⟨_, _, h⟩ := hy
      simp only [Prod.mk.injEq] at h
      exact hab h.2.1.symm
  · refine (nodup_intRange kLo kHi).pairwise_of_forall_ne ?_
    intro a _ b _ hab x hx hy
    simp only [List.mem_flatMap, List.mem_map] at hx hy
    obtain ⟨_, _, _, _, rfl⟩ := hx
    obtain ⟨_, _, _, _, h⟩ := hy
    simp only [Prod.mk.injEq] at h
    exact hab h.1.symm

/-! ## Array access -/

theorem readFlag_bounds {flags : List Int} {p u : Int} (h : readFlag flags p = some u) :
    0 ≤ p ∧ p < flags.length := by
  unfold readFlag at h
  split at h
  · rename_i h0
    refine ⟨h0, ?_⟩
    have hlt : p.toNat < flags.length := by
      by_contra hge
      rw [List.getElem?_eq_none (Nat.le_of_not_lt hge)] at h
      exact Option.noConfusion h
    omega
  · exact Option.noConfusion h

theorem readFlag_of_bounds {flags : List Int} {p : Int} (h0 : 0 ≤ p) (h1 : p < flags.length) :
    ∃ u, readFlag flags p = some u := by
  have hlt : p.toNat < flags.length := by omega
  exact ⟨flags[p.toNat], by simp [readFlag, h0, List.getElem?_eq_getElem hlt]⟩

theorem writeFlag_spec {flags : List Int} {p u : Int} (v : Int)
    (h : readFlag flags p = some u) :
    ∃ flags', writeFlag flags p v = some flags' ∧
      ∀ q, readFlag flags' q = if q = p then some v else readFlag flags q := by
  obtain ⟨h0, h1⟩ := readFlag_bounds h
  have hlt : p.toNat < flags.length := by omega
  refine ⟨flags.set p.toNat v, by simp [writeFlag, h0, hlt], fun q => ?_⟩
  unfold readFlag
  by_cases hq : 0 ≤ q
  · simp only [hq, if_true, List.getElem?_set]
    by_cases hqp : q = p
    · subst hqp
      simp [hlt]
    · have hne : p.toNat ≠ q.toNat := by omega
      simp [hqp, hne]
  · have hqp : q ≠ p := by omega
    simp [hq, hqp]

theorem readFlag_ext {a b : List Int} (h : ∀ p, readFlag a p = readFlag b p) : a = b := by
  apply List.ext_getElem?
  intro n
  have := h (n : Int)
  simpa [readFlag] using this

/-! ## In-place sweeps -/

/-- Invariant form of the sweep theorem: `done` has been processed, `L` is
still to be visited. -/
theorem foldOpt_pointwise_aux {α : Type} (key : α → Int) (new : α → Int)
    (body : α → List Int → Option (List Int)) (old : List Int) (All : List α)
    (hnodup : (All.map key).Nodup)
    (hbody : ∀ x ∈ All, ∀ c, readFlag c (key x) = readFlag old (key x) →
      (∀ p, readFlag c p = readFlag old p ∨
        ∃ y ∈ All, key y = p ∧ readFlag c p = some (new y)) →
      ∃ c', body x c = some c' ∧
        ∀ p, readFlag c' p = if p = key x then some (new x) else readFlag c p) :
    ∀ (L done : List α) (cur : List Int), done ++ L = All →
      (∀ x ∈ done, readFlag cur (key x) = some (new x)) →
      (∀ p, (∀ x ∈ done, key x ≠ p) → readFlag cur p = readFlag old p) →
      ∃ res, foldOpt body L cur = some res ∧
        (∀ x ∈ All, readFlag res (key x) = some (new x)) ∧
        (∀ p, (∀ x ∈ All, key x ≠ p) → readFlag res p = readFlag old p)
  | [], done, cur, hsplit, hdone, hrest => by
    rw [List.append_nil] at hsplit
    subst hsplit
    exact ⟨cur, rfl, hdone, hrest⟩
  | x :: xs, done, cur, hsplit, hdone, hrest => by
    have hxAll : x ∈ All := by rw [← hsplit]; simp
    have hdoneAll : ∀ y ∈ done, y ∈ All := fun y hy => by rw [← hsplit]; simp [hy]
    have hfresh : ∀ y ∈ done, key y ≠ key x := by
      intro y hy heq
      rw [← hsplit, List.map_append, List.map_cons, List.nodup_append] at hnodup
      exact hnodup.2.2 (List.mem_map_of_mem key hy) (heq ▸ List.mem_cons_self _ _)
    have hcur : ∀ p, readFlag cur p = readFlag old p ∨
        ∃ y ∈ All, key y = p ∧ readFlag cur p = some (new y) := by
      intro p
      by_cases hp : ∃ y ∈ done, key y = p
      · obtain ⟨y, hy, rfl⟩ := hp
        exact Or.inr ⟨y, hdoneAll y hy, rfl, hdone y hy⟩
      · exact Or.inl (hrest p fun y hy heq => hp ⟨y, hy, heq⟩)
    obtain ⟨c', hc', hread⟩ := hbody x hxAll cur (hrest _ hfresh) hcur
    have hsplit' : (done ++ [x]) ++ xs = All := by rw [← hsplit]; simp
    have hdone' : ∀ y ∈ done ++ [x], readFlag c' (key y) = some (new y) := by
      intro y hy
      rw [hread]
      rcases List.mem_append.1 hy with hy | hy
      · rw [if_neg (hfresh y hy)]
        exact hdone y hy
      · rw [List.mem_singleton.1 hy, if_pos rfl]
    have hrest' : ∀ p, (∀ y ∈ done ++ [x], key y ≠ p) → readFlag c' p = readFlag old p := by
      intro p hp
      rw [hread, if_neg (fun h => hp x (by simp) h.symm)]
      exact hrest p fun y hy => hp y (by simp [hy])
    obtain ⟨res, hres, h1, h2⟩ :=
      foldOpt_pointwise_aux key new body old All hnodup hbody xs (done ++ [x]) c'
        hsplit' hdone' hrest'
    exact ⟨res, by simp [foldOpt, hc', hres], h1, h2⟩

/-- An in-place sweep whose body, at each work item, overwrites the item's
own cell with a value that does not depend on which other cells have already
been overwritten, computes the simultaneous update. -/
theorem foldOpt_pointwise {α : Type} (key : α → Int) (new : α → Int)
    (body : α → List Int → Option (List Int)) (old : List Int) (All : List α)
    (hnodup : (All.map key).Nodup)
    (hbody : ∀ x ∈ All, ∀ c, readFlag c (key x) = readFlag old (key x) →
      (∀ p, readFlag c p = readFlag old p ∨
        ∃ y ∈ All, key y = p ∧ readFlag c p = some (new y)) →
      ∃ c', body x c = some c' ∧
        ∀ p, readFlag c' p = if p = key x then some (new x) else readFlag c p) :
    ∃ res, foldOpt body All old = some res ∧
      (∀ x ∈ All, readFlag res (key x) = some (new x)) ∧
      (∀ p, (∀ x ∈ All, key x ≠ p) → readFlag res p = readFlag old p) :=
  foldOpt_pointwise_aux key new body old All hnodup hbody All [] old rfl
    (fun _ h => absurd h (List.not_mem_nil _)) (fun _ _ => rfl)

/-! ## Flat index arithmetic -/

theorem divmod_unique {m a r a' r' : Int} (hr : 0 ≤ r ∧ r < m) (hr' : 0 ≤ r' ∧ r' < m)
    (h : a * m + r = a' * m + r') : a = a' ∧ r = r' := by
  have hm : 0 < m := by omega
  have ha : a = a' := by
    rcases lt_trichotomy a a' with hlt | heq | hgt
    · exfalso
      have : (a + 1) * m ≤ a' * m := Int.mul_le_mul_of_nonneg_right (by omega) hm.le
      linarith
    · exact heq
    · exfalso
      have : (a' + 1) * m ≤ a * m := Int.mul_le_mul_of_nonneg_right (by omega) hm.le
      linarith
  subst ha
  exact ⟨rfl, by linarith⟩

/-- The flat index determines the node when `j` and `i` are inside the grid. -/
theorem idx_inj {iMax jMax k j i k' j' i' : Int}
    (hj : 0 ≤ j ∧ j < jMax) (hi : 0 ≤ i ∧ i < iMax)
    (hj' : 0 ≤ j' ∧ j' < jMax) (hi' : 0 ≤ i' ∧ i' < iMax)
    (h : (k * jMax + j) * iMax + i = (k' * jMax + j') * iMax + i') :
    k = k' ∧ j = j' ∧ i = i' := by
  obtain ⟨h1, h2⟩ := divmod_unique hi hi' h
  obtain ⟨h3, h4⟩ := divmod_unique hj hj' h1
  exact ⟨h3, h4, h2⟩

/-- Flat indices of the slab `a ≤ k < b` lie in `[a·M, b·M)`, `M = jMax·iMax`. -/
theorem idx_slab {iMax jMax k j i a b : Int}
    (hk : a ≤ k ∧ k < b) (hj : 0 ≤ j ∧ j < jMax) (hi : 0 ≤ i ∧ i < iMax) :
    a * (jMax * iMax) ≤ (k * jMax + j) * iMax + i ∧
      (k * jMax + j) * iMax + i < b * (jMax * iMax) := by
  have hjM : 0 < jMax := by omega
  have hiM : 0 < iMax := by omega
  have h1 : a * jMax ≤ k * jMax := Int.mul_le_mul_of_nonneg_right hk.1 hjM.le
  have h2 : (k + 1) * jMax ≤ b * jMax := Int.mul_le_mul_of_nonneg_right (by omega) hjM.le
  have h3 : a * jMax * iMax ≤ (k * jMax + j) * iMax :=
    Int.mul_le_mul_of_nonneg_right (by linarith) hiM.le
  have h4 : (k * jMax + j + 1) * iMax ≤ b * jMax * iMax :=
    Int.mul_le_mul_of_nonneg_right (by linarith) hiM.le
  constructor
  · linarith [mul_assoc a jMax iMax]
  · linarith [mul_assoc b jMax iMax]

theorem one_le_stride {iMax jMax : Int} (hj : 0 < jMax) (hi : 0 < iMax) :
    iMax ≤ jMax * iMax := by
  have : 1 * iMax ≤ jMax * iMax := Int.mul_le_mul_of_nonneg_right (by omega) hi.le
  linarith

theorem RangeInside.inBounds {space : Space} {part : Partition}
    (h : RangeInside space part) : RangeInBounds space part := by
  unfold RangeInside at h
  unfold RangeInBounds
  omega

theorem mem_rangeNodes {part : Partition} {x : Int × Int × Int} :
    x ∈ rangeNodes part ↔ InRange part x.1 x.2.1 x.2.2 := mem_boxNodes

theorem nodup_keys {jMax iMax : Int} {L : List (Int × Int × Int)} (hL : L.Nodup)
    (hin : ∀ x ∈ L, (0 ≤ x.2.1 ∧ x.2.1 < jMax) ∧ (0 ≤ x.2.2 ∧ x.2.2 < iMax)) :
    (L.map (nodeKey jMax iMax)).Nodup := by
  refine List.Nodup.map_on ?_ hL
  rintro ⟨k, j, i⟩ hx ⟨k', j', i'⟩ hy h
  obtain ⟨h1, h2, h3⟩ := idx_inj (hin _ hx).1 (hin _ hx).2 (hin _ hy).1 (hin _ hy).2 h
  simp only at h1 h2 h3
  rw [h1, h2, h3]

/-- Every node of region 0 and its six flat neighbours are inside the array. -/
theorem range_idx_bounds {space : Space} {part : Partition} (hwf : space.WellFormed)
    (hin : RangeInBounds space part) {k j i : Int} (hx : InRange part k j i) :
    (0 ≤ j ∧ j < space.jMax) ∧ (0 ≤ i ∧ i < space.iMax) ∧
    space.jMax * space.iMax ≤ (k * space.jMax + j) * space.iMax + i ∧
    (k * space.jMax + j) * space.iMax + i + space.jMax * space.iMax <
      (space.nodeFlag.length : Int) ∧
    1 ≤ space.iMax ∧ space.iMax ≤ space.jMax * space.iMax := by
  obtain ⟨h1, h2⟩ := hwf
  obtain ⟨hk, hj, hi⟩ := hin
  obtain ⟨xk, xj, xi⟩ := hx
  have hj' : 0 ≤ j ∧ j < space.jMax := by omega
  have hi' : 0 ≤ i ∧ i < space.iMax := by omega
  have hs := idx_slab (a := 1) (b := space.kMax - 1) (k := k) (by omega) hj' hi'
  have hst := @one_le_stride space.iMax space.jMax (by omega) (by omega)
  refine ⟨hj', hi', by linarith, ?_, by omega, hst⟩
  rw [h2, h1]
  have : space.iMax * space.jMax * space.kMax
      = (space.kMax - 1) * (space.jMax * space.iMax) + space.jMax * space.iMax := by ring
  linarith

theorem range_key_bounds {space : Space} {part : Partition} (hwf : space.WellFormed)
    (hin : RangeInBounds space part) :
    ∀ x ∈ rangeNodes part, 0 ≤ nodeKey space.jMax space.iMax x ∧
      nodeKey space.jMax space.iMax x < space.nodeFlag.length := by
  intro x hx
  obtain ⟨-, -, hlo, hhi, h1, hst⟩ := range_idx_bounds hwf hin (mem_rangeNodes.1 hx)
  unfold nodeKey
  omega

/-! ## The 32-bit product test -/

theorem wrap32_modEq (x : Int) : wrap32 x ≡ x [ZMOD 4294967296] := by
  unfold wrap32 Int.ModEq
  omega

theorem wrap32_eq_zero_iff (x : Int) : wrap32 x = 0 ↔ x % 4294967296 = 0 := by
  unfold wrap32
  omega

theorem prod32_eq_zero_iff (a b c d e f : Int) :
    prod32 a b c d e f = 0 ↔ (4294967296 : Int) ∣ a * b * c * d * e * f := by
  have h1 : mul32 a b ≡ a * b [ZMOD 4294967296] := wrap32_modEq _
  have h2 : mul32 (mul32 a b) c ≡ a * b * c [ZMOD 4294967296] :=
    (wrap32_modEq _).trans (h1.mul_right c)
  have h3 : mul32 (mul32 (mul32 a b) c) d ≡ a * b * c * d [ZMOD 4294967296] :=
    (wrap32_modEq _).trans (h2.mul_right d)
  have h4 : mul32 (mul32 (mul32 (mul32 a b) c) d) e ≡ a * b * c * d * e [ZMOD 4294967296] :=
    (wrap32_modEq _).trans (h3.mul_right e)
  have h5 := h4.mul_right f
  unfold prod32
  rw [mul32, wrap32_eq_zero_iff, h5, Int.dvd_iff_emod_eq_zero]

theorem prod32_zero_congr {a b c d e f a' b' c' d' e' f' : Int}
    (ha : a'.natAbs = a.natAbs) (hb : b'.natAbs = b.natAbs) (hc : c'.natAbs = c.natAbs)
    (hd : d'.natAbs = d.natAbs) (he : e'.natAbs = e.natAbs) (hf : f'.natAbs = f.natAbs) :
    prod32 a' b' c' d' e' f' = 0 ↔ prod32 a b c d e f = 0 := by
  have key : ∀ x : Int, (4294967296 : Int) ∣ x ↔ (4294967296 : Nat) ∣ x.natAbs := fun x => by
    rw [← Int.natCast_dvd]
    rfl
  rw [prod32_eq_zero_iff, prod32_eq_zero_iff, key, key]
  simp only [Int.natAbs_mul, ha, hb, hc, hd, he, hf]

theorem natAbs_ghostRule (offset jMax iMax : Int) (f : Int → Int) (p : Int) :
    (ghostRule offset jMax iMax f p).natAbs = (f p).natAbs := by
  unfold ghostRule
  split_ifs <;> simp

theorem solid_ghostNeighbourRule (offset : Int) (totalN : Nat) (jMax iMax : Int)
    (f : Int → Int) (p : Int) :
    (-offset ≥ ghostNeighbourRule offset totalN jMax iMax f p) ↔ -offset ≥ f p := by
  unfold ghostNeighbourRule
  split_ifs <;> omega

theorem readFlag_eq_flagD {flags : List Int} {p : Int} (h0 : 0 ≤ p)
    (h1 : p < flags.length) : readFlag flags p = some (flagD flags p) := by
  obtain ⟨u, hu⟩ := readFlag_of_bounds h0 h1
  simp [flagD, hu]

theorem andAlso_some (a b : Bool) : andAlso (some a) (some b) = some (a && b) := by
  cases a <;> rfl

/-! ## Length of the array -/

theorem length_eq_of_read {a b : List Int}
    (h : ∀ p, (∃ u, readFlag a p = some u) ↔ ∃ v, readFlag b p = some v) :
    a.length = b.length := by
  rcases lt_trichotomy a.length b.length with hlt | heq | hgt
  · exfalso
    obtain ⟨u, hu⟩ := (h a.length).2
      (readFlag_of_bounds (Int.natCast_nonneg _) (by exact_mod_cast hlt))
    have := (readFlag_bounds hu).2
    omega
  · exact heq
  · exfalso
    obtain ⟨u, hu⟩ := (h b.length).1
      (readFlag_of_bounds (Int.natCast_nonneg _) (by exact_mod_cast hgt))
    have := (readFlag_bounds hu).2
    omega

/-- A sweep that overwrites in-bounds cells keeps the length of the array. -/
theorem length_eq_of_sweep {old res : List Int} {α : Type} (key : α → Int) (L : List α)
    (hb : ∀ x ∈ L, 0 ≤ key x ∧ key x < old.length)
    (hA : ∀ x ∈ L, ∃ v, readFlag res (key x) = some v)
    (hB : ∀ p, (∀ x ∈ L, key x ≠ p) → readFlag res p = readFlag old p) :
    res.length = old.length := by
  apply length_eq_of_read
  intro p
  by_cases hp : ∃ x ∈ L, key x = p
  · obtain ⟨x, hx, rfl⟩ := hp
    exact ⟨fun _ => readFlag_of_bounds (hb x hx).1 (hb x hx).2, fun _ => hA x hx⟩
  · rw [hB p fun x hx heq => hp ⟨x, hx, heq⟩]

/-! ## Pass 3 as a simultaneous update -/

theorem IdentifyGhostNodes_eq (space : Space) (part : Partition) :
    IdentifyGhostNodes space part =
      (foldOpt (fun x t => ghostBody space x.1 x.2.1 x.2.2 t) (rangeNodes part)
        space.nodeFlag).bind fun flags => some { space with nodeFlag := flags } := by
  unfold IdentifyGhostNodes rangeNodes
  rw [← sweep_eq_foldOpt]
  rfl

/-- A cell that holds either its old value or its pass-3 value has the old
absolute value. -/
theorem ghost_read {offset jMax iMax : Int} {old c : List Int} {q : Int}
    (h0 : 0 ≤ q) (h1 : q < old.length)
    (hc : readFlag c q = readFlag old q ∨
      readFlag c q = some (ghostRule offset jMax iMax (flagD old) q)) :
    ∃ v, readFlag c q = some v ∧ v.natAbs = (flagD old q).natAbs := by
  rcases hc with h | h
  · exact ⟨_, h.trans (readFlag_eq_flagD h0 h1), rfl⟩
  · exact ⟨_, h, natAbs_ghostRule _ _ _ _ _⟩

theorem ghostBody_step (space : Space) (old c : List Int) (k j i : Int)
    (hlo : space.jMax * space.iMax ≤ (k * space.jMax + j) * space.iMax + i)
    (hhi : (k * space.jMax + j) * space.iMax + i + space.jMax * space.iMax < old.length)
    (h1 : 1 ≤ space.iMax) (hst : space.iMax ≤ space.jMax * space.iMax)
    (hself : readFlag c ((k * space.jMax + j) * space.iMax + i)
      = readFlag old ((k * space.jMax + j) * space.iMax + i))
    (hc : ∀ q, readFlag c q = readFlag old q ∨
      readFlag c q = some (ghostRule space.nodeFlagOffset space.jMax space.iMax (flagD old) q)) :
    ∃ c', ghostBody space k j i c = some c' ∧
      ∀ q, readFlag c' q = if q = (k * space.jMax + j) * space.iMax + i
        then some (ghostRule space.nodeFlagOffset space.jMax space.iMax (flagD old)
          ((k * space.jMax + j) * space.iMax + i))
        else readFlag c q := by
  have eS : (k * space.jMax + j - 1) * space.iMax + i
      = (k * space.jMax + j) * space.iMax + i - space.iMax := by ring
  have eN : (k * space.jMax + j + 1) * space.iMax + i
      = (k * space.jMax + j) * space.iMax + i + space.iMax := by ring
  have eF : ((k - 1) * space.jMax + j) * space.iMax + i
      = (k * space.jMax + j) * space.iMax + i - space.jMax * space.iMax := by ring
  have eB : ((k + 1) * space.jMax + j) * space.iMax + i
      = (k * space.jMax + j) * space.iMax + i + space.jMax * space.iMax := by ring
  unfold ghostBody
  simp only [eS, eN, eF, eB]
  generalize (k * space.jMax + j) * space.iMax + i = p at *
  have hp := @readFlag_eq_flagD old p (by omega) (by omega)
  obtain ⟨vW, rW, aW⟩ := ghost_read (q := p - 1) (by omega) (by omega) (hc _)
  obtain ⟨vE, rE, aE⟩ := ghost_read (q := p + 1) (by omega) (by omega) (hc _)
  obtain ⟨vS, rS, aS⟩ := ghost_read (q := p - space.iMax) (by omega) (by omega) (hc _)
  obtain ⟨vN, rN, aN⟩ := ghost_read (q := p + space.iMax) (by omega) (by omega) (hc _)
  obtain ⟨vF, rF, aF⟩ :=
    ghost_read (q := p - space.jMax * space.iMax) (by omega) (by omega) (hc _)
  obtain ⟨vB, rB, aB⟩ :=
    ghost_read (q := p + space.jMax * space.iMax) (by omega) (by omega) (hc _)
  have hz := prod32_zero_congr aW aE aS aN aF aB
  simp only [hself, hp, rW, rE, rS, rN, rF, rB, Option.some_bind]
  unfold ghostRule
  by_cases hs : -space.nodeFlagOffset < flagD old p
  · simp only [hs, if_true]
    refine ⟨c, rfl, fun q => ?_⟩
    by_cases hq : q = p
    · rw [if_pos hq, hq, hself, hp]
    · rw [if_neg hq]
  · simp only [hs, if_false]
    by_cases hzero : prod32 (flagD old (p - 1)) (flagD old (p + 1)) (flagD old (p - space.iMax))
        (flagD old (p + space.iMax)) (flagD old (p - space.jMax * space.iMax))
        (flagD old (p + space.jMax * space.iMax)) = 0
    · have hz' : 0 = mul32 (mul32 (mul32 (mul32 (mul32 vW vE) vS) vN) vF) vB :=
        (hz.2 hzero).symm
      rw [if_pos hz', if_pos hzero.symm]
      exact writeFlag_spec _ (hself.trans hp)
    · have hz' : ¬ 0 = mul32 (mul32 (mul32 (mul32 (mul32 vW vE) vS) vN) vF) vB :=
        fun h => hzero (hz.1 h.symm)
      rw [if_neg hz', if_neg (fun h => hzero h.symm)]
      refine ⟨c, rfl, fun q => ?_⟩
      by_cases hq : q = p
      · rw [if_pos hq, hq, hself, hp]
      · rw [if_neg hq]

/-- Pass 3 returns, and its in-place sweep equals the simultaneous update by
`ghostRule`; cells that are not nodes of region 0 are untouched. -/
theorem IdentifyGhostNodes_spec (space : Space) (part : Partition)
    (hwf : space.WellFormed) (hin : RangeInBounds space part) :
    ∃ flags, IdentifyGhostNodes space part = some { space with nodeFlag := flags } ∧
      (∀ k j i, InRange part k j i →
        readFlag flags (space.nodeIdx k j i) =
          some (ghostRule space.nodeFlagOffset space.jMax space.iMax (flagD space.nodeFlag)
            (space.nodeIdx k j i))) ∧
      (∀ p, (∀ k j i, InRange part k j i → space.nodeIdx k j i ≠ p) →
        readFlag flags p = readFlag space.nodeFlag p) ∧
      flags.length = space.nodeFlag.length := by
  have hnd : ((rangeNodes part).map (nodeKey space.jMax space.iMax)).Nodup :=
    nodup_keys (nodup_boxNodes _ _ _ _ _ _) fun x hx =>
      let b := range_idx_bounds hwf hin (mem_rangeNodes.1 hx)
      ⟨b.1, b.2.1⟩
  obtain ⟨res, hres, hA, hB⟩ := foldOpt_pointwise (nodeKey space.jMax space.iMax)
    (fun x => ghostRule space.nodeFlagOffset space.jMax space.iMax (flagD space.nodeFlag)
      (nodeKey space.jMax space.iMax x))
    (fun x t => ghostBody space x.1 x.2.1 x.2.2 t) space.nodeFlag (rangeNodes part) hnd
    (by
      rintro ⟨k, j, i⟩ hx c hself hc
      obtain ⟨-, -, hlo, hhi, h1, hst⟩ := range_idx_bounds hwf hin (mem_rangeNodes.1 hx)
      refine ghostBody_step space space.nodeFlag c k j i hlo hhi h1 hst hself fun q => ?_
      rcases hc q with h | ⟨y, -, hy, h⟩
      · exact Or.inl h
      · subst hy
        exact Or.inr h)
  refine ⟨res, by rw [IdentifyGhostNodes_eq, hres]; rfl, ?_, ?_,
    length_eq_of_sweep _ _ (range_key_bounds hwf hin) (fun x hx => ⟨_, hA x hx⟩) hB⟩
  · intro k j i hx
    exact hA (k, j, i) (mem_rangeNodes.2 hx)
  · intro p hp
    exact hB p fun x hx => hp x.1 x.2.1 x.2.2 (mem_rangeNodes.1 hx)

/-! ## Pass 4 as a simultaneous update -/

theorem IdentifySolidNodeWithGhostNeighbours_eq (space : Space) (particle : Particle)
    (part : Partition) :
    IdentifySolidNodeWithGhostNeighbours space particle part =
      (foldOpt (fun x t => ghostNeighbourBody space particle x.1 x.2.1 x.2.2 t)
        (rangeNodes part) space.nodeFlag).bind
      fun flags => some { space with nodeFlag := flags } := by
  unfold IdentifySolidNodeWithGhostNeighbours rangeNodes
  rw [← sweep_eq_foldOpt]
  rfl

/-- A cell that holds either its old value or its pass-4 value is solid
exactly when it was solid before. -/
theorem ghostNeighbour_read {offset jMax iMax : Int} {totalN : Nat} {old c : List Int}
    {q : Int} (h0 : 0 ≤ q) (h1 : q < old.length)
    (hc : readFlag c q = readFlag old q ∨
      readFlag c q = some (ghostNeighbourRule offset totalN jMax iMax (flagD old) q)) :
    ∃ v, readFlag c q = some v ∧ (-offset ≥ v ↔ -offset ≥ flagD old q) := by
  rcases hc with h | h
  · exact ⟨_, h.trans (readFlag_eq_flagD h0 h1), Iff.rfl⟩
  · exact ⟨_, h, solid_ghostNeighbourRule _ _ _ _ _ _⟩

theorem ghostNeighbourBody_step (space : Space) (particle : Particle) (old c : List Int)
    (k j i : Int)
    (hlo : space.jMax * space.iMax ≤ (k * space.jMax + j) * space.iMax + i)
    (hhi : (k * space.jMax + j) * space.iMax + i + space.jMax * space.iMax < old.length)
    (h1 : 1 ≤ space.iMax) (hst : space.iMax ≤ space.jMax * space.iMax)
    (hself : readFlag c ((k * space.jMax + j) * space.iMax + i)
      = readFlag old ((k * space.jMax + j) * space.iMax + i))
    (hc : ∀ q, readFlag c q = readFlag old q ∨
      readFlag c q = some (ghostNeighbourRule space.nodeFlagOffset particle.totalN
        space.jMax space.iMax (flagD old) q)) :
    ∃ c', ghostNeighbourBody space particle k j i c = some c' ∧
      ∀ q, readFlag c' q = if q = (k * space.jMax + j) * space.iMax + i
        then some (ghostNeighbourRule space.nodeFlagOffset particle.totalN
          space.jMax space.iMax (flagD old) ((k * space.jMax + j) * space.iMax + i))
        else readFlag c q := by
  have eS : (k * space.jMax + j - 1) * space.iMax + i
      = (k * space.jMax + j) * space.iMax + i - space.iMax := by ring
  have eN : (k * space.jMax + j + 1) * space.iMax + i
      = (k * space.jMax + j) * space.iMax + i + space.iMax := by ring
  have eF : ((k - 1) * space.jMax + j) * space.iMax + i
      = (k * space.jMax + j) * space.iMax + i - space.jMax * space.iMax := by ring
  have eB : ((k + 1) * space.jMax + j) * space.iMax + i
      = (k * space.jMax + j) * space.iMax + i + space.jMax * space.iMax := by ring
  unfold ghostNeighbourBody
  simp only [eS, eN, eF, eB]
  generalize (k * space.jMax + j) * space.iMax + i = p at *
  have hp := @readFlag_eq_flagD old p (by omega) (by omega)
  obtain ⟨vW, rW, aW⟩ := ghostNeighbour_read (q := p - 1) (by omega) (by omega) (hc _)
  obtain ⟨vE, rE, aE⟩ := ghostNeighbour_read (q := p + 1) (by omega) (by omega) (hc _)
  obtain ⟨vS, rS, aS⟩ :=
    ghostNeighbour_read (q := p - space.iMax) (by omega) (by omega) (hc _)
  obtain ⟨vN, rN, aN⟩ :=
    ghostNeighbour_read (q := p + space.iMax) (by omega) (by omega) (hc _)
  obtain ⟨vF, rF, aF⟩ :=
    ghostNeighbour_read (q := p - space.jMax * space.iMax) (by omega) (by omega) (hc _)
  obtain ⟨vB, rB, aB⟩ :=
    ghostNeighbour_read (q := p + space.jMax * space.iMax) (by omega) (by omega) (hc _)
  simp only [hself, hp, rW, rE, rS, rN, rF, rB, Option.some_bind, Option.map_some',
    andAlso_some]
  unfold ghostNeighbourRule
  by_cases hs : -space.nodeFlagOffset < flagD old p
  · simp only [hs, if_true]
    refine ⟨c, rfl, fun q => ?_⟩
    by_cases hq : q = p
    · rw [if_pos hq, hq, hself, hp]
    · rw [if_neg hq]
  · simp only [hs, if_false, Bool.and_eq_true, decide_eq_true_eq, aW, aE, aS, aN, aF, aB]
    split_ifs with hall
    · refine ⟨c, rfl, fun q => ?_⟩
      by_cases hq : q = p
      · rw [if_pos hq, hq, hself, hp]
      · rw [if_neg hq]
    · exact writeFlag_spec _ (hself.trans hp)

/-- Pass 4 returns, and its in-place sweep equals the simultaneous update by
`ghostNeighbourRule`; cells that are not nodes of region 0 are untouched. -/
theorem IdentifySolidNodeWithGhostNeighbours_spec (space : Space) (particle : Particle)
    (part : Partition) (hwf : space.WellFormed) (hin : RangeInBounds space part) :
    ∃ flags, IdentifySolidNodeWithGhostNeighbours space particle part
        = some { space with nodeFlag := flags } ∧
      (∀ k j i, InRange part k j i →
        readFlag flags (space.nodeIdx k j i) =
          some (ghostNeighbourRule space.nodeFlagOffset particle.totalN space.jMax space.iMax
            (flagD space.nodeFlag) (space.nodeIdx k j i))) ∧
      (∀ p, (∀ k j i, InRange part k j i → space.nodeIdx k j i ≠ p) →
        readFlag flags p = readFlag space.nodeFlag p) ∧
      flags.length = space.nodeFlag.length := by
  have hnd : ((rangeNodes part).map (nodeKey space.jMax space.iMax)).Nodup :=
    nodup_keys (nodup_boxNodes _ _ _ _ _ _) fun x hx =>
      let b := range_idx_bounds hwf hin (mem_rangeNodes.1 hx)
      ⟨b.1, b.2.1⟩
  obtain ⟨res, hres, hA, hB⟩ := foldOpt_pointwise (nodeKey space.jMax space.iMax)
    (fun x => ghostNeighbourRule space.nodeFlagOffset particle.totalN space.jMax space.iMax
      (flagD space.nodeFlag) (nodeKey space.jMax space.iMax x))
    (fun x t => ghostNeighbourBody space particle x.1 x.2.1 x.2.2 t) space.nodeFlag
    (rangeNodes part) hnd
    (by
      rintro ⟨k, j, i⟩ hx c hself hc
      obtain ⟨-, -, hlo, hhi, h1, hst⟩ := range_idx_bounds hwf hin (mem_rangeNodes.1 hx)
      refine ghostNeighbourBody_step space particle space.nodeFlag c k j i hlo hhi h1 hst
        hself fun q => ?_
      rcases hc q with h | ⟨y, -, hy, h⟩
      · exact Or.inl h
      · subst hy
        exact Or.inr h)
  refine ⟨res, by rw [IdentifySolidNodeWithGhostNeighbours_eq, hres]; rfl, ?_, ?_,
    length_eq_of_sweep _ _ (range_key_bounds hwf hin) (fun x hx => ⟨_, hA x hx⟩) hB⟩
  · intro k j i hx
    exact hA (k, j, i) (mem_rangeNodes.2 hx)
  · intro p hp
    exact hB p fun x hx => hp x.1 x.2.1 x.2.2 (mem_rangeNodes.1 hx)

/-! ## Painting sweeps -/

/-- A sweep that stores `v` in the cell of every work item satisfying `cond`
and touches nothing else. -/
theorem paint_spec {α : Type} (key : α → Int) (L : List α) (hnd : (L.map key).Nodup)
    (cond : α → Prop) [DecidablePred cond] (v : Int) (old : List Int)
    (hb : ∀ x ∈ L, 0 ≤ key x ∧ key x < old.length) :
    ∃ res, foldOpt (fun x t => if cond x then writeFlag t (key x) v else some t) L old
        = some res ∧
      (∀ x ∈ L, readFlag res (key x) = some (if cond x then v else flagD old (key x))) ∧
      (∀ p, (∀ x ∈ L, key x ≠ p) → readFlag res p = readFlag old p) ∧
      res.length = old.length := by
  obtain ⟨res, hres, hA, hB⟩ := foldOpt_pointwise key
    (fun x => if cond x then v else flagD old (key x))
    (fun x t => if cond x then writeFlag t (key x) v else some t) old L hnd
    (by
      intro x hx c hself _
      have hold := readFlag_eq_flagD (hb x hx).1 (hb x hx).2
      by_cases hcx : cond x
      · simp only [hcx, if_true]
        exact writeFlag_spec v (hself.trans hold)
      · simp only [hcx, if_false]
        refine ⟨c, rfl, fun q => ?_⟩
        by_cases hq : q = key x
        · rw [if_pos hq, hq, hself, hold]
        · rw [if_neg hq])
  exact ⟨res, hres, hA, hB, length_eq_of_sweep key L hb (fun x hx => ⟨_, hA x hx⟩) hB⟩

/-- Invariant rule for a counting loop that starts at `0`. -/
theorem loopFrom_inv {σ : Type} (body : Int → σ → Option σ) (Inv : Nat → σ → Prop) :
    ∀ (n m : Nat) (s : σ), Inv m s →
      (∀ (m' : Nat) (t : σ), m' < m + n → Inv m' t →
        ∃ t', body (m' : Int) t = some t' ∧ Inv (m' + 1) t') →
      ∃ s', loopFrom body (m : Int) n s = some s' ∧ Inv (m + n) s'
  | 0, m, s, h0, _ => ⟨s, rfl, h0⟩
  | n + 1, m, s, h0, hstep => by
    obtain ⟨t, ht, hI⟩ := hstep m s (by omega) h0
    obtain ⟨s', hs', hI'⟩ := loopFrom_inv body Inv n (m + 1) t hI
      (fun m' u hm hu => hstep m' u (by omega) hu)
    refine ⟨s', ?_, by rwa [show m + (n + 1) = m + 1 + n by omega]⟩
    simp only [loopFrom, ht]
    exact_mod_cast hs'

/-! ## Pass 1 -/

/-- Pass 1 returns; afterwards every node of region 0 holds `0` and every
other cell of the array holds `1`. -/
theorem InitializeDomainGeometry_spec (space : Space) (part : Partition)
    (hwf : space.WellFormed) (hin : RangeInBounds space part) :
    ∃ flags, InitializeDomainGeometry space part
        = some { space with nodeFlagOffset := 10, nodeFlag := flags } ∧
      (∀ k j i, InRange part k j i → readFlag flags (space.nodeIdx k j i) = some 0) ∧
      (∀ p, (∀ k j i, InRange part k j i → space.nodeIdx k j i ≠ p) →
        0 ≤ p → p < space.nMax → readFlag flags p = some 1) ∧
      flags.length = space.nodeFlag.length := by
  obtain ⟨f1, hf1, hA1, hB1, hlen1⟩ := paint_spec (fun x : Int => x) (intRange 0 space.nMax)
    (by simpa using nodup_intRange 0 space.nMax) (fun _ => True) 1 space.nodeFlag
    (fun x hx => by
      show 0 ≤ x ∧ x < (space.nodeFlag.length : Int)
      have := mem_intRange.1 hx
      have := hwf.2
      omega)
  have hwf1 : ({ space with nodeFlag := f1 } : Space).WellFormed := ⟨hwf.1, by
    show (f1.length : Int) = space.nMax
    rw [hlen1]; exact hwf.2⟩
  have hkeys : ∀ x ∈ rangeNodes part,
      0 ≤ nodeKey space.jMax space.iMax x ∧ nodeKey space.jMax space.iMax x < f1.length := by
    intro x hx
    obtain ⟨-, -, hlo, hhi, h1, hst⟩ :=
      @range_idx_bounds { space with nodeFlag := f1 } part hwf1 hin _ _ _ (mem_rangeNodes.1 hx)
    simp only at hlo hhi h1 hst
    unfold nodeKey
    omega
  obtain ⟨f2, hf2, hA2, hB2, hlen2⟩ := paint_spec (nodeKey space.jMax space.iMax)
    (rangeNodes part)
    (nodup_keys (nodup_boxNodes _ _ _ _ _ _) fun x hx =>
      let b := range_idx_bounds hwf hin (mem_rangeNodes.1 hx)
      ⟨b.1, b.2.1⟩)
    (fun _ => True) 0 f1 hkeys
  refine ⟨f2, ?_, ?_, ?_, by rw [hlen2, hlen1]⟩
  · unfold InitializeDomainGeometry
    simp only [if_true] at hf1 hf2
    unfold nodeKey rangeNodes at hf2
    rw [forLoop_eq_foldOpt, hf1, Option.some_bind, sweep_eq_foldOpt, hf2, Option.some_bind]
  · intro k j i hx
    have := hA2 (k, j, i) (mem_rangeNodes.2 hx)
    simpa using this
  · intro p hp h0 h1
    rw [hB2 p fun x hx => hp x.1 x.2.1 x.2.2 (mem_rangeNodes.1 hx)]
    have := hA1 p (mem_intRange.2 ⟨h0, h1⟩)
    simpa using this

/-! ## Pass 2 -/

theorem Max_ge_right (x y : Int) : y ≤ Max x y := by
  unfold Max; split_ifs <;> omega

theorem Min_le_right (x y : Int) : Min x y ≤ y := by
  unfold Min; split_ifs <;> omega

theorem InBox.inRange {space : Space} {particle : Particle} {part : Partition}
    {g k j i : Int} (h : InBox space particle part g k j i) : InRange part k j i := by
  unfold InBox searchBox at h
  simp only at h
  obtain ⟨⟨h1, h2⟩, ⟨h3, h4⟩, h5, h6⟩ := h
  exact ⟨⟨le_trans (Max_ge_right _ _) h1, lt_of_lt_of_le h2 (Min_le_right _ _)⟩,
    ⟨le_trans (Max_ge_right _ _) h3, lt_of_lt_of_le h4 (Min_le_right _ _)⟩,
    le_trans (Max_ge_right _ _) h5, lt_of_lt_of_le h6 (Min_le_right _ _)⟩

theorem mem_geoNodes {space : Space} {particle : Particle} {part : Partition} {g : Int}
    {x : Int × Int × Int} :
    x ∈ geoNodes space particle part g ↔ InBox space particle part g x.1 x.2.1 x.2.2 :=
  mem_boxNodes

theorem LocateSolidGeometry_eq (space : Space) (particle : Particle) (part : Partition) :
    LocateSolidGeometry space particle part =
      (loopFrom (fun g flags =>
        foldOpt (fun x t =>
          if InSphere space particle g x.1 x.2.1 x.2.2
          then writeFlag t (nodeKey space.jMax space.iMax x) (-space.nodeFlagOffset - g)
          else some t) (geoNodes space particle part g) flags)
        0 particle.totalN space.nodeFlag).bind
      fun flags => some { space with nodeFlag := flags } := by
  have hbody : (fun (g : Int) (flags : List Int) =>
        foldOpt (fun x t =>
          if InSphere space particle g x.1 x.2.1 x.2.2
          then writeFlag t (nodeKey space.jMax space.iMax x) (-space.nodeFlagOffset - g)
          else some t) (geoNodes space particle part g) flags)
      = fun g flags =>
        forLoop (searchBox space particle part g).1 (searchBox space particle part g).2.1
          (fun k t => forLoop (searchBox space particle part g).2.2.1
            (searchBox space particle part g).2.2.2.1
            (fun j t => forLoop (searchBox space particle part g).2.2.2.2.1
              (searchBox space particle part g).2.2.2.2.2
              (fun i t =>
                if InSphere space particle g k j i
                then writeFlag t ((k * space.jMax + j) * space.iMax + i)
                  (-space.nodeFlagOffset - g)
                else some t) t) t) flags := by
    funext g flags
    rw [sweep_eq_foldOpt]
    rfl
  rw [hbody]
  unfold LocateSolidGeometry forLoop
  simp only [Int.sub_zero, Int.toNat_ofNat]
  rfl

/-- Pass 2 returns; afterwards every node of region 0 holds the flag of the
last geometry that rasterizes it (or its old value when none does), and no
other cell has changed. -/
theorem LocateSolidGeometry_spec (space : Space) (particle : Particle) (part : Partition)
    (hwf : space.WellFormed) (hin : RangeInBounds space part) :
    ∃ flags, LocateSolidGeometry space particle part
        = some { space with nodeFlag := flags } ∧
      (∀ k j i, InRange part k j i →
        readFlag flags (space.nodeIdx k j i) =
          some (ownerFlag space particle part space.nodeFlagOffset
            (flagD space.nodeFlag (space.nodeIdx k j i))
            k j i particle.totalN)) ∧
      (∀ p, (∀ k j i, InRange part k j i → space.nodeIdx k j i ≠ p) →
        readFlag flags p = readFlag space.nodeFlag p) ∧
      flags.length = space.nodeFlag.length := by
  have hgrid : ∀ {k j i}, InRange part k j i →
      (0 ≤ j ∧ j < space.jMax) ∧ (0 ≤ i ∧ i < space.iMax) := fun hx =>
    let b := range_idx_bounds hwf hin hx
    ⟨b.1, b.2.1⟩
  obtain ⟨res, hres, hlen, hA, hB⟩ := loopFrom_inv
    (fun g flags =>
      foldOpt (fun x t =>
        if InSphere space particle g x.1 x.2.1 x.2.2
        then writeFlag t (nodeKey space.jMax space.iMax x) (-space.nodeFlagOffset - g)
        else some t) (geoNodes space particle part g) flags)
    (fun m flags => flags.length = space.nodeFlag.length ∧
      (∀ k j i, InRange part k j i →
        readFlag flags (space.nodeIdx k j i) =
          some (ownerFlag space particle part space.nodeFlagOffset
            (flagD space.nodeFlag (space.nodeIdx k j i))
            k j i m)) ∧
      (∀ p, (∀ k j i, InRange part k j i → space.nodeIdx k j i ≠ p) →
        readFlag flags p = readFlag space.nodeFlag p))
    particle.totalN 0 space.nodeFlag
    ⟨rfl, fun k j i hx => by
      obtain ⟨-, -, hlo, hhi, h1, hst⟩ := range_idx_bounds hwf hin hx
      exact readFlag_eq_flagD (by unfold Space.nodeIdx; omega) (by unfold Space.nodeIdx; omega),
      fun _ _ => rfl⟩
    (by
      rintro m t - ⟨hlen, hA, hB⟩
      have hsub : ∀ x ∈ geoNodes space particle part m, InRange part x.1 x.2.1 x.2.2 :=
        fun x hx => (mem_geoNodes.1 hx).inRange
      have hkeys : ∀ x ∈ geoNodes space particle part m,
          0 ≤ nodeKey space.jMax space.iMax x ∧ nodeKey space.jMax space.iMax x < t.length := by
        intro x hx
        obtain ⟨-, -, hlo, hhi, h1, hst⟩ := range_idx_bounds hwf hin (hsub x hx)
        rw [hlen]
        unfold nodeKey
        omega
      obtain ⟨t', ht', hA', hB', hlen'⟩ := paint_spec (nodeKey space.jMax space.iMax)
        (geoNodes space particle part m)
        (nodup_keys (nodup_boxNodes _ _ _ _ _ _) fun x hx => hgrid (hsub x hx))
        (fun x => InSphere space particle m x.1 x.2.1 x.2.2)
        (-space.nodeFlagOffset - m) t hkeys
      refine ⟨t', ht', by rw [hlen', hlen], ?_, ?_⟩
      · intro k j i hx
        have hold : flagD t (space.nodeIdx k j i) = ownerFlag space particle part
            space.nodeFlagOffset (flagD space.nodeFlag (space.nodeIdx k j i)) k j i m := by
          simp [flagD, hA k j i hx]
        by_cases hbox : InBox space particle part m k j i
        · have := hA' (k, j, i) (mem_geoNodes.2 hbox)
          rw [show space.nodeIdx k j i = nodeKey space.jMax space.iMax (k, j, i) from rfl]
          rw [this]
          simp only [ownerFlag, Rasterizes, hbox, true_and]
          rw [show nodeKey space.jMax space.iMax (k, j, i) = space.nodeIdx k j i from rfl,
            hold]
        · have hne : ∀ x ∈ geoNodes space particle part m,
              nodeKey space.jMax space.iMax x ≠ space.nodeIdx k j i := by
            rintro ⟨k', j', i'⟩ hx' heq
            have hg' := hgrid (hsub _ hx')
            have hg := hgrid hx
            obtain ⟨e1, e2, e3⟩ := idx_inj hg'.1 hg'.2 hg.1 hg.2 heq
            simp only at e1 e2 e3
            subst e1 e2 e3
            exact hbox (mem_geoNodes.1 hx')
          rw [hB' _ hne, hA k j i hx]
          simp only [ownerFlag, Rasterizes, hbox, false_and, if_false]
      · intro p hp
        rw [hB' p fun x hx => hp x.1 x.2.1 x.2.2 (hsub x hx)]
        exact hB p hp)
  refine ⟨res, ?_, ?_, hB, hlen⟩
  · rw [LocateSolidGeometry_eq]
    have := hres
    simp only [Nat.cast_zero] at this
    rw [this]
    rfl
  · intro k j i hx
    have := hA k j i hx
    rwa [Nat.zero_add] at this

/-! ## The classifier as a whole -/

theorem ownerFlag_stage (space : Space) (particle : Particle) (part : Partition)
    (flags : List Int) (offset init k j i : Int) (n : Nat) :
    ownerFlag (stage space flags) particle part offset init k j i n
      = ownerFlag space particle part offset init k j i n := by
  induction n with
  | zero => rfl
  | succ n ih =>
    simp only [ownerFlag, ih]
    rfl

theorem stage_wellFormed {space : Space} (hwf : space.WellFormed) {flags : List Int}
    (hlen : flags.length = space.nodeFlag.length) : (stage space flags).WellFormed :=
  ⟨hwf.1, by
    show (flags.length : Int) = space.nMax
    rw [hlen]
    exact hwf.2⟩

/-- A grid node outside region 0 shares its cell with no node of region 0,
and its cell is inside the array. -/
theorem grid_not_range {space : Space} {part : Partition} (hwf : space.WellFormed)
    (hin : RangeInBounds space part) {k j i : Int} (hg : InGrid space k j i)
    (hout : ¬ InRange part k j i) :
    (∀ k' j' i', InRange part k' j' i' → space.nodeIdx k' j' i' ≠ space.nodeIdx k j i) ∧
      0 ≤ space.nodeIdx k j i ∧ space.nodeIdx k j i < space.nMax := by
  obtain ⟨hk, hj, hi⟩ := hg
  refine ⟨?_, ?_⟩
  · intro k' j' i' hx heq
    obtain ⟨hj', hi', -⟩ := range_idx_bounds hwf hin hx
    obtain ⟨e1, e2, e3⟩ := idx_inj hj' hi' hj hi heq
    subst e1 e2 e3
    exact hout hx
  · have := idx_slab (a := 0) (b := space.kMax) hk hj hi
    unfold Space.nodeIdx
    rw [hwf.1]
    constructor
    · linarith
    · have e : space.iMax * space.jMax * space.kMax
          = space.kMax * (space.jMax * space.iMax) := by ring
      linarith

/-- The classifier returns, and each of its four stages is the pointwise
image of the previous one. -/
theorem classifier_spec (space : Space) (particle : Particle) (part : Partition)
    (hwf : space.WellFormed) (hin : RangeInBounds space part) :
    ∃ f1 f2 f3 f4 : List Int,
      InitializeDomainGeometry space part = some (stage space f1) ∧
      LocateSolidGeometry (stage space f1) particle part = some (stage space f2) ∧
      IdentifyGhostNodes (stage space f2) part = some (stage space f3) ∧
      IdentifySolidNodeWithGhostNeighbours (stage space f3) particle part
        = some (stage space f4) ∧
      ComputeDomainGeometryGCIBM space particle part = some (stage space f4) ∧
      (∀ k j i, InRange part k j i →
        readFlag f1 (space.nodeIdx k j i) = some 0 ∧
        readFlag f2 (space.nodeIdx k j i)
          = some (ownerFlag space particle part 10 0 k j i particle.totalN) ∧
        readFlag f3 (space.nodeIdx k j i)
          = some (ghostRule 10 space.jMax space.iMax (flagD f2) (space.nodeIdx k j i)) ∧
        readFlag f4 (space.nodeIdx k j i)
          = some (ghostNeighbourRule 10 particle.totalN space.jMax space.iMax (flagD f3)
              (space.nodeIdx k j i))) ∧
      (∀ k j i, InGrid space k j i → ¬ InRange part k j i →
        readFlag f1 (space.nodeIdx k j i) = some 1 ∧
        readFlag f2 (space.nodeIdx k j i) = some 1 ∧
        readFlag f3 (space.nodeIdx k j i) = some 1 ∧
        readFlag f4 (space.nodeIdx k j i) = some 1) := by
  obtain ⟨f1, e1, a1, b1, l1⟩ := InitializeDomainGeometry_spec space part hwf hin
  have w1 : (stage space f1).WellFormed := stage_wellFormed hwf l1
  obtain ⟨f2, e2, a2, b2, l2⟩ := LocateSolidGeometry_spec (stage space f1) particle part w1 hin
  have w2 : (stage space f2).WellFormed := stage_wellFormed hwf (l2.trans l1)
  obtain ⟨f3, e3, a3, b3, l3⟩ := IdentifyGhostNodes_spec (stage space f2) part w2 hin
  have w3 : (stage space f3).WellFormed := stage_wellFormed hwf (l3.trans (l2.trans l1))
  obtain ⟨f4, e4, a4, b4, -⟩ :=
    IdentifySolidNodeWithGhostNeighbours_spec (stage space f3) particle part w3 hin
  have e1' : InitializeDomainGeometry space part = some (stage space f1) := e1
  have e2' : LocateSolidGeometry (stage space f1) particle part = some (stage space f2) := e2
  have e3' : IdentifyGhostNodes (stage space f2) part = some (stage space f3) := e3
  have e4' : IdentifySolidNodeWithGhostNeighbours (stage space f3) particle part
      = some (stage space f4) := e4
  have a2' : ∀ k j i, InRange part k j i → readFlag f2 (space.nodeIdx k j i) =
      some (ownerFlag (stage space f1) particle part 10 (flagD f1 (space.nodeIdx k j i))
        k j i particle.totalN) := a2
  have a3' : ∀ k j i, InRange part k j i → readFlag f3 (space.nodeIdx k j i) =
      some (ghostRule 10 space.jMax space.iMax (flagD f2) (space.nodeIdx k j i)) := a3
  have a4' : ∀ k j i, InRange part k j i → readFlag f4 (space.nodeIdx k j i) =
      some (ghostNeighbourRule 10 particle.totalN space.jMax space.iMax (flagD f3)
        (space.nodeIdx k j i)) := a4
  have b2' : ∀ p, (∀ k j i, InRange part k j i → space.nodeIdx k j i ≠ p) →
      readFlag f2 p = readFlag f1 p := b2
  have b3' : ∀ p, (∀ k j i, InRange part k j i → space.nodeIdx k j i ≠ p) →
      readFlag f3 p = readFlag f2 p := b3
  have b4' : ∀ p, (∀ k j i, InRange part k j i → space.nodeIdx k j i ≠ p) →
      readFlag f4 p = readFlag f3 p := b4
  refine ⟨f1, f2, f3, f4, e1', e2', e3', e4', ?_, ?_, ?_⟩
  · unfold ComputeDomainGeometryGCIBM
    rw [e1', Option.some_bind, e2', Option.some_bind, e3', Option.some_bind, e4']
  · intro k j i hx
    refine ⟨a1 k j i hx, ?_, a3' k j i hx, a4' k j i hx⟩
    have h := a2' k j i hx
    have h0 : flagD f1 (space.nodeIdx k j i) = 0 := by simp [flagD, a1 k j i hx]
    rw [ownerFlag_stage, h0] at h
    exact h
  · intro k j i hg hout
    obtain ⟨hne, h0, h1⟩ := grid_not_range hwf hin hg hout
    have r1 := b1 _ hne h0 h1
    have r2 := (b2' _ hne).trans r1
    have r3 := (b3' _ hne).trans r2
    exact ⟨r1, r2, r3, (b4' _ hne).trans r3⟩

/-! ## Values of the stages and face neighbours -/

theorem ownerFlag_of_none (space : Space) (particle : Particle) (part : Partition)
    (offset init k j i : Int) :
    ∀ n : Nat, (∀ g : Nat, g < n → ¬ Rasterizes space particle part g k j i) →
      ownerFlag space particle part offset init k j i n = init
  | 0, _ => rfl
  | n + 1, h => by
    simp only [ownerFlag, h n (Nat.lt_succ_self n), if_false]
    exact ownerFlag_of_none space particle part offset init k j i n
      fun g hg => h g (Nat.lt_succ_of_lt hg)

theorem ownerFlag_of_last (space : Space) (particle : Particle) (part : Partition)
    (offset init k j i : Int) (g : Nat) (hras : Rasterizes space particle part g k j i) :
    ∀ n : Nat, g < n →
      (∀ g' : Nat, g < g' → g' < n → ¬ Rasterizes space particle part g' k j i) →
      ownerFlag space particle part offset init k j i n = -offset - g
  | 0, hg, _ => absurd hg (Nat.not_lt_zero g)
  | n + 1, hg, h => by
    by_cases hgn : g = n
    · subst hgn
      simp only [ownerFlag, hras, if_true]
    · have hlt : g < n := by omega
      simp only [ownerFlag, h n hlt (Nat.lt_succ_self n), if_false]
      exact ownerFlag_of_last space particle part offset init k j i g hras n hlt
        fun g' h1 h2 => h g' h1 (Nat.lt_succ_of_lt h2)

/-- After pass 2 a node of region 0 is fluid or carries a solid flag. -/
theorem ownerFlag_range (space : Space) (particle : Particle) (part : Partition)
    (offset k j i : Int) :
    ∀ n : Nat, ownerFlag space particle part offset 0 k j i n = 0 ∨
      (-offset - n + 1 ≤ ownerFlag space particle part offset 0 k j i n ∧
        ownerFlag space particle part offset 0 k j i n ≤ -offset)
  | 0 => Or.inl rfl
  | n + 1 => by
    by_cases h : Rasterizes space particle part n k j i
    · simp only [ownerFlag, h, if_true]
      right
      push_cast
      omega
    · simp only [ownerFlag, h, if_false]
      rcases ownerFlag_range space particle part offset k j i n with h0 | h1
      · exact Or.inl h0
      · right
        push_cast
        omega

theorem ghostRule_cases (offset jMax iMax : Int) (f : Int → Int) (p : Int) :
    ghostRule offset jMax iMax f p = f p ∨
      (f p ≤ -offset ∧ ghostRule offset jMax iMax f p = -f p) := by
  unfold ghostRule
  split_ifs with h1 h2
  · exact Or.inl rfl
  · exact Or.inr ⟨by omega, rfl⟩
  · exact Or.inl rfl

theorem ghostNeighbourRule_cases (offset : Int) (totalN : Nat) (jMax iMax : Int)
    (f : Int → Int) (p : Int) :
    ghostNeighbourRule offset totalN jMax iMax f p = f p ∨
      (f p ≤ -offset ∧ ghostNeighbourRule offset totalN jMax iMax f p = f p - totalN) := by
  unfold ghostNeighbourRule
  split_ifs with h1 h2
  · exact Or.inl rfl
  · exact Or.inl rfl
  · exact Or.inr ⟨by omega, rfl⟩

theorem flagD_of_read {flags : List Int} {p v : Int} (h : readFlag flags p = some v) :
    flagD flags p = v := by
  simp [flagD, h]

theorem bandCount_le_one (n : Nat) (x : Int) : bandCount 10 n x ≤ 1 := by
  unfold bandCount
  split_ifs <;> omega

theorem sphereDistance_eq (space : Space) (particle : Particle) (g k j i : Int) :
    sphereDistance space particle g k j i
      = centreDistSq space particle g k j i - particle.ptk g 3 * particle.ptk g 3 := rfl

theorem ghostRule_of_not_solid {offset jMax iMax : Int} {f : Int → Int} {p : Int}
    (h : -offset < f p) : ghostRule offset jMax iMax f p = f p := by
  unfold ghostRule
  rw [if_pos h]

theorem ghostNeighbourRule_of_not_solid {offset : Int} {totalN : Nat} {jMax iMax : Int}
    {f : Int → Int} {p : Int} (h : -offset < f p) :
    ghostNeighbourRule offset totalN jMax iMax f p = f p := by
  unfold ghostNeighbourRule
  rw [if_pos h]

theorem flatNeighbours_eq (space : Space) (k j i : Int) :
    (faceNeighbours k j i).map (fun n => space.nodeIdx n.1 n.2.1 n.2.2)
      = flatNeighbours space.jMax space.iMax (space.nodeIdx k j i) := by
  simp only [faceNeighbours, flatNeighbours, List.map_cons, List.map_nil, Space.nodeIdx]
  have e1 : (k * space.jMax + j) * space.iMax + (i - 1)
      = (k * space.jMax + j) * space.iMax + i - 1 := by ring
  have e2 : (k * space.jMax + j) * space.iMax + (i + 1)
      = (k * space.jMax + j) * space.iMax + i + 1 := by ring
  have e3 : (k * space.jMax + (j - 1)) * space.iMax + i
      = (k * space.jMax + j) * space.iMax + i - space.iMax := by ring
  have e4 : (k * space.jMax + (j + 1)) * space.iMax + i
      = (k * space.jMax + j) * space.iMax + i + space.iMax := by ring
  have e5 : ((k - 1) * space.jMax + j) * space.iMax + i
      = (k * space.jMax + j) * space.iMax + i - space.jMax * space.iMax := by ring
  have e6 : ((k + 1) * space.jMax + j) * space.iMax + i
      = (k * space.jMax + j) * space.iMax + i + space.jMax * space.iMax := by ring
  rw [e1, e2, e3, e4, e5, e6]

theorem mem_flatNeighbours {space : Space} {k j i q : Int}
    (h : q ∈ flatNeighbours space.jMax space.iMax (space.nodeIdx k j i)) :
    ∃ n ∈ faceNeighbours k j i, space.nodeIdx n.1 n.2.1 n.2.2 = q := by
  rw [← flatNeighbours_eq] at h
  obtain ⟨n, hn, rfl⟩ := List.mem_map.1 h
  exact ⟨n, hn, rfl⟩

theorem flatNeighbours_of_mem {space : Space} {k j i : Int} {n : Int × Int × Int}
    (h : n ∈ faceNeighbours k j i) :
    space.nodeIdx n.1 n.2.1 n.2.2 ∈ flatNeighbours space.jMax space.iMax (space.nodeIdx k j i) := by
  rw [← flatNeighbours_eq]
  exact List.mem_map.2 ⟨n, h, rfl⟩

/-- The face neighbours of a node of region 0 are grid nodes when region 0
lies in `[1, Max - 1)` on each axis. -/
theorem faceNeighbours_inGrid {space : Space} {part : Partition}
    (hin : RangeInside space part) {k j i : Int} (hx : InRange part k j i)
    {n : Int × Int × Int} (hn : n ∈ faceNeighbours k j i) : InGrid space n.1 n.2.1 n.2.2 := by
  unfold RangeInside at hin
  unfold InRange at hx
  unfold InGrid
  simp only [faceNeighbours, List.mem_cons, List.mem_singleton, List.not_mem_nil,
    or_false] at hn
  rcases hn with rfl | rfl | rfl | rfl | rfl | rfl <;> simp only <;> omega

theorem prod32_eq_zero_of_zero {a b c d e f : Int}
    (h : a = 0 ∨ b = 0 ∨ c = 0 ∨ d = 0 ∨ e = 0 ∨ f = 0) : prod32 a b c d e f = 0 := by
  rw [prod32_eq_zero_iff]
  rcases h with h | h | h | h | h | h <;> subst h <;> simp

theorem prod32_ne_zero_of_small {a b c d e f : Int}
    (ha : a ≠ 0 ∧ a.natAbs ≤ 40) (hb : b ≠ 0 ∧ b.natAbs ≤ 40) (hc : c ≠ 0 ∧ c.natAbs ≤ 40)
    (hd : d ≠ 0 ∧ d.natAbs ≤ 40) (he : e ≠ 0 ∧ e.natAbs ≤ 40) (hf : f ≠ 0 ∧ f.natAbs ≤ 40) :
    prod32 a b c d e f ≠ 0 := by
  rw [Ne, prod32_eq_zero_iff]
  intro hdvd
  have hnat : (4294967296 : Nat) ∣ (a * b * c * d * e * f).natAbs := by
    rw [← Int.natCast_dvd]
    exact hdvd
  simp only [Int.natAbs_mul] at hnat
  have pa := Int.natAbs_pos.2 ha.1
  have pb := Int.natAbs_pos.2 hb.1
  have pc := Int.natAbs_pos.2 hc.1
  have pd := Int.natAbs_pos.2 hd.1
  have pe := Int.natAbs_pos.2 he.1
  have pf := Int.natAbs_pos.2 hf.1
  have hpos : 0 < a.natAbs * b.natAbs * c.natAbs * d.natAbs * e.natAbs * f.natAbs :=
    Nat.mul_pos (Nat.mul_pos (Nat.mul_pos (Nat.mul_pos (Nat.mul_pos pa pb) pc) pd) pe) pf
  have hle : a.natAbs * b.natAbs * c.natAbs * d.natAbs * e.natAbs * f.natAbs
      ≤ 40 * 40 * 40 * 40 * 40 * 40 :=
    Nat.mul_le_mul (Nat.mul_le_mul (Nat.mul_le_mul (Nat.mul_le_mul
      (Nat.mul_le_mul ha.2 hb.2) hc.2) hd.2) he.2) hf.2
  have := Nat.le_of_dvd hpos hnat
  omega

theorem ghostRule_of_neighbour_zero {offset jMax iMax : Int} {f : Int → Int} {p : Int}
    (hs : f p ≤ -offset) (h : ∃ q ∈ flatNeighbours jMax iMax p, f q = 0) :
    ghostRule offset jMax iMax f p = -f p := by
  unfold ghostRule
  rw [if_neg (by omega), if_pos]
  symm
  apply prod32_eq_zero_of_zero
  obtain ⟨q, hq, h0⟩ := h
  simp only [flatNeighbours, List.mem_cons, List.mem_singleton, List.not_mem_nil,
    or_false] at hq
  rcases hq with rfl | rfl | rfl | rfl | rfl | rfl <;> simp [h0]

theorem ghostRule_of_neighbours_small {offset jMax iMax : Int} {f : Int → Int} {p : Int}
    (h : ∀ q ∈ flatNeighbours jMax iMax p, f q ≠ 0 ∧ (f q).natAbs ≤ 40) :
    ghostRule offset jMax iMax f p = f p := by
  unfold ghostRule
  split_ifs with h1 h2
  · rfl
  · exfalso
    exact prod32_ne_zero_of_small (h _ (by simp [flatNeighbours]))
      (h _ (by simp [flatNeighbours])) (h _ (by simp [flatNeighbours]))
      (h _ (by simp [flatNeighbours])) (h _ (by simp [flatNeighbours]))
      (h _ (by simp [flatNeighbours])) h2.symm
  · rfl

theorem ghostNeighbourRule_of_ghost {offset : Int} {totalN : Nat} {jMax iMax : Int}
    {f : Int → Int} {p : Int} (hs : f p ≤ -offset)
    (h : ∃ q ∈ flatNeighbours jMax iMax p, -offset < f q) :
    ghostNeighbourRule offset totalN jMax iMax f p = f p - totalN := by
  unfold ghostNeighbourRule
  rw [if_neg (by omega), if_neg]
  obtain ⟨q, hq, h0⟩ := h
  simp only [flatNeighbours, List.mem_cons, List.mem_singleton, List.not_mem_nil,
    or_false] at hq
  rcases hq with rfl | rfl | rfl | rfl | rfl | rfl <;> omega

theorem ghostNeighbourRule_of_all_solid {offset : Int} {totalN : Nat} {jMax iMax : Int}
    {f : Int → Int} {p : Int} (h : ∀ q ∈ flatNeighbours jMax iMax p, f q ≤ -offset) :
    ghostNeighbourRule offset totalN jMax iMax f p = f p := by
  unfold ghostNeighbourRule
  split_ifs with h1 h2
  · rfl
  · rfl
  · exfalso
    apply h2
    refine ⟨?_, ?_, ?_, ?_, ?_, ?_⟩ <;> exact h _ (by simp [flatNeighbours])

/-- After pass 2 every grid node holds `1`, `0` or a solid flag. -/
theorem stage2_values {space : Space} {particle : Particle} {part : Partition}
    {f2 : List Int}
    (hR : ∀ k j i, InRange part k j i → readFlag f2 (space.nodeIdx k j i)
      = some (ownerFlag space particle part 10 0 k j i particle.totalN))
    (hO : ∀ k j i, InGrid space k j i → ¬ InRange part k j i →
      readFlag f2 (space.nodeIdx k j i) = some 1)
    {k j i : Int} (hg : InGrid space k j i) :
    ∃ v, readFlag f2 (space.nodeIdx k j i) = some v ∧
      (v = 1 ∨ v = 0 ∨ (-10 - (particle.totalN : Int) + 1 ≤ v ∧ v ≤ -10)) := by
  by_cases hx : InRange part k j i
  · refine ⟨_, hR k j i hx, Or.inr ?_⟩
    exact ownerFlag_range space particle part 10 k j i particle.totalN
  · exact ⟨1, hO k j i hg hx, Or.inl rfl⟩

/-- What the solid path of the boundary applicator recovers: for a node of
region 0 that is last rasterized by geometry `g` and ends with a flag
`≤ -offset - totalN`, the value `flag + offset + totalN` is `-g`. -/
theorem solidGeoID_of_last_rasterized (space : Space) (particle : Particle)
    (part : Partition) (hwf : space.WellFormed) (hin : RangeInBounds space part)
    (k j i : Int) (hx : InRange part k j i) (g : Nat) (hg : g < particle.totalN)
    (hras : Rasterizes space particle part g k j i)
    (hlast : ∀ g' : Nat, g < g' → g' < particle.totalN →
      ¬ Rasterizes space particle part g' k j i) :
    ∃ s' f, ComputeDomainGeometryGCIBM space particle part = some s' ∧
      s'.flagAt k j i = some f ∧
      (f ≤ -s'.nodeFlagOffset - particle.totalN → solidGeoID s' particle f = -(g : Int)) := by
  obtain ⟨f1, f2, f3, f4, -, -, -, -, hc, hR, -⟩ :=
    classifier_spec space particle part hwf hin
  obtain ⟨-, r2, r3, r4⟩ := hR k j i hx
  refine ⟨stage space f4, _, hc, r4, ?_⟩
  rw [ownerFlag_of_last _ _ _ _ _ _ _ _ g hras _ hg hlast] at r2
  have c3 := ghostRule_cases 10 space.jMax space.iMax (flagD f2) (space.nodeIdx k j i)
  have c4 := ghostNeighbourRule_cases 10 particle.totalN space.jMax space.iMax (flagD f3)
    (space.nodeIdx k j i)
  rw [flagD_of_read r2] at c3
  rw [flagD_of_read r3] at c4
  generalize ghostRule 10 space.jMax space.iMax (flagD f2) (space.nodeIdx k j i)
    = v3 at c3 c4
  generalize ghostNeighbourRule 10 particle.totalN space.jMax space.iMax (flagD f3)
    (space.nodeIdx k j i) = v4 at c4 ⊢
  intro hle
  have hle' : v4 ≤ -10 - (particle.totalN : Int) := hle
  show v4 + 10 + (particle.totalN : Int) = -(g : Int)
  omega

/-! ## The one-sphere input, stage by stage -/

/-- On the one-sphere input the centre node `(2, 2, 2)` and its west
neighbour `(2, 2, 1)` are solid after pass 2 and the edge node `(2, 1, 1)` is
fluid; pass 3 turns the west neighbour into a ghost and keeps the centre;
pass 4 lowers the centre by `totalN = 1`. -/
theorem oneSphere_stages :
    ((InitializeDomainGeometry demoSpace demoPart).bind fun s1 =>
      (LocateSolidGeometry s1 oneSphere demoPart).bind fun s2 =>
        (IdentifyGhostNodes s2 demoPart).bind fun s3 =>
          (IdentifySolidNodeWithGhostNeighbours s3 oneSphere demoPart).map fun s4 =>
            ([s2.flagAt 2 2 2, s2.flagAt 2 2 1, s2.flagAt 2 1 1],
              [s3.flagAt 2 2 2, s3.flagAt 2 2 1, s3.flagAt 2 1 1],
              [s4.flagAt 2 2 2, s4.flagAt 2 2 1, s4.flagAt 2 1 1]))
      = some ([some (-10), some (-10), some 0], [some (-10), some 10, some 0],
          [some (-11), some 10, some 0]) := by
  decide!

/-! ## Node classifier: claims C1 to C10 -/

/-- C1: for any number of geometries and region 0 inside `[1, Max - 1)` on
each axis, the classifier returns with offset `10`; the flag of every grid
node lies in exactly one of the five bands `{1}`, `{0}`, solid, ghost, solid
with ghost neighbour; no integer lies in two bands; nodes outside region 0
carry `1` and nodes of region 0 never do. -/
theorem C1_flag_bands (space : Space) (particle : Particle) (part : Partition)
    (hwf : space.WellFormed) (hin : RangeInside space part) :
    ∃ s', ComputeDomainGeometryGCIBM space particle part = some s' ∧
      s'.nodeFlagOffset = 10 ∧
      (∀ k j i, InGrid space k j i →
        ∃ f, s'.flagAt k j i = some f ∧ bandCount 10 particle.totalN f = 1 ∧
          (¬ InRange part k j i → f = 1) ∧ (InRange part k j i → f ≠ 1)) ∧
      (∀ x : Int, bandCount 10 particle.totalN x ≤ 1) := by
  obtain ⟨f1, f2, f3, f4, -, -, -, -, hc, hR, hO⟩ :=
    classifier_spec space particle part hwf hin.inBounds
  refine ⟨stage space f4, hc, rfl, ?_, bandCount_le_one _⟩
  intro k j i hg
  by_cases hx : InRange part k j i
  · obtain ⟨-, r2, r3, r4⟩ := hR k j i hx
    refine ⟨_, r4, ?_, fun h => absurd hx h, fun _ => ?_⟩
    all_goals
      have c2 := ownerFlag_range space particle part 10 k j i particle.totalN
      have c3 := ghostRule_cases 10 space.jMax space.iMax (flagD f2) (space.nodeIdx k j i)
      have c4 := ghostNeighbourRule_cases 10 particle.totalN space.jMax space.iMax (flagD f3)
        (space.nodeIdx k j i)
      rw [flagD_of_read r2] at c3
      rw [flagD_of_read r3] at c4
      generalize ownerFlag space particle part 10 0 k j i particle.totalN = v2 at c2 c3
      generalize ghostRule 10 space.jMax space.iMax (flagD f2) (space.nodeIdx k j i)
        = v3 at c3 c4
      generalize ghostNeighbourRule 10 particle.totalN space.jMax space.iMax (flagD f3)
        (space.nodeIdx k j i) = v4 at c4 ⊢
    · unfold bandCount
      split_ifs <;> omega
    · omega
  · obtain ⟨-, -, -, r4⟩ := hO k j i hg hx
    refine ⟨1, r4, ?_, fun _ => rfl, fun h => absurd h hx⟩
    unfold bandCount
    split_ifs <;> omega

/-- Instance of C1 on the one-sphere input. -/
theorem C1_flag_bands_witness :
    demoSpace.WellFormed ∧ RangeInside demoSpace demoPart ∧
    ∃ s', ComputeDomainGeometryGCIBM demoSpace oneSphere demoPart = some s' ∧
      s'.nodeFlagOffset = 10 ∧
      (∀ k j i, InGrid demoSpace k j i →
        ∃ f, s'.flagAt k j i = some f ∧ bandCount 10 oneSphere.totalN f = 1 ∧
          (¬ InRange demoPart k j i → f = 1) ∧ (InRange demoPart k j i → f ≠ 1)) ∧
      (∀ x : Int, bandCount 10 oneSphere.totalN x ≤ 1) :=
  ⟨by decide!, by decide, C1_flag_bands demoSpace oneSphere demoPart (by decide!) (by decide)⟩

/-- C2 fails on the code: on the two-sphere input node `(2, 2, 2)` is last
rasterized by geometry `1` and ends as solid with ghost neighbour (flag
`-13 ≤ -offset - totalN = -12`), but the index recovered by
`flag + offset + totalN` is `-1`, not `1`. -/
theorem C2_recovered_index_negated :
    Rasterizes demoSpace twoSpheres demoPart 1 2 2 2 ∧ twoSpheres.totalN = 2 ∧
    (ComputeDomainGeometryGCIBM demoSpace twoSpheres demoPart).map
      (fun s => (s.flagAt 2 2 2, -s.nodeFlagOffset - (twoSpheres.totalN : Int),
        (s.flagAt 2 2 2).map (solidGeoID s twoSpheres)))
      = some (some (-13), -12, some (-1)) := by
  decide!

/-- C3: pass 3, run on the flags of passes 1 and 2 with fewer than `10`
geometries and region 0 inside `[1, Max - 1)` on each axis, returns; a node
of region 0 with flag `-offset - g` ends with `offset + g` if one of its six
face neighbours has flag `0` and keeps `-offset - g` if none has; a node that
was not solid is unchanged. -/
theorem C3_ghost_detection (space : Space) (particle : Particle) (part : Partition)
    (hwf : space.WellFormed) (hin : RangeInside space part) (hN : particle.totalN < 10) :
    ∃ s1 s2 s3, InitializeDomainGeometry space part = some s1 ∧
      LocateSolidGeometry s1 particle part = some s2 ∧
      IdentifyGhostNodes s2 part = some s3 ∧ s2.nodeFlagOffset = 10 ∧
      (∀ k j i (g : Int), InRange part k j i → 0 ≤ g →
        s2.flagAt k j i = some (-s2.nodeFlagOffset - g) →
        ((∃ n ∈ faceNeighbours k j i, s2.flagAt n.1 n.2.1 n.2.2 = some 0) →
          s3.flagAt k j i = some (s2.nodeFlagOffset + g)) ∧
        ((∀ n ∈ faceNeighbours k j i, s2.flagAt n.1 n.2.1 n.2.2 ≠ some 0) →
          s3.flagAt k j i = some (-s2.nodeFlagOffset - g))) ∧
      (∀ k j i f, InGrid space k j i → s2.flagAt k j i = some f →
        -s2.nodeFlagOffset < f → s3.flagAt k j i = some f) := by
  obtain ⟨f1, f2, f3, f4, e1, e2, e3, -, -, hR, hO⟩ :=
    classifier_spec space particle part hwf hin.inBounds
  refine ⟨stage space f1, stage space f2, stage space f3, e1, e2, e3, rfl, ?_, ?_⟩
  · intro k j i g hx hg h2
    obtain ⟨-, -, r3, -⟩ := hR k j i hx
    have h2' : readFlag f2 (space.nodeIdx k j i) = some (-10 - g) := h2
    have v2 := flagD_of_read h2'
    constructor
    · rintro ⟨n, hn, h0⟩
      have h0' : readFlag f2 (space.nodeIdx n.1 n.2.1 n.2.2) = some 0 := h0
      have hz : ghostRule 10 space.jMax space.iMax (flagD f2) (space.nodeIdx k j i)
          = -flagD f2 (space.nodeIdx k j i) :=
        ghostRule_of_neighbour_zero (by rw [v2]; omega)
          ⟨_, flatNeighbours_of_mem hn, flagD_of_read h0'⟩
      show readFlag f3 (space.nodeIdx k j i) = some (10 + g)
      rw [r3, hz, v2]
      congr 1
      ring
    · intro hall
      have hsmall : ghostRule 10 space.jMax space.iMax (flagD f2) (space.nodeIdx k j i)
          = flagD f2 (space.nodeIdx k j i) := by
        apply ghostRule_of_neighbours_small
        intro q hq
        obtain ⟨n, hn, rfl⟩ := mem_flatNeighbours hq
        obtain ⟨v, hv, hcase⟩ := stage2_values (fun k j i h => (hR k j i h).2.1)
          (fun k j i h h' => (hO k j i h h').2.1) (faceNeighbours_inGrid hin hx hn)
        have hne : v ≠ 0 := fun h => hall n hn (by
          show readFlag f2 (space.nodeIdx n.1 n.2.1 n.2.2) = some 0
          rw [hv, h])
        rw [flagD_of_read hv]
        exact ⟨hne, by omega⟩
      show readFlag f3 (space.nodeIdx k j i) = some (-10 - g)
      rw [r3, hsmall, v2]
  · intro k j i f hg h2 hns
    have h2' : readFlag f2 (space.nodeIdx k j i) = some f := h2
    show readFlag f3 (space.nodeIdx k j i) = some f
    by_cases hx : InRange part k j i
    · obtain ⟨-, -, r3, -⟩ := hR k j i hx
      have hns' : -(10 : Int) < flagD f2 (space.nodeIdx k j i) := by
        rw [flagD_of_read h2']
        exact hns
      rw [r3, ghostRule_of_not_solid hns', flagD_of_read h2']
    · obtain ⟨-, r2, r3, -⟩ := hO k j i hg hx
      rw [r3, ← r2, h2']

/-- Instance of C3 on the one-sphere input. -/
theorem C3_ghost_detection_witness :
    demoSpace.WellFormed ∧ RangeInside demoSpace demoPart ∧ oneSphere.totalN < 10 ∧
    ∃ s1 s2 s3, InitializeDomainGeometry demoSpace demoPart = some s1 ∧
      LocateSolidGeometry s1 oneSphere demoPart = some s2 ∧
      IdentifyGhostNodes s2 demoPart = some s3 ∧ s2.nodeFlagOffset = 10 ∧
      (∀ k j i (g : Int), InRange demoPart k j i → 0 ≤ g →
        s2.flagAt k j i = some (-s2.nodeFlagOffset - g) →
        ((∃ n ∈ faceNeighbours k j i, s2.flagAt n.1 n.2.1 n.2.2 = some 0) →
          s3.flagAt k j i = some (s2.nodeFlagOffset + g)) ∧
        ((∀ n ∈ faceNeighbours k j i, s2.flagAt n.1 n.2.1 n.2.2 ≠ some 0) →
          s3.flagAt k j i = some (-s2.nodeFlagOffset - g))) ∧
      (∀ k j i f, InGrid demoSpace k j i → s2.flagAt k j i = some f →
        -s2.nodeFlagOffset < f → s3.flagAt k j i = some f) :=
  ⟨by decide!, by decide, by decide,
    C3_ghost_detection demoSpace oneSphere demoPart (by decide!) (by decide) (by decide)⟩

/-- C4: on every flag array with positive offset (pass 1 sets it to `10`)
and region 0 inside `[1, Max - 1)`, pass 4 returns, and every node of region
0 that is solid on entry (flag `≤ -offset`, its pass-3 value) and has a face
neighbour whose flag is `≥ offset` ends with its entry flag minus `totalN`. -/
theorem C4_solid_with_ghost_neighbour (space : Space) (particle : Particle)
    (part : Partition) (hwf : space.WellFormed) (hin : RangeInside space part)
    (hoff : 0 < space.nodeFlagOffset) :
    ∃ s4, IdentifySolidNodeWithGhostNeighbours space particle part = some s4 ∧
      ∀ k j i f, InRange part k j i → space.flagAt k j i = some f →
        f ≤ -space.nodeFlagOffset →
        (∃ n ∈ faceNeighbours k j i, ∃ v, space.flagAt n.1 n.2.1 n.2.2 = some v ∧
          space.nodeFlagOffset ≤ v) →
        s4.flagAt k j i = some (f - particle.totalN) := by
  obtain ⟨flags, e4, hA, -, -⟩ :=
    IdentifySolidNodeWithGhostNeighbours_spec space particle part hwf hin.inBounds
  refine ⟨_, e4, ?_⟩
  intro k j i f hx hf hs ⟨n, hn, v, hv, hge⟩
  show readFlag flags (space.nodeIdx k j i) = some (f - particle.totalN)
  have hf' : readFlag space.nodeFlag (space.nodeIdx k j i) = some f := hf
  have hv' : readFlag space.nodeFlag (space.nodeIdx n.1 n.2.1 n.2.2) = some v := hv
  rw [hA k j i hx, ghostNeighbourRule_of_ghost (by rw [flagD_of_read hf']; exact hs)
    ⟨_, flatNeighbours_of_mem hn, by rw [flagD_of_read hv']; omega⟩, flagD_of_read hf']

/-- Instance of C4 on the flags that passes 1 to 3 produce for the one-sphere
input. -/
theorem C4_solid_with_ghost_neighbour_witness :
    demoAfterPass3.WellFormed ∧ RangeInside demoAfterPass3 demoPart ∧
    0 < demoAfterPass3.nodeFlagOffset ∧
    ∃ s4, IdentifySolidNodeWithGhostNeighbours demoAfterPass3 oneSphere demoPart = some s4 ∧
      ∀ k j i f, InRange demoPart k j i → demoAfterPass3.flagAt k j i = some f →
        f ≤ -demoAfterPass3.nodeFlagOffset →
        (∃ n ∈ faceNeighbours k j i, ∃ v, demoAfterPass3.flagAt n.1 n.2.1 n.2.2 = some v ∧
          demoAfterPass3.nodeFlagOffset ≤ v) →
        s4.flagAt k j i = some (f - oneSphere.totalN) :=
  ⟨by decide!, by decide, by decide,
    C4_solid_with_ghost_neighbour demoAfterPass3 oneSphere demoPart (by decide!) (by decide)
      (by decide)⟩

/-- C5 fails on the code: on the big-sphere input no node is fluid, so no
node is a ghost; corner node `(1, 1, 1)` is solid after pass 3 (flag `-10`)
and its six neighbours carry `1` or `-10`, none `≥ offset`, yet pass 4
lowers its flag to `-11`. -/
theorem C5_boundary_counts_as_ghost :
    ((InitializeDomainGeometry demoSpace demoPart).bind fun s1 =>
      (LocateSolidGeometry s1 bigSphere demoPart).bind fun s2 =>
        (IdentifyGhostNodes s2 demoPart).bind fun s3 =>
          (IdentifySolidNodeWithGhostNeighbours s3 bigSphere demoPart).map fun s4 =>
            (s3.nodeFlagOffset, s3.flagAt 1 1 1, s3.neighbourFlags 1 1 1,
              s3.nodeFlag.all (fun f => decide (f < 10)), s4.flagAt 1 1 1))
      = some (10, some (-10),
          [some 1, some (-10), some 1, some (-10), some 1, some (-10)], true, some (-11)) := by
  decide!

/-- C6: for every geometry store and whatever the flag array (one entry per
grid node) held before the call, the classifier returns and every node of
the extended grid that lies outside region 0 on at least one axis has flag
`1`. Region 0 only has to keep the accesses of the passes inside the array. -/
theorem C6_exterior_stays_boundary (space : Space) (particle : Particle) (part : Partition)
    (hwf : space.WellFormed) (hin : RangeInBounds space part) :
    ∃ s', ComputeDomainGeometryGCIBM space particle part = some s' ∧
      ∀ k j i, InGrid space k j i → ¬ InRange part k j i → s'.flagAt k j i = some 1 := by
  obtain ⟨f1, f2, f3, f4, -, -, -, -, hc, -, hO⟩ :=
    classifier_spec space particle part hwf hin
  exact ⟨stage space f4, hc, fun k j i hg hx => (hO k j i hg hx).2.2.2⟩

/-- Instance of C6 on the two-sphere input. -/
theorem C6_exterior_stays_boundary_witness :
    demoSpace.WellFormed ∧ RangeInBounds demoSpace demoPart ∧
    ∃ s', ComputeDomainGeometryGCIBM demoSpace twoSpheres demoPart = some s' ∧
      ∀ k j i, InGrid demoSpace k j i → ¬ InRange demoPart k j i →
        s'.flagAt k j i = some 1 :=
  ⟨by decide!, by decide,
    C6_exterior_stays_boundary demoSpace twoSpheres demoPart (by decide!) (by decide)⟩

/-- C7: a node of region 0 whose Euclidean distance to the centre of every
geometry exceeds that geometry's (non-negative) radius, in exact arithmetic
with node positions `min + (index - ng) * spacing`, has final flag `0`. -/
theorem C7_far_nodes_are_fluid (space : Space) (particle : Particle) (part : Partition)
    (hwf : space.WellFormed) (hin : RangeInBounds space part) (k j i : Int)
    (hx : InRange part k j i)
    (hr : ∀ g : Nat, g < particle.totalN → 0 ≤ particle.ptk g 3)
    (hfar : ∀ g : Nat, g < particle.totalN →
      ((particle.ptk g 3 : ℚ) : ℝ) < Real.sqrt ((centreDistSq space particle g k j i : ℚ) : ℝ)) :
    ∃ s', ComputeDomainGeometryGCIBM space particle part = some s' ∧
      s'.flagAt k j i = some 0 := by
  obtain ⟨f1, f2, f3, f4, -, -, -, -, hc, hR, -⟩ :=
    classifier_spec space particle part hwf hin
  refine ⟨stage space f4, hc, ?_⟩
  obtain ⟨-, r2, r3, r4⟩ := hR k j i hx
  have hnone : ∀ g : Nat, g < particle.totalN → ¬ Rasterizes space particle part g k j i := by
    intro g hg hras
    have h1 : ((particle.ptk g 3 : ℚ) : ℝ) ^ 2 < ((centreDistSq space particle g k j i : ℚ) : ℝ) :=
      (Real.lt_sqrt (by exact_mod_cast hr g hg)).1 (hfar g hg)
    have h2 : particle.ptk g 3 ^ 2 < centreDistSq space particle g k j i := by
      exact_mod_cast h1
    have h3 : 0 > sphereDistance space particle g k j i := hras.2
    rw [sphereDistance_eq] at h3
    nlinarith
  rw [ownerFlag_of_none _ _ _ _ _ _ _ _ _ hnone] at r2
  have v2 := flagD_of_read r2
  rw [ghostRule_of_not_solid (by rw [v2]; norm_num), v2] at r3
  have v3 := flagD_of_read r3
  rw [ghostNeighbourRule_of_not_solid (by rw [v3]; norm_num), v3] at r4
  exact r4

/-- Instance of C7 on the one-sphere input at corner node `(1, 1, 1)`, whose
squared distance to the centre is `3 > (6/5)²`. -/
theorem C7_far_nodes_are_fluid_witness :
    demoSpace.WellFormed ∧ RangeInBounds demoSpace demoPart ∧ InRange demoPart 1 1 1 ∧
    (∀ g : Nat, g < oneSphere.totalN → 0 ≤ oneSphere.ptk g 3) ∧
    (∀ g : Nat, g < oneSphere.totalN →
      ((oneSphere.ptk g 3 : ℚ) : ℝ)
        < Real.sqrt ((centreDistSq demoSpace oneSphere g 1 1 1 : ℚ) : ℝ)) ∧
    ∃ s', ComputeDomainGeometryGCIBM demoSpace oneSphere demoPart = some s' ∧
      s'.flagAt 1 1 1 = some 0 := by
  have hN : ∀ g : Nat, g < oneSphere.totalN → g = 0 := fun g hg => by
    have : oneSphere.totalN = 1 := rfl
    omega
  have hr : ∀ g : Nat, g < oneSphere.totalN → 0 ≤ oneSphere.ptk g 3 := fun g hg => by
    rw [hN g hg]
    decide!
  have hfar : ∀ g : Nat, g < oneSphere.totalN →
      ((oneSphere.ptk g 3 : ℚ) : ℝ)
        < Real.sqrt ((centreDistSq demoSpace oneSphere g 1 1 1 : ℚ) : ℝ) := fun g hg => by
    rw [hN g hg]
    have e1 : oneSphere.ptk (0 : Nat) 3 = 6 / 5 := by decide!
    have e2 : centreDistSq demoSpace oneSphere (0 : Nat) 1 1 1 = 3 := by decide!
    rw [e1, e2, Real.lt_sqrt (by norm_num)]
    norm_num
  exact ⟨by decide!, by decide, by decide, hr, hfar,
    C7_far_nodes_are_fluid demoSpace oneSphere demoPart (by decide!) (by decide) 1 1 1
      (by decide) hr hfar⟩

/-- C8 as stated fails: on the one-sphere input node `(2, 2, 2)` lies
strictly inside sphere 0 and none of its six face neighbours is fluid in the
final classification (all six are ghosts, flag `10`), yet its final flag is
`-11`, not `-offset - 0 = -10`. -/
theorem C8_counterexample :
    InRange demoPart 2 2 2 ∧ InSphere demoSpace oneSphere 0 2 2 2 ∧
    (ComputeDomainGeometryGCIBM demoSpace oneSphere demoPart).map
      (fun s => (s.neighbourFlags 2 2 2, s.flagAt 2 2 2, -s.nodeFlagOffset - 0))
      = some ([some 10, some 10, some 10, some 10, some 10, some 10], some (-11), -10) := by
  decide!

/-- C8, amended: with fewer than `10` geometries and region 0 inside
`[1, Max - 1)`, a node of region 0 that is last rasterized by geometry `g`
(the largest index whose index box and open sphere contain it) and whose six
face neighbours are all solid in the final classification (flag `≤ -offset`)
has final flag `-offset - g`. -/
theorem C8_pure_solid (space : Space) (particle : Particle) (part : Partition)
    (hwf : space.WellFormed) (hin : RangeInside space part) (hN : particle.totalN < 10)
    (k j i : Int) (hx : InRange part k j i) (g : Nat) (hg : g < particle.totalN)
    (hras : Rasterizes space particle part g k j i)
    (hlast : ∀ g' : Nat, g < g' → g' < particle.totalN →
      ¬ Rasterizes space particle part g' k j i) :
    ∃ s', ComputeDomainGeometryGCIBM space particle part = some s' ∧
      s'.nodeFlagOffset = 10 ∧
      ((∀ n ∈ faceNeighbours k j i, ∃ v, s'.flagAt n.1 n.2.1 n.2.2 = some v ∧
          v ≤ -s'.nodeFlagOffset) →
        s'.flagAt k j i = some (-s'.nodeFlagOffset - g)) := by
  obtain ⟨f1, f2, f3, f4, -, -, -, -, hc, hR, hO⟩ :=
    classifier_spec space particle part hwf hin.inBounds
  refine ⟨stage space f4, hc, rfl, ?_⟩
  intro hall
  obtain ⟨-, r2, r3, r4⟩ := hR k j i hx
  rw [ownerFlag_of_last _ _ _ _ _ _ _ _ g hras _ hg hlast] at r2
  -- every face neighbour was solid after pass 2 and after pass 3
  have hnb : ∀ n ∈ faceNeighbours k j i,
      (flagD f2 (space.nodeIdx n.1 n.2.1 n.2.2) ≠ 0 ∧
        (flagD f2 (space.nodeIdx n.1 n.2.1 n.2.2)).natAbs ≤ 40) ∧
      flagD f3 (space.nodeIdx n.1 n.2.1 n.2.2) ≤ -10 := by
    intro n hn
    obtain ⟨v, hv, hle⟩ := hall n hn
    have hv' : readFlag f4 (space.nodeIdx n.1 n.2.1 n.2.2) = some v := hv
    have hle' : v ≤ -10 := hle
    have hgn := faceNeighbours_inGrid hin hx hn
    by_cases hxn : InRange part n.1 n.2.1 n.2.2
    · obtain ⟨-, n2, n3, n4⟩ := hR _ _ _ hxn
      have c2 := ownerFlag_range space particle part 10 n.1 n.2.1 n.2.2 particle.totalN
      have c3 := ghostRule_cases 10 space.jMax space.iMax (flagD f2)
        (space.nodeIdx n.1 n.2.1 n.2.2)
      have c4 := (solid_ghostNeighbourRule 10 particle.totalN space.jMax space.iMax
        (flagD f3) (space.nodeIdx n.1 n.2.1 n.2.2)).1
        (by rw [Option.some.inj (n4.symm.trans hv')]; exact hle')
      rw [flagD_of_read n2] at c3 ⊢
      rw [flagD_of_read n3] at c4 ⊢
      generalize ownerFlag space particle part 10 0 n.1 n.2.1 n.2.2 particle.totalN
        = w2 at c2 c3 ⊢
      generalize ghostRule 10 space.jMax space.iMax (flagD f2)
        (space.nodeIdx n.1 n.2.1 n.2.2) = w3 at c3 c4 ⊢
      refine ⟨⟨?_, ?_⟩, ?_⟩ <;> omega
    · obtain ⟨-, -, -, n4⟩ := hO _ _ _ hgn hxn
      have := Option.some.inj (n4.symm.trans hv')
      omega
  have h3 : ghostRule 10 space.jMax space.iMax (flagD f2) (space.nodeIdx k j i)
      = flagD f2 (space.nodeIdx k j i) := by
    apply ghostRule_of_neighbours_small
    intro q hq
    obtain ⟨n, hn, rfl⟩ := mem_flatNeighbours hq
    exact (hnb n hn).1
  have h4 : ghostNeighbourRule 10 particle.totalN space.jMax space.iMax (flagD f3)
      (space.nodeIdx k j i) = flagD f3 (space.nodeIdx k j i) := by
    apply ghostNeighbourRule_of_all_solid
    intro q hq
    obtain ⟨n, hn, rfl⟩ := mem_flatNeighbours hq
    exact (hnb n hn).2
  rw [h3, flagD_of_read r2] at r3
  rw [h4, flagD_of_read r3] at r4
  exact r4

/-- Instance of the amended C8 on the big-sphere input at the centre node
`(2, 2, 2)`. -/
theorem C8_pure_solid_witness :
    demoSpace.WellFormed ∧ RangeInside demoSpace demoPart ∧ bigSphere.totalN < 10 ∧
    InRange demoPart 2 2 2 ∧ 0 < bigSphere.totalN ∧
    Rasterizes demoSpace bigSphere demoPart (0 : Nat) 2 2 2 ∧
    (∀ g' : Nat, 0 < g' → g' < bigSphere.totalN →
      ¬ Rasterizes demoSpace bigSphere demoPart g' 2 2 2) ∧
    ∃ s', ComputeDomainGeometryGCIBM demoSpace bigSphere demoPart = some s' ∧
      s'.nodeFlagOffset = 10 ∧
      ((∀ n ∈ faceNeighbours 2 2 2, ∃ v, s'.flagAt n.1 n.2.1 n.2.2 = some v ∧
          v ≤ -s'.nodeFlagOffset) →
        s'.flagAt 2 2 2 = some (-s'.nodeFlagOffset - (0 : Nat))) := by
  have hlast : ∀ g' : Nat, 0 < g' → g' < bigSphere.totalN →
      ¬ Rasterizes demoSpace bigSphere demoPart g' 2 2 2 := fun g' h0 h1 => by
    have : bigSphere.totalN = 1 := rfl
    omega
  exact ⟨by decide!, by decide, by decide, by decide, by decide, by decide!, hlast,
    C8_pure_solid demoSpace bigSphere demoPart (by decide!) (by decide) (by decide) 2 2 2
      (by decide) 0 (by decide) (by decide!) hlast⟩

/-- C9 fails on the code: with unit spacing, a sphere of radius `3/5`
centred at `(3/2, 2, 2)` (inside the domain, whose minimum corner is the
origin) contains node `(2, 2, 2)` (squared distance `1/4 < 9/25`), a node of
region 0, but the index box is `[1, 2)` along `i`, so the node is not swept
and is still `0` after pass 2. -/
theorem C9_box_undercovers :
    0 < demoSpace.dx ∧ demoSpace.ddx = 1 / demoSpace.dx ∧
    demoSpace.xMin ≤ offNodeSphere.ptk 0 0 ∧ 0 ≤ offNodeSphere.ptk 0 3 ∧
    InRange demoPart 2 2 2 ∧
    centreDistSq demoSpace offNodeSphere 0 2 2 2 < offNodeSphere.ptk 0 3 ^ 2 ∧
    searchBox demoSpace offNodeSphere demoPart 0 = (2, 3, 2, 3, 1, 2) ∧
    ¬ InBox demoSpace offNodeSphere demoPart 0 2 2 2 ∧
    ((InitializeDomainGeometry demoSpace demoPart).bind fun s1 =>
      (LocateSolidGeometry s1 offNodeSphere demoPart).map fun s2 =>
        (s2.flagAt 2 2 2, -s2.nodeFlagOffset - 0)) = some (some 0, -10) := by
  decide!

/-- C10: last writer wins in pass 2. After passes 1 and 2 a node of region 0
carries `-offset - g` for the largest geometry index `g` whose index box and
open sphere contain the node, and `0` when no geometry does; a node
rasterized by two geometries is owned by the later one and not by the
earlier one. -/
theorem C10_last_writer_wins (space : Space) (particle : Particle) (part : Partition)
    (hwf : space.WellFormed) (hin : RangeInBounds space part) :
    ∃ s1 s2, InitializeDomainGeometry space part = some s1 ∧
      LocateSolidGeometry s1 particle part = some s2 ∧ s2.nodeFlagOffset = 10 ∧
      ∀ k j i, InRange part k j i →
        (∀ g : Nat, g < particle.totalN → Rasterizes space particle part g k j i →
          (∀ g' : Nat, g < g' → g' < particle.totalN →
            ¬ Rasterizes space particle part g' k j i) →
          s2.flagAt k j i = some (-s2.nodeFlagOffset - g)) ∧
        ((∀ g : Nat, g < particle.totalN → ¬ Rasterizes space particle part g k j i) →
          s2.flagAt k j i = some 0) ∧
        (∀ g₁ g₂ : Nat, g₁ < g₂ → g₂ < particle.totalN →
          Rasterizes space particle part g₁ k j i →
          Rasterizes space particle part g₂ k j i →
          (∀ g' : Nat, g₂ < g' → g' < particle.totalN →
            ¬ Rasterizes space particle part g' k j i) →
          s2.flagAt k j i = some (-s2.nodeFlagOffset - g₂) ∧
            s2.flagAt k j i ≠ some (-s2.nodeFlagOffset - g₁)) := by
  obtain ⟨f1, f2, f3, f4, e1, e2, -, -, -, hR, -⟩ :=
    classifier_spec space particle part hwf hin
  refine ⟨stage space f1, stage space f2, e1, e2, rfl, ?_⟩
  intro k j i hx
  obtain ⟨-, r2, -, -⟩ := hR k j i hx
  have key : ∀ g : Nat, g < particle.totalN → Rasterizes space particle part g k j i →
      (∀ g' : Nat, g < g' → g' < particle.totalN →
        ¬ Rasterizes space particle part g' k j i) →
      (stage space f2).flagAt k j i = some (-(stage space f2).nodeFlagOffset - g) := by
    intro g hg hras hlast
    rw [ownerFlag_of_last _ _ _ _ _ _ _ _ g hras _ hg hlast] at r2
    exact r2
  refine ⟨key, ?_, ?_⟩
  · intro hnone
    rw [ownerFlag_of_none _ _ _ _ _ _ _ _ _ hnone] at r2
    exact r2
  · intro g₁ g₂ h12 h2 _ hras2 hlast
    have := key g₂ h2 hras2 hlast
    refine ⟨this, ?_⟩
    rw [this]
    intro h
    have h' := Option.some.inj h
    have : (g₂ : Int) = g₁ := by linarith
    omega

/-- Instance of C10 on the two-sphere input. -/
theorem C10_last_writer_wins_witness :
    demoSpace.WellFormed ∧ RangeInBounds demoSpace demoPart ∧
    ∃ s1 s2, InitializeDomainGeometry demoSpace demoPart = some s1 ∧
      LocateSolidGeometry s1 twoSpheres demoPart = some s2 ∧ s2.nodeFlagOffset = 10 ∧
      ∀ k j i, InRange demoPart k j i →
        (∀ g : Nat, g < twoSpheres.totalN → Rasterizes demoSpace twoSpheres demoPart g k j i →
          (∀ g' : Nat, g < g' → g' < twoSpheres.totalN →
            ¬ Rasterizes demoSpace twoSpheres demoPart g' k j i) →
          s2.flagAt k j i = some (-s2.nodeFlagOffset - g)) ∧
        ((∀ g : Nat, g < twoSpheres.totalN →
            ¬ Rasterizes demoSpace twoSpheres demoPart g k j i) →
          s2.flagAt k j i = some 0) ∧
        (∀ g₁ g₂ : Nat, g₁ < g₂ → g₂ < twoSpheres.totalN →
          Rasterizes demoSpace twoSpheres demoPart g₁ k j i →
          Rasterizes demoSpace twoSpheres demoPart g₂ k j i →
          (∀ g' : Nat, g₂ < g' → g' < twoSpheres.totalN →
            ¬ Rasterizes demoSpace twoSpheres demoPart g' k j i) →
          s2.flagAt k j i = some (-s2.nodeFlagOffset - g₂) ∧
            s2.flagAt k j i ≠ some (-s2.nodeFlagOffset - g₁)) :=
  ⟨by decide!, by decide,
    C10_last_writer_wins demoSpace twoSpheres demoPart (by decide!) (by decide)⟩

/-! ## Domain partition -/

/-- For every grid, entry 0 of the partition that `DomainPartition` fills is
`[0, ng) × [ng + 1, ny + ng - 1) × [ng + 1, nz + ng - 1)` and entry 12 is
`[ng + 1, n + ng - 1)` on each axis; no node belongs to both. -/
theorem DomainPartition_entry0 (nameSize : Nat) (part : Partition) (space : Space) :
    (∀ k j i, InRegion (DomainPartition nameSize part space) 0 k j i ↔
      (space.ng + 1 ≤ k ∧ k < space.nz + space.ng - 1) ∧
        (space.ng + 1 ≤ j ∧ j < space.ny + space.ng - 1) ∧ (0 ≤ i ∧ i < space.ng)) ∧
    (∀ k j i, InRegion (DomainPartition nameSize part space) 12 k j i ↔
      (space.ng + 1 ≤ k ∧ k < space.nz + space.ng - 1) ∧
        (space.ng + 1 ≤ j ∧ j < space.ny + space.ng - 1) ∧
        (space.ng + 1 ≤ i ∧ i < space.nx + space.ng - 1)) ∧
    (∀ k j i, InRegion (DomainPartition nameSize part space) 0 k j i →
      ¬ InRegion (DomainPartition nameSize part space) 12 k j i) := by
  refine ⟨fun k j i => Iff.rfl, fun k j i => Iff.rfl, fun k j i h0 h12 => ?_⟩
  have h0' := h0.2.2.2
  have h12' := h12.2.2.1
  simp only [DomainPartition, assignAll] at h0' h12'
  simp at h0' h12'
  omega

/-! ## Array access of the conserved field -/

theorem readAt_bounds {α : Type} {a : List α} {p : Int} {u : α} (h : readAt a p = some u) :
    0 ≤ p ∧ p < a.length := by
  unfold readAt at h
  split at h
  · rename_i h0
    refine ⟨h0, ?_⟩
    have hlt : p.toNat < a.length := by
      by_contra hge
      rw [List.getElem?_eq_none (Nat.le_of_not_lt hge)] at h
      exact Option.noConfusion h
    omega
  · exact Option.noConfusion h

theorem readAt_of_bounds {α : Type} {a : List α} {p : Int} (h0 : 0 ≤ p) (h1 : p < a.length) :
    ∃ u, readAt a p = some u := by
  have hlt : p.toNat < a.length := by omega
  exact ⟨a[p.toNat], by simp [readAt, h0, List.getElem?_eq_getElem hlt]⟩

theorem writeAt_spec {α : Type} {a : List α} {p : Int} (v : α) (h0 : 0 ≤ p)
    (h1 : p < a.length) :
    ∃ a', writeAt a p v = some a' ∧ a'.length = a.length ∧
      ∀ q, readAt a' q = if q = p then some v else readAt a q := by
  have hlt : p.toNat < a.length := by omega
  refine ⟨a.set p.toNat v, by simp [writeAt, h0, hlt], by simp, fun q => ?_⟩
  unfold readAt
  by_cases hq : 0 ≤ q
  · simp only [hq, if_true, List.getElem?_set]
    by_cases hqp : q = p
    · subst hqp
      simp [hlt]
    · have hne : p.toNat ≠ q.toNat := by omega
      simp [hqp, hne]
  · have hqp : q ≠ p := by omega
    simp [hq, hqp]

theorem readAt_ext {α : Type} {a b : List α} (h : ∀ p, readAt a p = readAt b p) : a = b := by
  apply List.ext_getElem?
  intro n
  have := h (n : Int)
  simpa [readAt] using this

theorem cellsAt_eq_some {α : Type} {U : List α} {idx : Int} {c : List α} :
    cellsAt U idx = some c ↔ ∃ a0 a1 a2 a3 a4, readAt U (idx * 5 + 0) = some a0 ∧
      readAt U (idx * 5 + 1) = some a1 ∧ readAt U (idx * 5 + 2) = some a2 ∧
      readAt U (idx * 5 + 3) = some a3 ∧ readAt U (idx * 5 + 4) = some a4 ∧
      c = [a0, a1, a2, a3, a4] := by
  unfold cellsAt
  constructor
  · intro h
    simp only [Option.bind_eq_some] at h
    obtain ⟨a0, h0, a1, h1, a2, h2, a3, h3, a4, h4, hc⟩ := h
    exact ⟨a0, a1, a2, a3, a4, h0, h1, h2, h3, h4, (Option.some.inj hc).symm⟩
  · rintro ⟨a0, a1, a2, a3, a4, h0, h1, h2, h3, h4, rfl⟩
    simp only [h0, h1, h2, h3, h4, Option.some_bind]

theorem cellsAt_of_length {α : Type} {U : List α} {idx n : Int} (h0 : 0 ≤ idx) (h1 : idx < n)
    (hU : (U.length : Int) = 5 * n) : ∃ c, cellsAt U idx = some c := by
  obtain ⟨a0, e0⟩ := @readAt_of_bounds α U (idx * 5 + 0) (by omega) (by omega)
  obtain ⟨a1, e1⟩ := @readAt_of_bounds α U (idx * 5 + 1) (by omega) (by omega)
  obtain ⟨a2, e2⟩ := @readAt_of_bounds α U (idx * 5 + 2) (by omega) (by omega)
  obtain ⟨a3, e3⟩ := @readAt_of_bounds α U (idx * 5 + 3) (by omega) (by omega)
  obtain ⟨a4, e4⟩ := @readAt_of_bounds α U (idx * 5 + 4) (by omega) (by omega)
  exact ⟨_, cellsAt_eq_some.2 ⟨a0, a1, a2, a3, a4, e0, e1, e2, e3, e4, rfl⟩⟩

/-! ## The stencil search -/

theorem fluidProbes_succ (space : Space) (node : Int × Int × Int) (n : Nat) :
    fluidProbes space node (n + 1)
      = fluidProbes space node n ++ (if probeFluid space node n = true then [n] else []) := by
  unfold fluidProbes
  rw [List.range_succ, List.filter_append]
  by_cases h : probeFluid space node n = true <;> simp [h]

theorem fluidProbes_initial (space : Space) (node : Int × Int × Int) (a : Nat) :
    ∀ d : Nat, fluidProbes space node a <+: fluidProbes space node (a + d)
  | 0 => List.prefix_refl _
  | d + 1 => by
    rw [← Nat.add_assoc, fluidProbes_succ]
    exact (fluidProbes_initial space node a d).trans (List.prefix_append _ _)

theorem fluidProbes_get_mono {space : Space} {node : Int × Int × Int} {a b r n : Nat}
    (hab : a ≤ b) (h : (fluidProbes space node a)[r]? = some n) :
    (fluidProbes space node b)[r]? = some n := by
  obtain ⟨t, ht⟩ := fluidProbes_initial space node a (b - a)
  rw [Nat.add_sub_cancel' hab] at ht
  rw [← ht]
  have hr : r < (fluidProbes space node a).length := by
    by_contra hge
    rw [List.getElem?_eq_none (Nat.le_of_not_lt hge)] at h
    exact Option.noConfusion h
  rw [List.getElem?_append_left hr]
  exact h

theorem fluidProbes_length_mono {space : Space} {node : Int × Int × Int} {a b : Nat}
    (hab : a ≤ b) : (fluidProbes space node a).length ≤ (fluidProbes space node b).length := by
  have := (fluidProbes_initial space node a (b - a)).length_le
  rwa [Nat.add_sub_cancel' hab] at this

theorem mem_fluidProbes {space : Space} {node : Int × Int × Int} {loop n : Nat} :
    n ∈ fluidProbes space node loop ↔ n < loop ∧
      readFlag space.nodeFlag (probeIdx space node n) = some 0 := by
  simp [fluidProbes, probeFluid]

theorem assignRow_same {α : Type} (a : Nat → Nat → α) (r : Nat) (row : List α) (c : Nat)
    (hc : c < row.length) : assignRow a r row r c = row[c] := by
  simp [assignRow, List.getD_eq_getElem?_getD, List.getElem?_eq_getElem hc]

theorem assignRow_other {α : Type} (a : Nat → Nat → α) (r : Nat) (row : List α) {m : Nat}
    (c : Nat) (hm : m ≠ r) : assignRow a r row m c = a m c := by
  simp [assignRow, hm]

/-- One accepting iteration extends the stencil of the first `loop` probes to
the stencil of the first `loop + 1` probes. -/
theorem StencilUpTo.accept {R : Type} [Field R] {space : Space} {flow : Flow R} {U : List R}
    {node : Int × Int × Int} {loop : Nat} {st : Stencil R}
    (hst : StencilUpTo space flow U node loop st) (ht : st.tally < 4)
    (hfl : readFlag space.nodeFlag (probeIdx space node loop) = some 0)
    {U0 U1 U2 U3 U4 : R}
    (hc : cellsAt U (probeIdx space node loop) = some [U0, U1, U2, U3, U4]) :
    StencilUpTo space flow U node (loop + 1)
      { posMatrix := assignRow st.posMatrix st.tally
          [1, (((probeNode node loop).1 : Int) : R), (((probeNode node loop).2.1 : Int) : R),
            (((probeNode node loop).2.2 : Int) : R)]
        rhsVector := assignRow st.rhsVector st.tally
          [U0, U1 / U0, U2 / U0, U3 / U0,
            (flow.gamma - 1) * U0 * (U4 / U0
              - 1 / 2 * (U1 / U0 * (U1 / U0) + U2 / U0 * (U2 / U0) + U3 / U0 * (U3 / U0)))]
        tally := st.tally + 1 } := by
  obtain ⟨h1, h2, h3⟩ := hst
  have hp : probeFluid space node loop = true := by simp [probeFluid, hfl]
  have hlen : st.tally = (fluidProbes space node loop).length := by omega
  have hsucc : fluidProbes space node (loop + 1) = fluidProbes space node loop ++ [loop] := by
    rw [fluidProbes_succ, if_pos hp]
  refine ⟨?_, ?_, ?_⟩
  · show st.tally + 1 = _
    rw [hsucc, List.length_append, List.length_singleton]
    omega
  · intro r hr
    have hr' : r < st.tally + 1 := hr
    by_cases hrt : r = st.tally
    · subst hrt
      refine ⟨loop, [U0, U1, U2, U3, U4], ?_, hc, ⟨?_, ?_, ?_, ?_⟩, ?_⟩
      · rw [hsucc, hlen, List.getElem?_append_right (Nat.le_refl _)]
        simp
      · exact assignRow_same _ _ _ 0 (by simp)
      · exact assignRow_same _ _ _ 1 (by simp)
      · exact assignRow_same _ _ _ 2 (by simp)
      · exact assignRow_same _ _ _ 3 (by simp)
      · intro m hm
        show assignRow _ _ _ _ m = _
        rw [assignRow_same _ _ _ m (by simpa using hm)]
        interval_cases m <;> rfl
    · have hlt : r < st.tally := by omega
      obtain ⟨n, cells, e1, e2, e3, e4⟩ := h2 r hlt
      refine ⟨n, cells, fluidProbes_get_mono (Nat.le_succ _) e1, e2, ?_, ?_⟩
      · show assignRow _ _ _ r 0 = _ ∧ assignRow _ _ _ r 1 = _ ∧ assignRow _ _ _ r 2 = _ ∧
          assignRow _ _ _ r 3 = _
        simp only [assignRow_other _ _ _ _ hrt]
        exact e3
      · intro m hm
        show assignRow _ _ _ r m = _
        rw [assignRow_other _ _ _ _ hrt]
        exact e4 m hm
  · intro r hr c
    have hr' : st.tally + 1 ≤ r := hr
    have hne : r ≠ st.tally := by omega
    show assignRow _ _ _ r c = 0 ∧ assignRow _ _ _ r c = 0
    rw [assignRow_other _ _ _ _ hne, assignRow_other _ _ _ _ hne]
    exact h3 r (by omega) c

/-- A rejecting iteration keeps the stencil. -/
theorem StencilUpTo.skip {R : Type} [Field R] {space : Space} {flow : Flow R} {U : List R}
    {node : Int × Int × Int} {loop : Nat} {st : Stencil R}
    (hst : StencilUpTo space flow U node loop st)
    (hp : probeFluid space node loop = false) :
    StencilUpTo space flow U node (loop + 1) st := by
  have hsucc : fluidProbes space node (loop + 1) = fluidProbes space node loop := by
    rw [fluidProbes_succ]; simp [hp]
  unfold StencilUpTo
  rw [hsucc]
  exact hst

/-- A full stencil is the stencil of every longer run of probes. -/
theorem StencilUpTo.full {R : Type} [Field R] {space : Space} {flow : Flow R} {U : List R}
    {node : Int × Int × Int} {loop : Nat} {st : Stencil R}
    (hst : StencilUpTo space flow U node loop st) (ht : ¬ st.tally < 4) {later : Nat}
    (hl : loop ≤ later) : StencilUpTo space flow U node later st := by
  obtain ⟨h1, h2, h3⟩ := hst
  have hmono := @fluidProbes_length_mono space node loop later hl
  refine ⟨by omega, fun r hr => ?_, h3⟩
  obtain ⟨n, cells, e1, e2⟩ := h2 r hr
  exact ⟨n, cells, fluidProbes_get_mono hl e1, e2⟩

/-- With every examined probe inside the arrays the stencil search returns, and
its stencil holds the first fluid probes in table order. -/
theorem stencilLoop_spec {R : Type} [Field R] (space : Space) (flow : Flow R) (U : List R)
    (node : Int × Int × Int)
    (hflag : ∀ n, n < 27 → (fluidProbes space node n).length < 4 →
      ∃ f, readFlag space.nodeFlag (probeIdx space node n) = some f)
    (hU : ∀ n, n < 27 → (fluidProbes space node n).length < 4 →
      readFlag space.nodeFlag (probeIdx space node n) = some 0 →
      ∃ c, cellsAt U (probeIdx space node n) = some c) :
    ∀ (fuel loop : Nat) (st : Stencil R), 27 ≤ loop + fuel → loop ≤ 27 →
      StencilUpTo space flow U node loop st →
      ∃ st', stencilLoop space flow U node.1 node.2.1 node.2.2 fuel loop st = some st' ∧
        StencilUpTo space flow U node 27 st'
  | 0, loop, st, h1, h2, hst => by
    have : loop = 27 := by omega
    subst this
    exact ⟨st, rfl, hst⟩
  | fuel + 1, loop, st, h1, h2, hst => by
    rw [stencilLoop]
    by_cases hcond : st.tally < 4 ∧ loop < 27
    · rw [if_pos hcond]
      have hlen : (fluidProbes space node loop).length < 4 := by
        have := hst.1
        omega
      obtain ⟨f, hf⟩ := hflag loop hcond.2 hlen
      have hf' : readFlag space.nodeFlag
          (((node.2.2 + (path.getD loop (0, 0, 0)).2.2) * space.jMax
            + (node.2.1 + (path.getD loop (0, 0, 0)).2.1)) * space.iMax
            + (node.1 + (path.getD loop (0, 0, 0)).1)) = some f := hf
      simp only [hf', Option.some_bind]
      by_cases hz : 0 ≠ f
      · rw [if_pos hz]
        have hp : probeFluid space node loop = false := by
          simp [probeFluid, hf]
          exact fun h => hz h.symm
        exact stencilLoop_spec space flow U node hflag hU fuel (loop + 1) st (by omega)
          (by omega) (hst.skip hp)
      · rw [if_neg hz]
        have hz' : f = 0 := by
          by_contra h
          exact hz (fun e => h e.symm)
        subst hz'
        obtain ⟨c, hc⟩ := hU loop hcond.2 hlen hf
        obtain ⟨a0, a1, a2, a3, a4, e0, e1, e2, e3, e4, rfl⟩ := cellsAt_eq_some.1 hc
        have e0' : readAt U ((((node.2.2 + (path.getD loop (0, 0, 0)).2.2) * space.jMax
            + (node.2.1 + (path.getD loop (0, 0, 0)).2.1)) * space.iMax
            + (node.1 + (path.getD loop (0, 0, 0)).1)) * 5 + 0) = some a0 := e0
        have e1' : readAt U ((((node.2.2 + (path.getD loop (0, 0, 0)).2.2) * space.jMax
            + (node.2.1 + (path.getD loop (0, 0, 0)).2.1)) * space.iMax
            + (node.1 + (path.getD loop (0, 0, 0)).1)) * 5 + 1) = some a1 := e1
        have e2' : readAt U ((((node.2.2 + (path.getD loop (0, 0, 0)).2.2) * space.jMax
            + (node.2.1 + (path.getD loop (0, 0, 0)).2.1)) * space.iMax
            + (node.1 + (path.getD loop (0, 0, 0)).1)) * 5 + 2) = some a2 := e2
        have e3' : readAt U ((((node.2.2 + (path.getD loop (0, 0, 0)).2.2) * space.jMax
            + (node.2.1 + (path.getD loop (0, 0, 0)).2.1)) * space.iMax
            + (node.1 + (path.getD loop (0, 0, 0)).1)) * 5 + 3) = some a3 := e3
        have e4' : readAt U ((((node.2.2 + (path.getD loop (0, 0, 0)).2.2) * space.jMax
            + (node.2.1 + (path.getD loop (0, 0, 0)).2.1)) * space.iMax
            + (node.1 + (path.getD loop (0, 0, 0)).1)) * 5 + 4) = some a4 := e4
        simp only [e0', e1', e2', e3', e4', Option.some_bind]
        exact stencilLoop_spec space flow U node hflag hU fuel (loop + 1) _ (by omega)
          (by omega) (hst.accept hcond.1 hf hc)
    · rw [if_neg hcond]
      refine ⟨st, rfl, ?_⟩
      by_cases ht : st.tally < 4
      · have : loop = 27 := by
          by_contra hne
          exact hcond ⟨ht, by omega⟩
        subst this
        exact hst
      · exact hst.full ht h2

theorem StencilUpTo.empty {R : Type} [Field R] (space : Space) (flow : Flow R) (U : List R)
    (node : Int × Int × Int) : StencilUpTo space flow U node 0 (emptyStencil : Stencil R) :=
  ⟨by simp [emptyStencil, fluidProbes], fun r hr => absurd hr (Nat.not_lt_zero r),
    fun _ _ _ => ⟨rfl, rfl⟩⟩

theorem searchAround_spec {R : Type} [Field R] (space : Space) (flow : Flow R) (U : List R)
    (node : Int × Int × Int)
    (hflag : ∀ n, n < 27 → (fluidProbes space node n).length < 4 →
      ∃ f, readFlag space.nodeFlag (probeIdx space node n) = some f)
    (hU : ∀ n, n < 27 → (fluidProbes space node n).length < 4 →
      readFlag space.nodeFlag (probeIdx space node n) = some 0 →
      ∃ c, cellsAt U (probeIdx space node n) = some c) :
    ∃ st, searchAround space flow U node = some st ∧ StencilUpTo space flow U node 27 st :=
  stencilLoop_spec space flow U node hflag hU 27 0 emptyStencil (by omega) (by omega)
    (StencilUpTo.empty space flow U node)

/-- The stencil search reads the field only at the five entries of nodes
whose flag is `0`. -/
theorem stencilLoop_congr {R : Type} [Field R] (space : Space) (flow : Flow R) {U V : List R}
    (h : ∀ p, readFlag space.nodeFlag p = some 0 → ∀ m : Int, 0 ≤ m → m < 5 →
      readAt V (p * 5 + m) = readAt U (p * 5 + m))
    (imageI imageJ imageK : Int) :
    ∀ (fuel loop : Nat) (st : Stencil R),
      stencilLoop space flow V imageI imageJ imageK fuel loop st
        = stencilLoop space flow U imageI imageJ imageK fuel loop st
  | 0, _, _ => rfl
  | fuel + 1, loop, st => by
    have ih := stencilLoop_congr space flow h imageI imageJ imageK fuel
    rw [stencilLoop, stencilLoop]
    by_cases hcond : st.tally < 4 ∧ loop < 27
    · rw [if_pos hcond, if_pos hcond]
      rcases hr : readFlag space.nodeFlag
          (((imageK + (path.getD loop (0, 0, 0)).2.2) * space.jMax
            + (imageJ + (path.getD loop (0, 0, 0)).2.1)) * space.iMax
            + (imageI + (path.getD loop (0, 0, 0)).1)) with _ | f
      · simp only [hr, Option.none_bind]
      · simp only [hr, Option.some_bind]
        by_cases hz : 0 ≠ f
        · rw [if_pos hz, if_pos hz]
          exact ih _ _
        · rw [if_neg hz, if_neg hz]
          have hz' : f = 0 := by
            by_contra hne
            exact hz (fun e => hne e.symm)
          subst hz'
          rw [h _ hr 0 (by omega) (by omega), h _ hr 1 (by omega) (by omega),
            h _ hr 2 (by omega) (by omega), h _ hr 3 (by omega) (by omega),
            h _ hr 4 (by omega) (by omega)]
          simp only [ih]
    · rw [if_neg hcond, if_neg hcond]

/-! ## The reconstructed primitives -/

/-- The reconstructor as a case distinction: `none` when the record lies
outside the store or `distToCenter` is zero, else the mirrored value of the
linear model over the stencil of the search. -/
theorem LinearReconstruction_eq {R : Type} [Field R] [DecidableEq R] (ops : RealOps R)
    (solver : (Nat → Nat → R) → (Nat → Nat → R) → Nat → Nat → R)
    (k j i geoID : Int) (U : List R) (space : Space) (particle : Particle) (flow : Flow R) :
    ∃ F : Stencil R → Option (Nat → R),
      LinearReconstruction ops solver k j i geoID U space particle flow
        = (if 0 ≤ geoID * particle.entryN ∧
              geoID * particle.entryN + 3 < particle.totalN * particle.entryN then
            if distToCenter ops space particle k j i geoID = 0 then none
            else (stencilSearch ops k j i geoID U space particle flow).bind F
          else none) ∧
      ∀ st, ∃ Uo, F st = some Uo ∧
        Uo 0 = imageValue (solver st.posMatrix st.rhsVector)
          (imagePoint ops space particle k j i geoID) 0 ∧
        Uo 1 = -imageValue (solver st.posMatrix st.rhsVector)
          (imagePoint ops space particle k j i geoID) 1 ∧
        Uo 2 = -imageValue (solver st.posMatrix st.rhsVector)
          (imagePoint ops space particle k j i geoID) 2 ∧
        Uo 3 = -imageValue (solver st.posMatrix st.rhsVector)
          (imagePoint ops space particle k j i geoID) 3 ∧
        Uo 4 = imageValue (solver st.posMatrix st.rhsVector)
          (imagePoint ops space particle k j i geoID) 4 :=
  ⟨_, rfl, fun _ => ⟨_, rfl, rfl, rfl, rfl, rfl, rfl⟩⟩

/-- Without a defined normal the reconstructor does not return. -/
theorem LinearReconstruction_undefined {R : Type} [Field R] [DecidableEq R] (ops : RealOps R)
    (solver : (Nat → Nat → R) → (Nat → Nat → R) → Nat → Nat → R)
    (k j i geoID : Int) (U : List R) (space : Space) (particle : Particle) (flow : Flow R)
    (h : ¬ NormalDefined ops space particle k j i geoID) :
    LinearReconstruction ops solver k j i geoID U space particle flow = none := by
  obtain ⟨F, e, -⟩ := LinearReconstruction_eq ops solver k j i geoID U space particle flow
  rw [e]
  by_cases h1 : 0 ≤ geoID * particle.entryN ∧
      geoID * particle.entryN + 3 < particle.totalN * particle.entryN
  · rw [if_pos h1]
    by_cases h2 : distToCenter ops space particle k j i geoID = 0
    · rw [if_pos h2]
    · exact absurd ⟨h1, h2⟩ h
  · rw [if_neg h1]

/-- A reconstruction that returns has a defined normal, its stencil search
has returned, and its result is the mirrored value of the linear model at the
image point. -/
theorem LinearReconstruction_of_some {R : Type} [Field R] [DecidableEq R] (ops : RealOps R)
    (solver : (Nat → Nat → R) → (Nat → Nat → R) → Nat → Nat → R)
    (k j i geoID : Int) (U : List R) (space : Space) (particle : Particle) (flow : Flow R)
    {Uo : Nat → R}
    (h : LinearReconstruction ops solver k j i geoID U space particle flow = some Uo) :
    NormalDefined ops space particle k j i geoID ∧
    ∃ st, stencilSearch ops k j i geoID U space particle flow = some st ∧
      Uo 0 = imageValue (solver st.posMatrix st.rhsVector)
        (imagePoint ops space particle k j i geoID) 0 ∧
      Uo 1 = -imageValue (solver st.posMatrix st.rhsVector)
        (imagePoint ops space particle k j i geoID) 1 ∧
      Uo 2 = -imageValue (solver st.posMatrix st.rhsVector)
        (imagePoint ops space particle k j i geoID) 2 ∧
      Uo 3 = -imageValue (solver st.posMatrix st.rhsVector)
        (imagePoint ops space particle k j i geoID) 3 ∧
      Uo 4 = imageValue (solver st.posMatrix st.rhsVector)
        (imagePoint ops space particle k j i geoID) 4 := by
  have hdef : NormalDefined ops space particle k j i geoID := by
    by_contra hn
    rw [LinearReconstruction_undefined ops solver k j i geoID U space particle flow hn] at h
    exact Option.noConfusion h
  obtain ⟨F, e, hF⟩ := LinearReconstruction_eq ops solver k j i geoID U space particle flow
  rw [e, if_pos hdef.1, if_neg hdef.2] at h
  rcases hs : stencilSearch ops k j i geoID U space particle flow with _ | st
  · rw [hs] at h
    exact Option.noConfusion h
  · rw [hs, Option.some_bind] at h
    obtain ⟨Uo', e', v⟩ := hF st
    rw [h] at e'
    cases Option.some.inj e'
    exact ⟨hdef, st, rfl, v⟩

/-- With a defined normal the reconstructor returns exactly when its stencil
search does, and its result is the mirrored value of the linear model at the
image point. -/
theorem LinearReconstruction_of_search {R : Type} [Field R] [DecidableEq R] (ops : RealOps R)
    (solver : (Nat → Nat → R) → (Nat → Nat → R) → Nat → Nat → R)
    (k j i geoID : Int) (U : List R) (space : Space) (particle : Particle) (flow : Flow R)
    (hdef : NormalDefined ops space particle k j i geoID)
    {st : Stencil R} (h : stencilSearch ops k j i geoID U space particle flow = some st) :
    ∃ Uo, LinearReconstruction ops solver k j i geoID U space particle flow = some Uo ∧
      Uo 0 = imageValue (solver st.posMatrix st.rhsVector)
        (imagePoint ops space particle k j i geoID) 0 ∧
      Uo 1 = -imageValue (solver st.posMatrix st.rhsVector)
        (imagePoint ops space particle k j i geoID) 1 ∧
      Uo 2 = -imageValue (solver st.posMatrix st.rhsVector)
        (imagePoint ops space particle k j i geoID) 2 ∧
      Uo 3 = -imageValue (solver st.posMatrix st.rhsVector)
        (imagePoint ops space particle k j i geoID) 3 ∧
      Uo 4 = imageValue (solver st.posMatrix st.rhsVector)
        (imagePoint ops space particle k j i geoID) 4 := by
  obtain ⟨F, e, hF⟩ := LinearReconstruction_eq ops solver k j i geoID U space particle flow
  rw [if_pos hdef.1, if_neg hdef.2, h, Option.some_bind] at e
  obtain ⟨Uo, e', v⟩ := hF st
  exact ⟨Uo, e.trans e', v⟩

theorem LinearReconstruction_none {R : Type} [Field R] [DecidableEq R] (ops : RealOps R)
    (solver : (Nat → Nat → R) → (Nat → Nat → R) → Nat → Nat → R)
    (k j i geoID : Int) (U : List R) (space : Space) (particle : Particle) (flow : Flow R)
    (h : stencilSearch ops k j i geoID U space particle flow = none) :
    LinearReconstruction ops solver k j i geoID U space particle flow = none := by
  obtain ⟨F, e, -⟩ := LinearReconstruction_eq ops solver k j i geoID U space particle flow
  rw [h] at e
  rw [e]
  split_ifs <;> rfl

/-- The reconstructor reads the field only at the five entries of nodes whose
flag is `0`. -/
theorem LinearReconstruction_congr {R : Type} [Field R] [DecidableEq R] (ops : RealOps R)
    (solver : (Nat → Nat → R) → (Nat → Nat → R) → Nat → Nat → R)
    (k j i geoID : Int) {U V : List R} (space : Space) (particle : Particle) (flow : Flow R)
    (h : ∀ p, readFlag space.nodeFlag p = some 0 → ∀ m : Int, 0 ≤ m → m < 5 →
      readAt V (p * 5 + m) = readAt U (p * 5 + m)) :
    LinearReconstruction ops solver k j i geoID V space particle flow
      = LinearReconstruction ops solver k j i geoID U space particle flow := by
  unfold LinearReconstruction
  simp only [stencilLoop_congr space flow h]

theorem searchAround_of_inBounds {R : Type} [Field R] (space : Space) (flow : Flow R)
    (U : List R) (node : Int × Int × Int) (h : ProbesInBounds space U node) :
    ∃ st, searchAround space flow U node = some st ∧ StencilUpTo space flow U node 27 st := by
  apply searchAround_spec
  · intro n hn hlen
    exact Option.isSome_iff_exists.1 (h n hn hlen).1
  · intro n hn hlen hf
    refine Option.isSome_iff_exists.1 ((h n hn hlen).2 ?_)
    simp [probeFluid, hf]

theorem fluidProbes_get {space : Space} {node : Int × Int × Int} {loop r n : Nat}
    (h : (fluidProbes space node loop)[r]? = some n) :
    n < loop ∧ readFlag space.nodeFlag (probeIdx space node n) = some 0 :=
  mem_fluidProbes.1 (List.getElem?_mem h)

/-! ## Uniqueness of the fit -/

/-- An invertible `4 × 4` system has one solution: two coefficient tables
that both solve it agree. -/
theorem solution_unique {R : Type} [Field R] (P : Nat → Nat → R)
    (hdet : (Matrix.of fun (r c : Fin 4) => P r c).det ≠ 0) (X Y : Nat → R)
    (h : ∀ r, r < 4 → P r 0 * X 0 + P r 1 * X 1 + P r 2 * X 2 + P r 3 * X 3
      = P r 0 * Y 0 + P r 1 * Y 1 + P r 2 * Y 2 + P r 3 * Y 3) :
    X 0 = Y 0 ∧ X 1 = Y 1 ∧ X 2 = Y 2 ∧ X 3 = Y 3 := by
  have hu : IsUnit (Matrix.of fun (r c : Fin 4) => P r c).det := IsUnit.mk0 _ hdet
  have hmul : (Matrix.of fun (r c : Fin 4) => P r c).mulVec (fun c : Fin 4 => X c)
      = (Matrix.of fun (r c : Fin 4) => P r c).mulVec (fun c : Fin 4 => Y c) := by
    funext r
    have := h r r.2
    simpa [Matrix.mulVec, Matrix.dotProduct, Fin.sum_univ_four] using this
  have hinj := Matrix.mulVec_injective_iff_isUnit.2
    ((Matrix.isUnit_iff_isUnit_det _).2 hu) hmul
  exact ⟨congrFun hinj 0, congrFun hinj 1, congrFun hinj 2, congrFun hinj 3⟩

/-- Every entry of the search path is an offset in `{-1, 0, 1}³`. -/
theorem path_offsets : ∀ n, n < 27 →
    (-1 ≤ (path.getD n (0, 0, 0)).1 ∧ (path.getD n (0, 0, 0)).1 ≤ 1) ∧
    (-1 ≤ (path.getD n (0, 0, 0)).2.1 ∧ (path.getD n (0, 0, 0)).2.1 ≤ 1) ∧
    (-1 ≤ (path.getD n (0, 0, 0)).2.2 ∧ (path.getD n (0, 0, 0)).2.2 ≤ 1) := by
  decide

/-! ## The boundary applicator as a simultaneous update -/

theorem cellsAt_congr {α : Type} {W W' : List α} {p : Int}
    (h : ∀ m : Int, 0 ≤ m → m < 5 → readAt W' (p * 5 + m) = readAt W (p * 5 + m)) :
    cellsAt W' p = cellsAt W p := by
  unfold cellsAt
  rw [h 0 (by omega) (by omega), h 1 (by omega) (by omega), h 2 (by omega) (by omega),
    h 3 (by omega) (by omega), h 4 (by omega) (by omega)]

/-- The five assignments to the entries of a node succeed inside the array
and change no other entry. -/
theorem writeCells_spec {α : Type} {W : List α} {idx : Int} (h0 : 0 ≤ idx)
    (h1 : idx * 5 + 4 < W.length) (v0 v1 v2 v3 v4 : α) :
    ∃ W', ((writeAt W (idx * 5 + 0) v0).bind fun W =>
        (writeAt W (idx * 5 + 1) v1).bind fun W =>
        (writeAt W (idx * 5 + 2) v2).bind fun W =>
        (writeAt W (idx * 5 + 3) v3).bind fun W => writeAt W (idx * 5 + 4) v4) = some W' ∧
      W'.length = W.length ∧ cellsAt W' idx = some [v0, v1, v2, v3, v4] ∧
      ∀ q, (∀ m : Int, 0 ≤ m → m < 5 → q ≠ idx * 5 + m) → readAt W' q = readAt W q := by
  obtain ⟨W1, e1, l1, r1⟩ := @writeAt_spec α W (idx * 5 + 0) v0 (by omega) (by omega)
  obtain ⟨W2, e2, l2, r2⟩ := @writeAt_spec α W1 (idx * 5 + 1) v1 (by omega) (by omega)
  obtain ⟨W3, e3, l3, r3⟩ := @writeAt_spec α W2 (idx * 5 + 2) v2 (by omega) (by omega)
  obtain ⟨W4, e4, l4, r4⟩ := @writeAt_spec α W3 (idx * 5 + 3) v3 (by omega) (by omega)
  obtain ⟨W5, e5, l5, r5⟩ := @writeAt_spec α W4 (idx * 5 + 4) v4 (by omega) (by omega)
  refine ⟨W5, by simp only [e1, e2, e3, e4, e5, Option.some_bind], by omega, ?_, ?_⟩
  · refine cellsAt_eq_some.2 ⟨v0, v1, v2, v3, v4, ?_, ?_, ?_, ?_, ?_, rfl⟩
    · rw [r5, if_neg (by omega), r4, if_neg (by omega), r3, if_neg (by omega), r2,
        if_neg (by omega), r1, if_pos rfl]
    · rw [r5, if_neg (by omega), r4, if_neg (by omega), r3, if_neg (by omega), r2, if_pos rfl]
    · rw [r5, if_neg (by omega), r4, if_neg (by omega), r3, if_pos rfl]
    · rw [r5, if_neg (by omega), r4, if_pos rfl]
    · rw [r5, if_pos rfl]
  · intro q hq
    rw [r5, if_neg (hq 4 (by omega) (by omega)), r4, if_neg (hq 3 (by omega) (by omega)), r3,
      if_neg (hq 2 (by omega) (by omega)), r2, if_neg (hq 1 (by omega) (by omega)), r1,
      if_neg (hq 0 (by omega) (by omega))]

/-- The loop body at a node that is not skipped. -/
theorem applyBody_active {R : Type} [Field R] [DecidableEq R] (ops : RealOps R)
    (solver : (Nat → Nat → R) → (Nat → Nat → R) → Nat → Nat → R)
    (space : Space) (particle : Particle) (flow : Flow R) (skip : Int → Prop)
    [DecidablePred skip] (geo : Int → Int) (k j i : Int) (W : List R) {f : Int}
    {Uo : Nat → R}
    (hread : readFlag space.nodeFlag ((k * space.jMax + j) * space.iMax + i) = some f)
    (hns : ¬ skip f)
    (hLR : LinearReconstruction ops solver k j i (geo f) W space particle flow = some Uo)
    (h0 : 0 ≤ (k * space.jMax + j) * space.iMax + i)
    (h1 : ((k * space.jMax + j) * space.iMax + i) * 5 + 4 < W.length) :
    ∃ W', applyBody ops solver space particle flow skip geo k j i W = some W' ∧
      W'.length = W.length ∧
      cellsAt W' ((k * space.jMax + j) * space.iMax + i)
        = some (conservedOf flow.gamma (firstFive Uo)) ∧
      ∀ q, (∀ m : Int, 0 ≤ m → m < 5 → q ≠ ((k * space.jMax + j) * space.iMax + i) * 5 + m) →
        readAt W' q = readAt W q := by
  unfold applyBody
  simp only [hread, Option.some_bind, if_neg hns, hLR]
  exact writeCells_spec h0 h1 _ _ _ _ _

/-- The loop body at a skipped node. -/
theorem applyBody_skip {R : Type} [Field R] [DecidableEq R] (ops : RealOps R)
    (solver : (Nat → Nat → R) → (Nat → Nat → R) → Nat → Nat → R)
    (space : Space) (particle : Particle) (flow : Flow R) (skip : Int → Prop)
    [DecidablePred skip] (geo : Int → Int) (k j i : Int) (W : List R) {f : Int}
    (hread : readFlag space.nodeFlag ((k * space.jMax + j) * space.iMax + i) = some f)
    (hs : skip f) :
    applyBody ops solver space particle flow skip geo k j i W = some W := by
  unfold applyBody
  simp only [hread, Option.some_bind, if_pos hs]

/-- Sequential execution with an invariant over the items already visited. -/
theorem foldOpt_inv {α σ : Type} (body : α → σ → Option σ) (Inv : List α → σ → Prop)
    (All : List α)
    (hstep : ∀ done x rest c, done ++ x :: rest = All → Inv done c →
      ∃ c', body x c = some c' ∧ Inv (done ++ [x]) c') :
    ∀ (L done : List α) (c : σ), done ++ L = All → Inv done c →
      ∃ res, foldOpt body L c = some res ∧ Inv All res
  | [], done, c, hs, hi => by
    rw [List.append_nil] at hs
    subst hs
    exact ⟨c, rfl, hi⟩
  | x :: xs, done, c, hs, hi => by
    obtain ⟨c', e, hi'⟩ := hstep done x xs c hs hi
    obtain ⟨res, e2, h⟩ :=
      foldOpt_inv body Inv All hstep xs (done ++ [x]) c' (by rw [← hs]; simp) hi'
    exact ⟨res, by simp [foldOpt, e, e2], h⟩
theorem BoundaryConditionGCIBM_eq {R : Type} [Field R] [DecidableEq R] (ops : RealOps R)
    (solver : (Nat → Nat → R) → (Nat → Nat → R) → Nat → Nat → R)
    (U : List R) (space : Space) (particle : Particle) (part : Partition) (flow : Flow R) :
    BoundaryConditionGCIBM ops solver U space particle part flow
      = (applyInOrder ops solver U space particle flow (rangeNodes part)
          (rangeNodes part)).bind fun U2 => some (U2, 0) := by
  unfold BoundaryConditionGCIBM applyInOrder rangeNodes
  rw [← sweep_eq_foldOpt]
  simp only [← sweep_eq_foldOpt, Option.bind_assoc]
  rfl

/-- One loop nest of the applicator, visiting the nodes of region 0 in the
order of any duplicate-free list `L`, from a field `V` that agrees with the
entry field `U` on the entries of fluid nodes: every node of region 0 that
is not skipped gets the conserved state of its reconstruction from `U`,
every other entry keeps its value in `V`. -/
theorem applySweep_spec {R : Type} [Field R] [DecidableEq R] (ops : RealOps R)
    (solver : (Nat → Nat → R) → (Nat → Nat → R) → Nat → Nat → R)
    (space : Space) (particle : Particle) (part : Partition) (flow : Flow R)
    (skip : Int → Prop) [DecidablePred skip] (geo : Int → Int) (U V : List R)
    (L : List (Int × Int × Int)) (hLn : L.Nodup)
    (hL : ∀ x, x ∈ L ↔ InRange part x.1 x.2.1 x.2.2)
    (hwf : space.WellFormed) (hin : RangeInBounds space part)
    (hlen : (U.length : Int) = 5 * space.nodeFlag.length) (hVlen : V.length = U.length)
    (hskip : skip 0)
    (hV : ∀ p, readFlag space.nodeFlag p = some 0 → ∀ m : Int, 0 ≤ m → m < 5 →
      readAt V (p * 5 + m) = readAt U (p * 5 + m))
    (hrec : ∀ k j i, InRange part k j i → ∀ f, space.flagAt k j i = some f → ¬ skip f →
      ∃ Uo, LinearReconstruction ops solver k j i (geo f) U space particle flow = some Uo) :
    ∃ V', foldOpt (fun x W => applyBody ops solver space particle flow skip geo
          x.1 x.2.1 x.2.2 W) L V = some V' ∧
      V'.length = U.length ∧
      (∀ k j i, InRange part k j i → ∀ f, space.flagAt k j i = some f → ¬ skip f →
        ∃ Uo, LinearReconstruction ops solver k j i (geo f) U space particle flow = some Uo ∧
          cellsAt V' (space.nodeIdx k j i) = some (conservedOf flow.gamma (firstFive Uo))) ∧
      (∀ p, (∀ k j i, InRange part k j i → ∀ f, space.flagAt k j i = some f → ¬ skip f →
          space.nodeIdx k j i ≠ p) →
        ∀ m : Int, 0 ≤ m → m < 5 → readAt V' (p * 5 + m) = readAt V (p * 5 + m)) := by
  have hnd : (L.map (nodeKey space.jMax space.iMax)).Nodup :=
    nodup_keys hLn fun x hx =>
      ⟨(range_idx_bounds hwf hin ((hL x).1 hx)).1,
        (range_idx_bounds hwf hin ((hL x).1 hx)).2.1⟩
  refine Exists.elim (foldOpt_inv
    (fun x W => applyBody ops solver space particle flow skip geo x.1 x.2.1 x.2.2 W)
    (fun done W => W.length = U.length ∧
      (∀ x ∈ done, ∀ f, space.flagAt x.1 x.2.1 x.2.2 = some f → ¬ skip f →
        ∃ Uo, LinearReconstruction ops solver x.1 x.2.1 x.2.2 (geo f) U space particle flow
            = some Uo ∧
          cellsAt W (space.nodeIdx x.1 x.2.1 x.2.2)
            = some (conservedOf flow.gamma (firstFive Uo))) ∧
      (∀ p, (∀ x ∈ done, ∀ f, space.flagAt x.1 x.2.1 x.2.2 = some f → ¬ skip f →
          space.nodeIdx x.1 x.2.1 x.2.2 ≠ p) →
        ∀ m : Int, 0 ≤ m → m < 5 → readAt W (p * 5 + m) = readAt V (p * 5 + m)))
    L ?_ L [] V rfl
    ⟨hVlen, fun _ h => absurd h (List.not_mem_nil _), fun _ _ _ _ _ => rfl⟩) ?_
  rotate_left
  · rintro V' ⟨hV', hl, hA, hB⟩
    refine ⟨V', hV', hl, fun k j i hx => hA (k, j, i) ((hL (k, j, i)).2 hx), fun p hp => ?_⟩
    exact hB p fun x hx => hp x.1 x.2.1 x.2.2 ((hL x).1 hx)
  · rintro done ⟨k, j, i⟩ rest W hsplit ⟨hWl, hWa, hWb⟩
    have hxAll : (k, j, i) ∈ L := by rw [← hsplit]; simp
    have hx : InRange part k j i := (hL (k, j, i)).1 hxAll
    obtain ⟨-, -, hlo, hhi, h1, hst⟩ := range_idx_bounds hwf hin hx
    have hfresh : ∀ y ∈ done, space.nodeIdx y.1 y.2.1 y.2.2 ≠ space.nodeIdx k j i := by
      intro y hy heq
      rw [← hsplit, List.map_append, List.map_cons, List.nodup_append] at hnd
      exact hnd.2.2 (List.mem_map_of_mem _ hy) (by
        rw [show nodeKey space.jMax space.iMax y = nodeKey space.jMax space.iMax (k, j, i)
          from heq]
        exact List.mem_cons_self _ _)
    obtain ⟨f, hf⟩ := @readFlag_of_bounds space.nodeFlag
      ((k * space.jMax + j) * space.iMax + i) (by omega) (by omega)
    have hf' : space.flagAt k j i = some f := hf
    by_cases hs : skip f
    · refine ⟨W, applyBody_skip ops solver space particle flow skip geo k j i W hf hs,
        hWl, ?_, ?_⟩
      · intro y hy g hg hns
        rcases List.mem_append.1 hy with hy | hy
        · exact hWa y hy g hg hns
        · rw [List.mem_singleton.1 hy] at hg
          rw [hf'] at hg
          cases Option.some.inj hg
          exact absurd hs hns
      · intro p hp
        exact hWb p fun y hy => hp y (List.mem_append_left _ hy)
    · have hagree : ∀ p, readFlag space.nodeFlag p = some 0 → ∀ m : Int, 0 ≤ m → m < 5 →
          readAt W (p * 5 + m) = readAt U (p * 5 + m) := by
        intro p hp m hm0 hm5
        rw [hWb p ?_ m hm0 hm5]
        · exact hV p hp m hm0 hm5
        · intro y _ g hg hns heq
          have : space.flagAt y.1 y.2.1 y.2.2 = some 0 := by
            unfold Space.flagAt
            rw [heq]
            exact hp
          rw [this] at hg
          cases Option.some.inj hg
          exact hns hskip
      obtain ⟨Uo, hUo⟩ := hrec k j i hx f hf' hs
      have hUoW : LinearReconstruction ops solver k j i (geo f) W space particle flow
          = some Uo := by
        rw [LinearReconstruction_congr ops solver k j i (geo f) space particle flow hagree]
        exact hUo
      obtain ⟨W', hW', hl', hc', hr'⟩ := applyBody_active ops solver space particle flow skip
        geo k j i W hf hs hUoW (by omega) (by omega)
      refine ⟨W', hW', hl'.trans hWl, ?_, ?_⟩
      · intro y hy g hg hns
        rcases List.mem_append.1 hy with hy | hy
        · obtain ⟨Uy, e1, e2⟩ := hWa y hy g hg hns
          refine ⟨Uy, e1, ?_⟩
          rw [← e2]
          apply cellsAt_congr
          intro m hm0 hm5
          apply hr'
          intro m' hm0' hm5'
          have := hfresh y hy
          unfold Space.nodeIdx at this ⊢
          omega
        · rw [List.mem_singleton.1 hy] at hg ⊢
          rw [hf'] at hg
          cases Option.some.inj hg
          exact ⟨Uo, hUo, hc'⟩
      · intro p hp m hm0 hm5
        have hne : space.nodeIdx k j i ≠ p :=
          hp (k, j, i) (List.mem_append_right _ (List.mem_singleton_self _)) f hf' hs
        rw [hr' _ ?_]
        · exact hWb p (fun y hy => hp y (List.mem_append_left _ hy)) m hm0 hm5
        · intro m' hm0' hm5'
          unfold Space.nodeIdx at hne
          omega

/-- With a defined normal and every examined probe inside the arrays the
reconstructor returns. -/
theorem LinearReconstruction_returns {R : Type} [Field R] [DecidableEq R] (ops : RealOps R)
    (solver : (Nat → Nat → R) → (Nat → Nat → R) → Nat → Nat → R)
    (k j i geoID : Int) (U : List R) (space : Space) (particle : Particle) (flow : Flow R)
    (hdef : NormalDefined ops space particle k j i geoID)
    (h : ProbesInBounds space U (imageNode ops space particle k j i geoID)) :
    ∃ Uo, LinearReconstruction ops solver k j i geoID U space particle flow = some Uo := by
  obtain ⟨st, hst, -⟩ := searchAround_of_inBounds space flow U _ h
  obtain ⟨Uo, hUo, -⟩ :=
    LinearReconstruction_of_search ops solver k j i geoID U space particle flow hdef hst
  exact ⟨Uo, hUo⟩

/-- The field after the two loop nests, whatever the order in which each of
them visits the nodes of region 0: a node of region 0 with flag `f ≥ offset`
holds the conserved state of its reconstruction for geometry `f - offset`
from the entry field, one with `f ≤ -offset - totalN` that for geometry
`f + offset + totalN`, and the entries of every other flat node index are
those at entry. -/
theorem applyInOrder_spec {R : Type} [Field R] [DecidableEq R] (ops : RealOps R)
    (solver : (Nat → Nat → R) → (Nat → Nat → R) → Nat → Nat → R)
    (U : List R) (space : Space) (particle : Particle) (part : Partition) (flow : Flow R)
    (L1 L2 : List (Int × Int × Int)) (hL1 : L1.Perm (rangeNodes part))
    (hL2 : L2.Perm (rangeNodes part))
    (hwf : space.WellFormed) (hin : RangeInBounds space part)
    (hlen : (U.length : Int) = 5 * space.nodeFlag.length) (hoff : 0 < space.nodeFlagOffset)
    (hb : ApplicatorInBounds ops U space particle part)
    (hdef : ApplicatorDefined ops U space particle part flow) :
    ∃ U', applyInOrder ops solver U space particle flow L1 L2 = some U' ∧
      U'.length = U.length ∧
      (∀ k j i, InRange part k j i → ∀ f, space.flagAt k j i = some f →
        space.nodeFlagOffset ≤ f →
        ∃ Uo, LinearReconstruction ops solver k j i (f - space.nodeFlagOffset) U space
            particle flow = some Uo ∧
          cellsAt U' (space.nodeIdx k j i) = some (conservedOf flow.gamma (firstFive Uo))) ∧
      (∀ k j i, InRange part k j i → ∀ f, space.flagAt k j i = some f →
        f ≤ -space.nodeFlagOffset - particle.totalN →
        ∃ Uo, LinearReconstruction ops solver k j i
            (f + space.nodeFlagOffset + particle.totalN) U space particle flow = some Uo ∧
          cellsAt U' (space.nodeIdx k j i) = some (conservedOf flow.gamma (firstFive Uo))) ∧
      (∀ p, (∀ k j i, InRange part k j i → ∀ f, space.flagAt k j i = some f →
          space.nodeFlagOffset ≤ f ∨ f ≤ -space.nodeFlagOffset - particle.totalN →
          space.nodeIdx k j i ≠ p) →
        ∀ m : Int, 0 ≤ m → m < 5 → readAt U' (p * 5 + m) = readAt U (p * 5 + m)) := by
  have hN : (0 : Int) ≤ particle.totalN := Int.natCast_nonneg _
  have hn1 : L1.Nodup := hL1.nodup_iff.2 (nodup_boxNodes _ _ _ _ _ _)
  have hn2 : L2.Nodup := hL2.nodup_iff.2 (nodup_boxNodes _ _ _ _ _ _)
  have hm1 : ∀ x, x ∈ L1 ↔ InRange part x.1 x.2.1 x.2.2 :=
    fun x => hL1.mem_iff.trans mem_rangeNodes
  have hm2 : ∀ x, x ∈ L2 ↔ InRange part x.1 x.2.1 x.2.2 :=
    fun x => hL2.mem_iff.trans mem_rangeNodes
  obtain ⟨U1, e1, l1, a1, b1⟩ := applySweep_spec ops solver space particle part flow
    (fun flag => space.nodeFlagOffset > flag) (fun flag => flag - space.nodeFlagOffset)
    U U L1 hn1 hm1 hwf hin hlen rfl hoff (fun _ _ _ _ _ => rfl)
    (fun k j i hx f hf hns => LinearReconstruction_returns ops solver k j i _ U space
      particle flow ((hdef.2 (k, j, i) (mem_rangeNodes.2 hx) f hf).1 (not_lt.1 hns)).1
      ((hb (k, j, i) (mem_rangeNodes.2 hx) f hf).1 (not_lt.1 hns)))
  have hU1 : ∀ p, readFlag space.nodeFlag p = some 0 → ∀ m : Int, 0 ≤ m → m < 5 →
      readAt U1 (p * 5 + m) = readAt U (p * 5 + m) := by
    intro p hp m hm0 hm5
    refine b1 p (fun k j i _ f hf hns heq => ?_) m hm0 hm5
    have : space.flagAt k j i = some 0 := by
      unfold Space.flagAt
      rw [heq]
      exact hp
    rw [this] at hf
    cases Option.some.inj hf
    exact hns hoff
  obtain ⟨U2, e2, l2, a2, b2⟩ := applySweep_spec ops solver space particle part flow
    (fun flag => -space.nodeFlagOffset - particle.totalN < flag)
    (fun flag => flag + space.nodeFlagOffset + particle.totalN)
    U U1 L2 hn2 hm2 hwf hin hlen l1
    (by show -space.nodeFlagOffset - (particle.totalN : Int) < 0; omega)
    hU1
    (fun k j i hx f hf hns => LinearReconstruction_returns ops solver k j i _ U space
      particle flow ((hdef.2 (k, j, i) (mem_rangeNodes.2 hx) f hf).2 (not_lt.1 hns)).1
      ((hb (k, j, i) (mem_rangeNodes.2 hx) f hf).2 (not_lt.1 hns)))
  refine ⟨U2, ?_, l2, ?_, ?_, ?_⟩
  · unfold applyInOrder
    rw [e1, Option.some_bind, e2]
  · intro k j i hx f hf hge
    obtain ⟨Uo, h1, h2⟩ := a1 k j i hx f hf (not_lt.2 hge)
    refine ⟨Uo, h1, ?_⟩
    rw [← h2]
    apply cellsAt_congr
    refine b2 _ (fun k' j' i' _ f' hf' hns heq => ?_)
    have : space.flagAt k' j' i' = some f := by
      unfold Space.flagAt at hf ⊢
      rw [heq]
      exact hf
    rw [this] at hf'
    cases Option.some.inj hf'
    have := not_lt.1 hns
    omega
  · intro k j i hx f hf hle
    exact a2 k j i hx f hf (not_lt.2 hle)
  · intro p hp m hm0 hm5
    rw [b2 p (fun k j i hx f hf hns => hp k j i hx f hf (Or.inr (not_lt.1 hns))) m hm0 hm5]
    exact b1 p (fun k j i hx f hf hns => hp k j i hx f hf (Or.inl (not_lt.1 hns))) m hm0 hm5

theorem readAt_of_cellsAt {α : Type} {A B : List α} {p : Int} {c : List α}
    (hA : cellsAt A p = some c) (hB : cellsAt B p = some c) {m : Int} (hm0 : 0 ≤ m)
    (hm5 : m < 5) : readAt A (p * 5 + m) = readAt B (p * 5 + m) := by
  obtain ⟨a0, a1, a2, a3, a4, e0, e1, e2, e3, e4, hc⟩ := cellsAt_eq_some.1 hA
  obtain ⟨b0, b1, b2, b3, b4, g0, g1, g2, g3, g4, hc'⟩ := cellsAt_eq_some.1 hB
  rw [hc] at hc'
  simp only [List.cons.injEq, and_true] at hc'
  obtain ⟨r0, r1, r2, r3, r4⟩ := hc'
  have hcase : m = 0 ∨ m = 1 ∨ m = 2 ∨ m = 3 ∨ m = 4 := by omega
  rcases hcase with rfl | rfl | rfl | rfl | rfl
  · rw [e0, g0, r0]
  · rw [e1, g1, r1]
  · rw [e2, g2, r2]
  · rw [e3, g3, r3]
  · rw [e4, g4, r4]

/-- The result of the two loop nests does not depend on the order in which
they visit the nodes of region 0. -/
theorem applyInOrder_order {R : Type} [Field R] [DecidableEq R] (ops : RealOps R)
    (solver : (Nat → Nat → R) → (Nat → Nat → R) → Nat → Nat → R)
    (U : List R) (space : Space) (particle : Particle) (part : Partition) (flow : Flow R)
    (L1 L2 : List (Int × Int × Int)) (hL1 : L1.Perm (rangeNodes part))
    (hL2 : L2.Perm (rangeNodes part))
    (hwf : space.WellFormed) (hin : RangeInBounds space part)
    (hlen : (U.length : Int) = 5 * space.nodeFlag.length) (hoff : 0 < space.nodeFlagOffset)
    (hb : ApplicatorInBounds ops U space particle part)
    (hdef : ApplicatorDefined ops U space particle part flow) :
    applyInOrder ops solver U space particle flow L1 L2
      = applyInOrder ops solver U space particle flow (rangeNodes part) (rangeNodes part) := by
  obtain ⟨A, eA, -, gA, sA, fA⟩ := applyInOrder_spec ops solver U space particle part flow
    L1 L2 hL1 hL2 hwf hin hlen hoff hb hdef
  obtain ⟨B, eB, -, gB, sB, fB⟩ := applyInOrder_spec ops solver U space particle part flow
    (rangeNodes part) (rangeNodes part) (List.Perm.refl _) (List.Perm.refl _) hwf hin hlen
    hoff hb hdef
  rw [eA, eB]
  congr 1
  apply readAt_ext
  intro q
  have hq : q = q / 5 * 5 + q % 5 ∧ 0 ≤ q % 5 ∧ q % 5 < 5 := by omega
  rw [hq.1]
  by_cases hact : ∃ k j i, InRange part k j i ∧ space.nodeIdx k j i = q / 5 ∧
      ∃ f, space.flagAt k j i = some f ∧
        (space.nodeFlagOffset ≤ f ∨ f ≤ -space.nodeFlagOffset - particle.totalN)
  · obtain ⟨k, j, i, hx, hidx, f, hf, hor⟩ := hact
    rw [← hidx]
    rcases hor with hge | hle
    · obtain ⟨Uo, h1, h2⟩ := gA k j i hx f hf hge
      obtain ⟨Uo', h1', h2'⟩ := gB k j i hx f hf hge
      rw [h1] at h1'
      cases Option.some.inj h1'
      exact readAt_of_cellsAt h2 h2' hq.2.1 hq.2.2
    · obtain ⟨Uo, h1, h2⟩ := sA k j i hx f hf hle
      obtain ⟨Uo', h1', h2'⟩ := sB k j i hx f hf hle
      rw [h1] at h1'
      cases Option.some.inj h1'
      exact readAt_of_cellsAt h2 h2' hq.2.1 hq.2.2
  · have hno : ∀ k j i, InRange part k j i → ∀ f, space.flagAt k j i = some f →
        space.nodeFlagOffset ≤ f ∨ f ≤ -space.nodeFlagOffset - particle.totalN →
        space.nodeIdx k j i ≠ q / 5 :=
      fun k j i hx f hf hor heq => hact ⟨k, j, i, hx, heq, f, hf, hor⟩
    rw [fA _ hno _ hq.2.1 hq.2.2, fB _ hno _ hq.2.1 hq.2.2]

/-- The boundary applicator as a function of the field at entry: it returns
status `0`; a node of region 0 with flag `f ≥ offset` holds the conserved
state of its reconstruction for geometry `f - offset` from the entry field,
one with `f ≤ -offset - totalN` that for geometry `f + offset + totalN`, and
the entries of every other flat node index are those at entry. -/
theorem BoundaryConditionGCIBM_spec {R : Type} [Field R] [DecidableEq R] (ops : RealOps R)
    (solver : (Nat → Nat → R) → (Nat → Nat → R) → Nat → Nat → R)
    (U : List R) (space : Space) (particle : Particle) (part : Partition) (flow : Flow R)
    (hwf : space.WellFormed) (hin : RangeInBounds space part)
    (hlen : (U.length : Int) = 5 * space.nodeFlag.length) (hoff : 0 < space.nodeFlagOffset)
    (hb : ApplicatorInBounds ops U space particle part)
    (hdef : ApplicatorDefined ops U space particle part flow) :
    ∃ U', BoundaryConditionGCIBM ops solver U space particle part flow = some (U', 0) ∧
      applyInOrder ops solver U space particle flow (rangeNodes part) (rangeNodes part)
        = some U' ∧
      U'.length = U.length ∧
      (∀ k j i, InRange part k j i → ∀ f, space.flagAt k j i = some f →
        space.nodeFlagOffset ≤ f →
        ∃ Uo, LinearReconstruction ops solver k j i (f - space.nodeFlagOffset) U space
            particle flow = some Uo ∧
          cellsAt U' (space.nodeIdx k j i) = some (conservedOf flow.gamma (firstFive Uo))) ∧
      (∀ k j i, InRange part k j i → ∀ f, space.flagAt k j i = some f →
        f ≤ -space.nodeFlagOffset - particle.totalN →
        ∃ Uo, LinearReconstruction ops solver k j i
            (f + space.nodeFlagOffset + particle.totalN) U space particle flow = some Uo ∧
          cellsAt U' (space.nodeIdx k j i) = some (conservedOf flow.gamma (firstFive Uo))) ∧
      (∀ p, (∀ k j i, InRange part k j i → ∀ f, space.flagAt k j i = some f →
          space.nodeFlagOffset ≤ f ∨ f ≤ -space.nodeFlagOffset - particle.totalN →
          space.nodeIdx k j i ≠ p) →
        ∀ m : Int, 0 ≤ m → m < 5 → readAt U' (p * 5 + m) = readAt U (p * 5 + m)) := by
  obtain ⟨U', e, l, a1, a2, b⟩ := applyInOrder_spec ops solver U space particle part flow
    (rangeNodes part) (rangeNodes part) (List.Perm.refl _) (List.Perm.refl _) hwf hin hlen
    hoff hb hdef
  exact ⟨U', by rw [BoundaryConditionGCIBM_eq, e, Option.some_bind], e, l, a1, a2, b⟩

/-! ## The single-sphere scenario -/

theorem truncToInt_intCast (n : Int) : truncToInt (n : ℚ) = n := by
  simp [truncToInt]

theorem sq_sum_lt_four (a b c : Int) :
    a * a + b * b + c * c < 4 ↔ (-1 ≤ a ∧ a ≤ 1) ∧ (-1 ≤ b ∧ b ≤ 1) ∧ (-1 ≤ c ∧ c ≤ 1) := by
  constructor
  · intro h
    refine ⟨⟨?_, ?_⟩, ⟨?_, ?_⟩, ⟨?_, ?_⟩⟩ <;>
      nlinarith [mul_self_nonneg a, mul_self_nonneg b, mul_self_nonneg c]
  · rintro ⟨⟨h1, h2⟩, ⟨h3, h4⟩, ⟨h5, h6⟩⟩
    nlinarith [mul_nonneg (sub_nonneg.2 h2) (by linarith : (0 : Int) ≤ a + 1),
      mul_nonneg (sub_nonneg.2 h4) (by linarith : (0 : Int) ≤ b + 1),
      mul_nonneg (sub_nonneg.2 h6) (by linarith : (0 : Int) ≤ c + 1)]

theorem chebyshev_eq_zero {k j i ck cj ci : Int} :
    chebyshev (k, j, i) (ck, cj, ci) = 0 ↔ k = ck ∧ j = cj ∧ i = ci := by
  unfold chebyshev
  simp only
  omega

theorem chebyshev_le_one {k j i ck cj ci : Int} :
    chebyshev (k, j, i) (ck, cj, ci) ≤ 1 ↔
      (ck - 1 ≤ k ∧ k ≤ ck + 1) ∧ (cj - 1 ≤ j ∧ j ≤ cj + 1) ∧ (ci - 1 ≤ i ∧ i ≤ ci + 1) := by
  unfold chebyshev
  simp only
  omega

theorem chebyshev_eq_one {x c : Int × Int × Int} :
    chebyshev x c = 1 ↔ chebyshev x c ≤ 1 ∧ ¬ chebyshev x c = 0 := by
  omega

theorem mem_shellOffsets {d : Int × Int × Int} :
    d ∈ shellOffsets ↔ chebyshev d (0, 0, 0) = 1 := by
  obtain ⟨a, b, c⟩ := d
  rw [chebyshev_eq_one, chebyshev_le_one, chebyshev_eq_zero]
  simp only [shellOffsets, List.mem_filter, mem_boxNodes, decide_eq_true_eq, ne_eq,
    Prod.mk.injEq]
  omega

theorem mem_ghostShell {x c : Int × Int × Int} : x ∈ ghostShell c ↔ chebyshev x c = 1 := by
  obtain ⟨k, j, i⟩ := x
  obtain ⟨ck, cj, ci⟩ := c
  rw [chebyshev_eq_one, chebyshev_le_one, chebyshev_eq_zero]
  simp only [ghostShell, List.mem_map, Prod.mk.injEq]
  constructor
  · rintro ⟨⟨a, b, d⟩, hd, h1, h2, h3⟩
    have := mem_shellOffsets.1 hd
    rw [chebyshev_eq_one, chebyshev_le_one, chebyshev_eq_zero] at this
    simp only at h1 h2 h3
    omega
  · intro h
    refine ⟨(k - ck, j - cj, i - ci), mem_shellOffsets.2 ?_, by show ck + (k - ck) = k; omega,
      by show cj + (j - cj) = j; omega, by show ci + (i - ci) = i; omega⟩
    rw [chebyshev_eq_one, chebyshev_le_one, chebyshev_eq_zero]
    omega

theorem ghostShell_length (c : Int × Int × Int) : (ghostShell c).length = 26 := by
  have : shellOffsets.length = 26 := by decide!
  simp [ghostShell, this]

theorem ghostShell_nodup (c : Int × Int × Int) : (ghostShell c).Nodup := by
  have h : shellOffsets.Nodup := by decide!
  refine h.map ?_
  rintro ⟨a, b, d⟩ ⟨a', b', d'⟩ heq
  simp only [Prod.mk.injEq] at heq ⊢
  omega

/-- In the single-sphere scenario the sphere rasterizes exactly the nodes at
Chebyshev distance at most `1` from the centre node. -/
theorem singleSphere_rasterizes {space : Space} {particle : Particle} {part : Partition}
    {ck cj ci : Int} (h : SingleSphere space particle part (ck, cj, ci)) (k j i : Int) :
    Rasterizes space particle part 0 k j i ↔ chebyshev (k, j, i) (ck, cj, ci) ≤ 1 := by
  obtain ⟨hunit, -, hcentre, hradius, hc⟩ := h
  simp only at hcentre hc
  obtain ⟨hdx, hdy, hdz, hddx, hddy, hddz⟩ := hunit
  obtain ⟨hx, hy, hz⟩ := hcentre
  unfold Particle.ptk at hx hy hz hradius
  have e3 : (3 / 2 : ℚ) * 2 * 1 = ((3 : Int) : ℚ) := by norm_num
  have ex : (space.xMin + ((ci - space.ng : Int) : ℚ) - space.xMin) * 1
      = ((ci - space.ng : Int) : ℚ) := by ring
  have ey : (space.yMin + ((cj - space.ng : Int) : ℚ) - space.yMin) * 1
      = ((cj - space.ng : Int) : ℚ) := by ring
  have ez : (space.zMin + ((ck - space.ng : Int) : ℚ) - space.zMin) * 1
      = ((ck - space.ng : Int) : ℚ) := by ring
  have dX : space.xMin + ((i - space.ng : Int) : ℚ) * 1
      - (space.xMin + ((ci - space.ng : Int) : ℚ)) = ((i - ci : Int) : ℚ) := by
    push_cast; ring
  have dY : space.yMin + ((j - space.ng : Int) : ℚ) * 1
      - (space.yMin + ((cj - space.ng : Int) : ℚ)) = ((j - cj : Int) : ℚ) := by
    push_cast; ring
  have dZ : space.zMin + ((k - space.ng : Int) : ℚ) * 1
      - (space.zMin + ((ck - space.ng : Int) : ℚ)) = ((k - ck : Int) : ℚ) := by
    push_cast; ring
  have hsph : InSphere space particle 0 k j i ↔
      (i - ci) * (i - ci) + (j - cj) * (j - cj) + (k - ck) * (k - ck) < 4 := by
    unfold InSphere sphereDistance
    simp only [hx, hy, hz, hradius, hdx, hdy, hdz, dX, dY, dZ]
    have hcast : ((((i - ci) * (i - ci) + (j - cj) * (j - cj) + (k - ck) * (k - ck) : Int)) : ℚ)
        = ((i - ci : Int) : ℚ) * ((i - ci : Int) : ℚ) + ((j - cj : Int) : ℚ) * ((j - cj : Int) : ℚ)
          + ((k - ck : Int) : ℚ) * ((k - ck : Int) : ℚ) := by
      rw [Int.cast_add, Int.cast_add, Int.cast_mul, Int.cast_mul, Int.cast_mul]
    have h4 : (((4 : Int)) : ℚ) = 4 := by norm_num
    rw [← Int.cast_lt (R := ℚ), hcast, h4]
    constructor
    · intro h
      linarith
    · intro h
      linarith
  have hbox : InBox space particle part 0 k j i ↔
      (ck - 3 ≤ k ∧ k < ck + 3 + 1) ∧ (cj - 3 ≤ j ∧ j < cj + 3 + 1) ∧
        (ci - 3 ≤ i ∧ i < ci + 3 + 1) := by
    unfold InBox searchBox
    simp only [hx, hy, hz, hradius, hddx, hddy, hddz, e3, ex, ey, ez, truncToInt_intCast,
      Max, Min]
    split_ifs <;> omega
  unfold Rasterizes
  rw [hsph, hbox, sq_sum_lt_four, chebyshev_le_one]
  omega

/-- Near the centre node all face neighbours are nodes of region 0. -/
theorem singleSphere_neighbours {space : Space} {particle : Particle} {part : Partition}
    {ck cj ci : Int} (h : SingleSphere space particle part (ck, cj, ci)) {k j i : Int}
    (hch : chebyshev (k, j, i) (ck, cj, ci) ≤ 1) :
    InRange part k j i ∧ ∀ n ∈ faceNeighbours k j i, InRange part n.1 n.2.1 n.2.2 := by
  obtain ⟨-, -, -, -, hc⟩ := h
  simp only at hc
  rw [chebyshev_le_one] at hch
  refine ⟨by unfold InRange; omega, fun n hn => ?_⟩
  unfold InRange
  simp only [faceNeighbours, List.mem_cons, List.mem_singleton, List.not_mem_nil,
    or_false] at hn
  rcases hn with rfl | rfl | rfl | rfl | rfl | rfl <;> simp only <;> omega

/-- Pass 2 of the single-sphere scenario. -/
theorem singleSphere_pass2 {space : Space} {particle : Particle} {part : Partition}
    {ck cj ci : Int} (h : SingleSphere space particle part (ck, cj, ci)) {f2 : List Int}
    {k j i : Int}
    (hI : readFlag f2 (space.nodeIdx k j i)
      = some (ownerFlag space particle part 10 0 k j i particle.totalN)) :
    readFlag f2 (space.nodeIdx k j i)
      = some (if chebyshev (k, j, i) (ck, cj, ci) ≤ 1 then -10 else 0) := by
  have hras := singleSphere_rasterizes h k j i
  rw [hI, h.2.1]
  simp only [ownerFlag, Nat.cast_zero, sub_zero]
  by_cases hch : chebyshev (k, j, i) (ck, cj, ci) ≤ 1
  · rw [if_pos (hras.2 hch), if_pos hch]
  · rw [if_neg (fun hr => hch (hras.1 hr)), if_neg hch]

/-- A node at Chebyshev distance `1` from the centre has a face neighbour at
distance `2`. -/
theorem far_neighbour {k j i ck cj ci : Int} (h1 : chebyshev (k, j, i) (ck, cj, ci) = 1) :
    ∃ n ∈ faceNeighbours k j i, ¬ chebyshev (n.1, n.2.1, n.2.2) (ck, cj, ci) ≤ 1 := by
  rw [chebyshev_eq_one, chebyshev_le_one, chebyshev_eq_zero] at h1
  have hcase : i - ci = 1 ∨ i - ci = -1 ∨ j - cj = 1 ∨ j - cj = -1 ∨ k - ck = 1
      ∨ k - ck = -1 := by omega
  rcases hcase with h | h | h | h | h | h
  · exact ⟨(k, j, i + 1), by simp [faceNeighbours], by
      simp only; rw [chebyshev_le_one]; omega⟩
  · exact ⟨(k, j, i - 1), by simp [faceNeighbours], by
      simp only; rw [chebyshev_le_one]; omega⟩
  · exact ⟨(k, j + 1, i), by simp [faceNeighbours], by
      simp only; rw [chebyshev_le_one]; omega⟩
  · exact ⟨(k, j - 1, i), by simp [faceNeighbours], by
      simp only; rw [chebyshev_le_one]; omega⟩
  · exact ⟨(k + 1, j, i), by simp [faceNeighbours], by
      simp only; rw [chebyshev_le_one]; omega⟩
  · exact ⟨(k - 1, j, i), by simp [faceNeighbours], by
      simp only; rw [chebyshev_le_one]; omega⟩

/-- The face neighbours of the centre node are at Chebyshev distance `1`. -/
theorem centre_neighbours {k j i ck cj ci : Int} (h0 : chebyshev (k, j, i) (ck, cj, ci) = 0)
    {n : Int × Int × Int} (hn : n ∈ faceNeighbours k j i) :
    chebyshev (n.1, n.2.1, n.2.2) (ck, cj, ci) = 1 := by
  rw [chebyshev_eq_zero] at h0
  rw [chebyshev_eq_one, chebyshev_le_one, chebyshev_eq_zero]
  simp only [faceNeighbours, List.mem_cons, List.mem_singleton, List.not_mem_nil,
    or_false] at hn
  rcases hn with rfl | rfl | rfl | rfl | rfl | rfl <;> simp only <;> omega

/-- Pass 3 of the single-sphere scenario. -/
theorem singleSphere_pass3 {space : Space} {particle : Particle} {part : Partition}
    {ck cj ci : Int} (h : SingleSphere space particle part (ck, cj, ci)) {f2 : List Int}
    (v2 : ∀ k j i, InRange part k j i → readFlag f2 (space.nodeIdx k j i)
      = some (if chebyshev (k, j, i) (ck, cj, ci) ≤ 1 then -10 else 0))
    {k j i : Int} (hx : InRange part k j i) :
    ghostRule 10 space.jMax space.iMax (flagD f2) (space.nodeIdx k j i)
      = (if chebyshev (k, j, i) (ck, cj, ci) = 0 then -10
        else if chebyshev (k, j, i) (ck, cj, ci) = 1 then 10 else 0) := by
  have hself := flagD_of_read (v2 k j i hx)
  by_cases h0 : chebyshev (k, j, i) (ck, cj, ci) = 0
  · rw [if_pos h0]
    rw [if_pos (by omega)] at hself
    rw [ghostRule_of_neighbours_small, hself]
    intro q hq
    obtain ⟨n, hn, rfl⟩ := mem_flatNeighbours hq
    have hnr := (singleSphere_neighbours h (Nat.le_of_eq (centre_neighbours h0 hn))).1
    have := flagD_of_read (v2 n.1 n.2.1 n.2.2 hnr)
    rw [if_pos (Nat.le_of_eq (centre_neighbours h0 hn))] at this
    rw [this]
    exact ⟨by decide, by decide⟩
  · rw [if_neg h0]
    by_cases h1 : chebyshev (k, j, i) (ck, cj, ci) = 1
    · rw [if_pos h1]
      rw [if_pos (by omega)] at hself
      obtain ⟨n, hn, hfar⟩ := far_neighbour h1
      rw [ghostRule_of_neighbour_zero (by rw [hself]), hself]
      · rfl
      · refine ⟨_, flatNeighbours_of_mem hn, ?_⟩
        have := flagD_of_read
          (v2 n.1 n.2.1 n.2.2 ((singleSphere_neighbours h (Nat.le_of_eq h1)).2 n hn))
        rw [if_neg hfar] at this
        exact this
    · rw [if_neg h1]
      rw [if_neg (by omega)] at hself
      rw [ghostRule_of_not_solid (by rw [hself]; decide), hself]

/-- Pass 4 of the single-sphere scenario. -/
theorem singleSphere_pass4 {space : Space} {particle : Particle} {part : Partition}
    {ck cj ci : Int} (h : SingleSphere space particle part (ck, cj, ci)) {f3 : List Int}
    (v3 : ∀ k j i, InRange part k j i → readFlag f3 (space.nodeIdx k j i)
      = some (if chebyshev (k, j, i) (ck, cj, ci) = 0 then -10
        else if chebyshev (k, j, i) (ck, cj, ci) = 1 then 10 else 0))
    {k j i : Int} (hx : InRange part k j i) :
    ghostNeighbourRule 10 particle.totalN space.jMax space.iMax (flagD f3)
        (space.nodeIdx k j i)
      = (if chebyshev (k, j, i) (ck, cj, ci) = 0 then -11
        else if chebyshev (k, j, i) (ck, cj, ci) = 1 then 10 else 0) := by
  have hself := flagD_of_read (v3 k j i hx)
  rw [h.2.1]
  by_cases h0 : chebyshev (k, j, i) (ck, cj, ci) = 0
  · rw [if_pos h0]
    rw [if_pos h0] at hself
    rw [ghostNeighbourRule_of_ghost (by rw [hself]), hself]
    · rfl
    · have hn : (k, j, i - 1) ∈ faceNeighbours k j i := by simp [faceNeighbours]
      refine ⟨_, flatNeighbours_of_mem hn, ?_⟩
      have h1 : chebyshev (k, j, i - 1) (ck, cj, ci) = 1 := centre_neighbours h0 hn
      have := flagD_of_read
        (v3 k j (i - 1) ((singleSphere_neighbours h (by omega)).2 _ hn))
      rw [if_neg (by omega), if_pos h1] at this
      show (-10 : Int) < flagD f3 (space.nodeIdx k j (i - 1))
      rw [this]
      decide
  · rw [if_neg h0]
    rw [if_neg h0] at hself
    rw [ghostNeighbourRule_of_not_solid, hself]
    rw [hself]
    split_ifs <;> decide

/-- The final flags of the single-sphere scenario, node by node. -/
theorem singleSphere_stages (space : Space) (particle : Particle) (part : Partition)
    (ck cj ci : Int) (hwf : space.WellFormed) (hin : RangeInside space part)
    (h : SingleSphere space particle part (ck, cj, ci)) :
    ∃ f4, ComputeDomainGeometryGCIBM space particle part = some (stage space f4) ∧
      (∀ k j i, InRange part k j i → readFlag f4 (space.nodeIdx k j i)
        = some (if chebyshev (k, j, i) (ck, cj, ci) = 0 then -11
          else if chebyshev (k, j, i) (ck, cj, ci) = 1 then 10 else 0)) ∧
      ∀ k j i, InGrid space k j i → ¬ InRange part k j i →
        readFlag f4 (space.nodeIdx k j i) = some 1 := by
  obtain ⟨f1, f2, f3, f4, -, -, -, -, hcmp, hI, hO⟩ :=
    classifier_spec space particle part hwf hin.inBounds
  have v2 : ∀ k j i, InRange part k j i → readFlag f2 (space.nodeIdx k j i)
      = some (if chebyshev (k, j, i) (ck, cj, ci) ≤ 1 then -10 else 0) :=
    fun k j i hx => singleSphere_pass2 h (hI k j i hx).2.1
  have v3 : ∀ k j i, InRange part k j i → readFlag f3 (space.nodeIdx k j i)
      = some (if chebyshev (k, j, i) (ck, cj, ci) = 0 then -10
        else if chebyshev (k, j, i) (ck, cj, ci) = 1 then 10 else 0) := by
    intro k j i hx
    rw [(hI k j i hx).2.2.1, singleSphere_pass3 h v2 hx]
  refine ⟨f4, hcmp, fun k j i hx => ?_, fun k j i hg hx => (hO k j i hg hx).2.2.2⟩
  rw [(hI k j i hx).2.2.2, singleSphere_pass4 h v3 hx]

/-! ## The classified inputs -/

/-- The flag arrays of the classified grids of the one-sphere and of the
off-node input are the output of the classifier on these inputs. -/
theorem classified_inputs :
    (ComputeDomainGeometryGCIBM demoSpace oneSphere demoPart).map
      (fun s => (s.nodeFlagOffset, s.nodeFlag)) = some (10, oneSphereFlags) ∧
    (ComputeDomainGeometryGCIBM demoSpace offNodeSphere demoPart).map
      (fun s => (s.nodeFlagOffset, s.nodeFlag)) = some (10, offNodeFlags) := by
  decide!

/-! ## Domain partition, reconstructor and boundary applicator: claims C11 to C20 -/

/-- C11 fails on the code: after `DomainPartition`, entry 0 of the index
arrays is the part named "West Ghost", the `ng` exterior planes west of the
domain, and the part named "Interior" is entry 12. On a grid with `5` nodes
per axis and ghost width `2` entry 0 is `i ∈ [0, 2)`, `j, k ∈ [3, 6)`, the
interior is `[3, 6)` on each axis, the interior node `(4, 4, 4)` is not in
entry 0, and the classifier, which sweeps entry 0, leaves it with the
boundary flag `1` whatever the geometries are. -/
theorem C11_entry0_is_west_ghost :
    (DomainPartition 15 blankPart ghostSpace).name 0 = "West Ghost" ∧
    (DomainPartition 15 blankPart ghostSpace).name 12 = "Interior" ∧
    ((DomainPartition 15 blankPart ghostSpace).iSub 0,
      (DomainPartition 15 blankPart ghostSpace).iSup 0,
      (DomainPartition 15 blankPart ghostSpace).jSub 0,
      (DomainPartition 15 blankPart ghostSpace).jSup 0,
      (DomainPartition 15 blankPart ghostSpace).kSub 0,
      (DomainPartition 15 blankPart ghostSpace).kSup 0) = (0, 2, 3, 6, 3, 6) ∧
    ((DomainPartition 15 blankPart ghostSpace).iSub 12,
      (DomainPartition 15 blankPart ghostSpace).iSup 12,
      (DomainPartition 15 blankPart ghostSpace).jSub 12,
      (DomainPartition 15 blankPart ghostSpace).jSup 12,
      (DomainPartition 15 blankPart ghostSpace).kSub 12,
      (DomainPartition 15 blankPart ghostSpace).kSup 12) = (3, 6, 3, 6, 3, 6) ∧
    InRegion (DomainPartition 15 blankPart ghostSpace) 12 4 4 4 ∧
    ¬ InRegion (DomainPartition 15 blankPart ghostSpace) 0 4 4 4 ∧
    ∀ particle : Particle, ∃ s,
      ComputeDomainGeometryGCIBM ghostSpace particle (DomainPartition 15 blankPart ghostSpace)
        = some s ∧ s.flagAt 4 4 4 = some 1 := by
  refine ⟨by decide!, by decide!, by decide!, by decide!, by decide!, by decide!, ?_⟩
  intro particle
  obtain ⟨f1, f2, f3, f4, -, -, -, -, hc, -, hO⟩ :=
    classifier_spec ghostSpace particle (DomainPartition 15 blankPart ghostSpace)
      (by decide!) (by decide!)
  exact ⟨stage ghostSpace f4, hc, (hO 4 4 4 (by decide!) (by decide!)).2.2.2⟩

/-- C12: in the single-sphere scenario (unit spacing, one geometry of radius
`2` centred on node `c`, at least three nodes from every edge of region 0,
region 0 inside `[1, Max - 1)`; any ghost width and any size of region 0, in
particular ghost width `2` and `10 × 10 × 10`), the classifier returns with
offset `10` and final flags `1` outside region 0, `-11` on `c`, `10` on the
nodes of the shell around `c` and `0` on every other node of region 0. The
shell consists of 26 distinct nodes of region 0, the nodes at Chebyshev
distance `1` from `c`. Hence `c` is the one solid node with ghost
neighbours (flag `≤ -offset - totalN`), and also the one solid node (flag
`≤ -offset`) that has a ghost among its face neighbours: among the nodes of
region 0, 26 have flag `10`, one is solid with ghost neighbours and one is
solid and touches a ghost. -/
theorem C12_single_sphere (space : Space) (particle : Particle) (part : Partition)
    (ck cj ci : Int) (hwf : space.WellFormed) (hin : RangeInside space part)
    (h : SingleSphere space particle part (ck, cj, ci)) :
    ∃ s, ComputeDomainGeometryGCIBM space particle part = some s ∧
      s.nodeFlagOffset = 10 ∧
      (∀ k j i, InGrid space k j i → s.flagAt k j i
        = some (if ¬ InRange part k j i then 1
          else if (k, j, i) = (ck, cj, ci) then -11
          else if (k, j, i) ∈ ghostShell (ck, cj, ci) then 10 else 0)) ∧
      ((ghostShell (ck, cj, ci)).length = 26 ∧ (ghostShell (ck, cj, ci)).Nodup ∧
        (∀ x, x ∈ ghostShell (ck, cj, ci) ↔ chebyshev x (ck, cj, ci) = 1) ∧
        ∀ x ∈ ghostShell (ck, cj, ci), InRange part x.1 x.2.1 x.2.2) ∧
      (∀ k j i, InGrid space k j i →
        ((∃ f, s.flagAt k j i = some f ∧ f ≤ -10 - particle.totalN) ↔
          (k, j, i) = (ck, cj, ci))) ∧
      (∀ k j i, InGrid space k j i →
        ((∃ f, s.flagAt k j i = some f ∧ f ≤ -10 ∧
            ∃ n ∈ faceNeighbours k j i, ∃ g, s.flagAt n.1 n.2.1 n.2.2 = some g ∧ 10 ≤ g) ↔
          (k, j, i) = (ck, cj, ci))) ∧
      flagCount s part (fun f => decide (f = 10)) = 26 ∧
      flagCount s part (fun f => decide (f ≤ -10 - particle.totalN)) = 1 ∧
      ((rangeNodes part).filter (touchesGhost s)).length = 1 := by
  obtain ⟨f4, hcmp, hI, hO⟩ := singleSphere_stages space particle part ck cj ci hwf hin h
  have hflag : ∀ k j i, InGrid space k j i → (stage space f4).flagAt k j i
      = some (if ¬ InRange part k j i then 1
        else if (k, j, i) = (ck, cj, ci) then -11
        else if (k, j, i) ∈ ghostShell (ck, cj, ci) then 10 else 0) := by
    intro k j i hg
    show readFlag f4 (space.nodeIdx k j i) = _
    by_cases hx : InRange part k j i
    · rw [hI k j i hx, if_neg (not_not.2 hx)]
      have e0 : chebyshev (k, j, i) (ck, cj, ci) = 0 ↔ (k, j, i) = (ck, cj, ci) := by
        rw [chebyshev_eq_zero, Prod.mk.injEq, Prod.mk.injEq]
      by_cases h0 : chebyshev (k, j, i) (ck, cj, ci) = 0
      · rw [if_pos h0, if_pos (e0.1 h0)]
      · have hne : ¬ (k, j, i) = (ck, cj, ci) := fun e => h0 (e0.2 e)
        rw [if_neg h0, if_neg hne]
        by_cases h1 : chebyshev (k, j, i) (ck, cj, ci) = 1
        · rw [if_pos h1, if_pos (mem_ghostShell.2 h1)]
        · have hns : ¬ (k, j, i) ∈ ghostShell (ck, cj, ci) := fun e => h1 (mem_ghostShell.1 e)
          rw [if_neg h1, if_neg hns]
    · rw [hO k j i hg hx, if_pos hx]
  have hcr : InRange part ck cj ci :=
    (singleSphere_neighbours h (by
      have : chebyshev (ck, cj, ci) (ck, cj, ci) = 0 := chebyshev_eq_zero.2 ⟨rfl, rfl, rfl⟩
      omega)).1
  have hgrid : ∀ {k j i : Int}, InRange part k j i → InGrid space k j i := by
    intro k j i hx
    unfold RangeInside at hin
    unfold InRange at hx
    unfold InGrid
    omega
  have hcflag : (stage space f4).flagAt ck cj ci = some (-11) := by
    rw [hflag ck cj ci (hgrid hcr), if_neg (not_not.2 hcr), if_pos rfl]
  have hsolid : ∀ k j i, InGrid space k j i → ∀ f, (stage space f4).flagAt k j i = some f →
      f ≤ -10 → (k, j, i) = (ck, cj, ci) := by
    intro k j i hg f hf hle
    rw [hflag k j i hg] at hf
    by_contra hne
    split_ifs at hf <;> cases Option.some.inj hf <;> omega
  have hshell : ∀ x ∈ ghostShell (ck, cj, ci), InRange part x.1 x.2.1 x.2.2 := by
    rintro ⟨xk, xj, xi⟩ hx
    exact (singleSphere_neighbours h (Nat.le_of_eq (mem_ghostShell.1 hx))).1
  have hwest : (ck, cj, ci - 1) ∈ faceNeighbours ck cj ci ∧
      (stage space f4).flagAt ck cj (ci - 1) = some 10 := by
    have hn : (ck, cj, ci - 1) ∈ faceNeighbours ck cj ci := by simp [faceNeighbours]
    have h1 : chebyshev (ck, cj, ci - 1) (ck, cj, ci) = 1 :=
      centre_neighbours (chebyshev_eq_zero.2 ⟨rfl, rfl, rfl⟩) hn
    have hnr : InRange part ck cj (ci - 1) := (singleSphere_neighbours h (Nat.le_of_eq h1)).1
    refine ⟨hn, ?_⟩
    rw [hflag ck cj (ci - 1) (hgrid hnr), if_neg (not_not.2 hnr),
      if_neg (by simp), if_pos (mem_ghostShell.2 h1)]
  have hcnt : ∀ (p : Int × Int × Int → Bool) (l2 : List (Int × Int × Int)), l2.Nodup →
      (∀ x, (x ∈ rangeNodes part ∧ p x = true) ↔ x ∈ l2) →
      ((rangeNodes part).filter p).length = l2.length := by
    intro p l2 h2 hm
    refine ((List.perm_ext_iff_of_nodup ((nodup_boxNodes _ _ _ _ _ _).filter _) h2).2
      fun x => ?_).length_eq
    rw [List.mem_filter]
    exact hm x
  refine ⟨stage space f4, hcmp, rfl, hflag,
    ⟨ghostShell_length _, ghostShell_nodup _, fun x => mem_ghostShell, hshell⟩,
    fun k j i hg => ⟨?_, ?_⟩, fun k j i hg => ⟨?_, ?_⟩, ?_, ?_, ?_⟩
  · rintro ⟨f, hf, hle⟩
    exact hsolid k j i hg f hf (by omega)
  · intro e
    cases e
    exact ⟨-11, hcflag, by rw [h.2.1]; decide⟩
  · rintro ⟨f, hf, hle, -⟩
    exact hsolid k j i hg f hf hle
  · intro e
    cases e
    exact ⟨-11, hcflag, by decide, (ck, cj, ci - 1), hwest.1, 10, hwest.2, le_refl _⟩
  · unfold flagCount
    rw [hcnt _ (ghostShell (ck, cj, ci)) (ghostShell_nodup _), ghostShell_length]
    rintro ⟨k, j, i⟩
    constructor
    · rintro ⟨hx, hp⟩
      have hx' := mem_rangeNodes.1 hx
      rw [hflag k j i (hgrid hx'), if_neg (not_not.2 hx')] at hp
      by_contra hns
      rw [if_neg hns] at hp
      split_ifs at hp <;> simp at hp
    · intro hx
      have hx' := hshell _ hx
      refine ⟨mem_rangeNodes.2 hx', ?_⟩
      have hne : ¬ (k, j, i) = (ck, cj, ci) := by
        intro e
        have := mem_ghostShell.1 hx
        rw [e] at this
        have h0 : chebyshev (ck, cj, ci) (ck, cj, ci) = 0 := chebyshev_eq_zero.2 ⟨rfl, rfl, rfl⟩
        omega
      show ((stage space f4).flagAt k j i).any _ = true
      rw [hflag k j i (hgrid hx'), if_neg (not_not.2 hx'), if_neg hne, if_pos hx]
      rfl
  · unfold flagCount
    rw [hcnt _ [(ck, cj, ci)] (List.nodup_singleton _), List.length_singleton]
    rintro ⟨k, j, i⟩
    rw [List.mem_singleton]
    constructor
    · rintro ⟨hx, hp⟩
      have hx' := mem_rangeNodes.1 hx
      cases hf : (stage space f4).flagAt k j i with
      | none =>
        rw [hflag k j i (hgrid hx')] at hf
        exact Option.noConfusion hf
      | some f =>
        have hp' : ((stage space f4).flagAt k j i).any
            (fun f => decide (f ≤ -10 - (particle.totalN : Int))) = true := hp
        rw [hf] at hp'
        have hle : f ≤ -10 - (particle.totalN : Int) := by simpa using hp'
        exact hsolid k j i (hgrid hx') f hf (by omega)
    · intro e
      cases e
      refine ⟨mem_rangeNodes.2 hcr, ?_⟩
      show ((stage space f4).flagAt ck cj ci).any _ = true
      rw [hcflag, h.2.1]
      rfl
  · rw [hcnt _ [(ck, cj, ci)] (List.nodup_singleton _), List.length_singleton]
    rintro ⟨k, j, i⟩
    rw [List.mem_singleton]
    constructor
    · rintro ⟨hx, hp⟩
      have hx' := mem_rangeNodes.1 hx
      cases hf : (stage space f4).flagAt k j i with
      | none =>
        rw [hflag k j i (hgrid hx')] at hf
        exact Option.noConfusion hf
      | some f =>
        unfold touchesGhost at hp
        rw [Bool.and_eq_true] at hp
        have hp' : ((stage space f4).flagAt k j i).any
            (fun f => decide (f ≤ -(stage space f4).nodeFlagOffset)) = true := hp.1
        rw [hf] at hp'
        have hle : f ≤ -(10 : Int) := by simpa using hp'
        exact hsolid k j i (hgrid hx') f hf hle
    · intro e
      cases e
      refine ⟨mem_rangeNodes.2 hcr, ?_⟩
      unfold touchesGhost
      rw [Bool.and_eq_true]
      refine ⟨?_, ?_⟩
      · show ((stage space f4).flagAt ck cj ci).any _ = true
        rw [hcflag]
        rfl
      · rw [List.any_eq_true]
        refine ⟨(ck, cj, ci - 1), hwest.1, ?_⟩
        show ((stage space f4).flagAt ck cj (ci - 1)).any _ = true
        rw [hwest.2]
        rfl

/-- Instance of C12: ghost width `2`, region 0 of `10 × 10 × 10` nodes
(`[3, 13)` on each axis of the `16 × 16 × 16` grid), sphere of radius `2` on
node `(7, 7, 7)`. -/
theorem C12_single_sphere_witness :
    shellSpace.WellFormed ∧ RangeInside shellSpace shellPart ∧
    SingleSphere shellSpace shellSphere shellPart (7, 7, 7) ∧
    ∃ s, ComputeDomainGeometryGCIBM shellSpace shellSphere shellPart = some s ∧
      s.flagAt 7 7 7 = some (-11) ∧ s.flagAt 7 8 6 = some 10 ∧ s.flagAt 7 7 9 = some 0 ∧
      s.flagAt 2 7 7 = some 1 ∧ (ghostShell (7, 7, 7)).length = 26 ∧
      flagCount s shellPart (fun f => decide (f = 10)) = 26 ∧
      flagCount s shellPart (fun f => decide (f ≤ -10 - shellSphere.totalN)) = 1 ∧
      ((rangeNodes shellPart).filter (touchesGhost s)).length = 1 :=
  ⟨by decide!, by decide!, by decide!,
    Exists.imp (fun _ h => ⟨h.1, (h.2.2.1 7 7 7 (by decide!)).trans (by decide!),
        (h.2.2.1 7 8 6 (by decide!)).trans (by decide!),
        (h.2.2.1 7 7 9 (by decide!)).trans (by decide!),
        (h.2.2.1 2 7 7 (by decide!)).trans (by decide!), h.2.2.2.1.1,
        h.2.2.2.2.2.2⟩)
      (C12_single_sphere shellSpace shellSphere shellPart 7 7 7 (by decide!) (by decide!)
        (by decide!))⟩

/-- C13: for every input, whenever `LinearReconstruction` returns, the unit
normal was defined, the stencil search has returned a stencil and the five
values returned are `(rho_I, -u_I, -v_I, -w_I, p_I)`, where `x_I = a0 + a1 *
imageX + a2 * imageY + a3 * imageZ` for the column `(a0, a1, a2, a3)` of
variable `x` in the solver's output, at the exact image coordinates. It
returns whenever the normal is defined and the stencil search stays inside the
arrays; where the normal is not defined (the node lies on the centre of the
geometry, or the record lies outside the store) it does not return. -/
theorem C13_mirror_boundary_condition {R : Type} [Field R] [DecidableEq R] (ops : RealOps R)
    (solver : (Nat → Nat → R) → (Nat → Nat → R) → Nat → Nat → R)
    (k j i geoID : Int) (U : List R) (space : Space) (particle : Particle) (flow : Flow R) :
    (∀ Uo, LinearReconstruction ops solver k j i geoID U space particle flow = some Uo →
      NormalDefined ops space particle k j i geoID ∧
      ∃ st, stencilSearch ops k j i geoID U space particle flow = some st ∧
        Uo 0 = imageValue (solver st.posMatrix st.rhsVector)
          (imagePoint ops space particle k j i geoID) 0 ∧
        Uo 1 = -imageValue (solver st.posMatrix st.rhsVector)
          (imagePoint ops space particle k j i geoID) 1 ∧
        Uo 2 = -imageValue (solver st.posMatrix st.rhsVector)
          (imagePoint ops space particle k j i geoID) 2 ∧
        Uo 3 = -imageValue (solver st.posMatrix st.rhsVector)
          (imagePoint ops space particle k j i geoID) 3 ∧
        Uo 4 = imageValue (solver st.posMatrix st.rhsVector)
          (imagePoint ops space particle k j i geoID) 4) ∧
    (NormalDefined ops space particle k j i geoID →
      ProbesInBounds space U (imageNode ops space particle k j i geoID) →
      ∃ Uo, LinearReconstruction ops solver k j i geoID U space particle flow = some Uo) ∧
    (¬ NormalDefined ops space particle k j i geoID →
      LinearReconstruction ops solver k j i geoID U space particle flow = none) :=
  ⟨fun _ h => LinearReconstruction_of_some ops solver k j i geoID U space particle flow h,
    fun hdef h =>
      LinearReconstruction_returns ops solver k j i geoID U space particle flow hdef h,
    fun h => LinearReconstruction_undefined ops solver k j i geoID U space particle flow h⟩

/-- Instance of C13 on the one-sphere input: at the ghost node `(2, 2, 1)`,
at distance `1` from the centre, the reconstruction returns the mirrored
values at the image point `(3/5, 2, 2)` of the affine field; at the centre
node `(2, 2, 2)`, where `distToCenter = 0`, it does not return. -/
theorem C13_mirror_boundary_condition_witness :
    NormalDefined demoOps oneSphereGrid oneSphere 2 2 1 0 ∧
    ProbesInBounds oneSphereGrid demoField (imageNode demoOps oneSphereGrid oneSphere 2 2 1 0) ∧
    (∃ Uo, LinearReconstruction demoOps cramerSolver 2 2 1 0 demoField oneSphereGrid oneSphere
      demoFlow = some Uo) ∧
    (LinearReconstruction demoOps cramerSolver 2 2 1 0 demoField oneSphereGrid oneSphere
      demoFlow).map firstFive = some [1 + 3 / 5, -2, -2, -(3 / 5 + 2), 1 + 2] ∧
    ¬ NormalDefined demoOps oneSphereGrid oneSphere 2 2 2 0 ∧
    LinearReconstruction demoOps cramerSolver 2 2 2 0 demoField oneSphereGrid oneSphere
      demoFlow = none :=
  ⟨by decide!, by decide!,
    (C13_mirror_boundary_condition demoOps cramerSolver 2 2 1 0 demoField oneSphereGrid
      oneSphere demoFlow).2.1 (by decide!) (by decide!),
    by decide!, by decide!,
    (C13_mirror_boundary_condition demoOps cramerSolver 2 2 2 0 demoField oneSphereGrid
      oneSphere demoFlow).2.2 (by decide!)⟩

/-- C14: suppose every quotient of the reconstruction for node `(k, j, i)` is
defined (the node does not lie on the centre of the geometry, the densities
of the fluid probes are non-zero), the search returns a stencil of four
nodes whose position matrix is invertible, the solver's output `X` satisfies
`posMatrix * X = rhsVector`, and the primitives recovered at each accepted
node `(ih, jh, kh)` are `c0 + c1 * ih + c2 * jh + c3 * kh`. Then the value of
the fit at the exact image point is `c0 + c1 * imageX + c2 * imageY + c3 *
imageZ` for each of the five variables, and `LinearReconstruction` returns
it with the three velocities negated, whichever four nodes were accepted. -/
theorem C14_linear_fit_exact {R : Type} [Field R] [DecidableEq R] (ops : RealOps R)
    (solver : (Nat → Nat → R) → (Nat → Nat → R) → Nat → Nat → R)
    (k j i geoID : Int) (U : List R) (space : Space) (particle : Particle) (flow : Flow R)
    (c0 c1 c2 c3 : Nat → R) (st : Stencil R)
    (hdef : ReconstructionDefined ops U space particle k j i geoID)
    (hin : ProbesInBounds space U (imageNode ops space particle k j i geoID))
    (hst : stencilSearch ops k j i geoID U space particle flow = some st)
    (htally : st.tally = 4)
    (hdet : (Matrix.of fun (r c : Fin 4) => st.posMatrix r c).det ≠ 0)
    (hsolve : ∀ r, r < 4 → ∀ m, m < 5 →
      st.posMatrix r 0 * solver st.posMatrix st.rhsVector 0 m
        + st.posMatrix r 1 * solver st.posMatrix st.rhsVector 1 m
        + st.posMatrix r 2 * solver st.posMatrix st.rhsVector 2 m
        + st.posMatrix r 3 * solver st.posMatrix st.rhsVector 3 m = st.rhsVector r m)
    (haffine : ∀ r, r < 4 → ∀ n, n < 27 →
      (fluidProbes space (imageNode ops space particle k j i geoID) 27)[r]? = some n →
      (cellsAt U (probeIdx space (imageNode ops space particle k j i geoID) n)).map
          (primitiveOf flow.gamma)
        = some ((List.range 5).map fun m =>
            c0 m
              + c1 m * (((probeNode (imageNode ops space particle k j i geoID) n).1 : Int) : R)
              + c2 m * (((probeNode (imageNode ops space particle k j i geoID) n).2.1 : Int) : R)
              + c3 m
                * (((probeNode (imageNode ops space particle k j i geoID) n).2.2 : Int) : R))) :
    (∀ m, m < 5 →
      imageValue (solver st.posMatrix st.rhsVector) (imagePoint ops space particle k j i geoID) m
        = c0 m + c1 m * (imagePoint ops space particle k j i geoID).1
          + c2 m * (imagePoint ops space particle k j i geoID).2.1
          + c3 m * (imagePoint ops space particle k j i geoID).2.2) ∧
    ∃ Uo, LinearReconstruction ops solver k j i geoID U space particle flow = some Uo ∧
      firstFive Uo
        = [c0 0 + c1 0 * (imagePoint ops space particle k j i geoID).1
            + c2 0 * (imagePoint ops space particle k j i geoID).2.1
            + c3 0 * (imagePoint ops space particle k j i geoID).2.2,
          -(c0 1 + c1 1 * (imagePoint ops space particle k j i geoID).1
            + c2 1 * (imagePoint ops space particle k j i geoID).2.1
            + c3 1 * (imagePoint ops space particle k j i geoID).2.2),
          -(c0 2 + c1 2 * (imagePoint ops space particle k j i geoID).1
            + c2 2 * (imagePoint ops space particle k j i geoID).2.1
            + c3 2 * (imagePoint ops space particle k j i geoID).2.2),
          -(c0 3 + c1 3 * (imagePoint ops space particle k j i geoID).1
            + c2 3 * (imagePoint ops space particle k j i geoID).2.1
            + c3 3 * (imagePoint ops space particle k j i geoID).2.2),
          c0 4 + c1 4 * (imagePoint ops space particle k j i geoID).1
            + c2 4 * (imagePoint ops space particle k j i geoID).2.1
            + c3 4 * (imagePoint ops space particle k j i geoID).2.2] := by
  obtain ⟨st', hst', h1, h2, -⟩ := searchAround_of_inBounds space flow U _ hin
  have hst2 : stencilSearch ops k j i geoID U space particle flow = some st' := hst'
  rw [hst] at hst2
  cases Option.some.inj hst2
  have hrows : ∀ r, r < 4 → ∀ m, m < 5 → st.posMatrix r 0 = 1 ∧
      st.rhsVector r m = c0 m + c1 m * st.posMatrix r 1 + c2 m * st.posMatrix r 2
        + c3 m * st.posMatrix r 3 := by
    intro r hr m hm
    obtain ⟨n, cells, e1, e2, e3, e4⟩ := h2 r (by omega)
    have hn := (@fluidProbes_get space _ 27 r n e1).1
    have ha := haffine r hr n hn e1
    rw [e2, Option.map_some'] at ha
    have ha' := Option.some.inj ha
    refine ⟨e3.1, ?_⟩
    rw [e4 m hm, ha', e3.2.1, e3.2.2.1, e3.2.2.2]
    interval_cases m <;> rfl
  have hX : ∀ m, m < 5 → solver st.posMatrix st.rhsVector 0 m = c0 m ∧
      solver st.posMatrix st.rhsVector 1 m = c1 m ∧
      solver st.posMatrix st.rhsVector 2 m = c2 m ∧
      solver st.posMatrix st.rhsVector 3 m = c3 m := by
    intro m hm
    have := solution_unique st.posMatrix hdet
      (fun c => solver st.posMatrix st.rhsVector c m)
      (fun c => if c = 0 then c0 m else if c = 1 then c1 m else if c = 2 then c2 m else c3 m)
      (fun r hr => by
        rw [hsolve r hr m hm, (hrows r hr m hm).2]
        simp only [(hrows r hr m hm).1, if_true, OfNat.ofNat_ne_zero, if_false,
          OfNat.ofNat_ne_one, OfNat.one_ne_ofNat, one_ne_zero]
        norm_num
        ring)
    simpa using this
  have hval : ∀ m, m < 5 →
      imageValue (solver st.posMatrix st.rhsVector) (imagePoint ops space particle k j i geoID) m
        = c0 m + c1 m * (imagePoint ops space particle k j i geoID).1
          + c2 m * (imagePoint ops space particle k j i geoID).2.1
          + c3 m * (imagePoint ops space particle k j i geoID).2.2 := by
    intro m hm
    obtain ⟨x0, x1, x2, x3⟩ := hX m hm
    simp only [imageValue, x0, x1, x2, x3]
  refine ⟨hval, ?_⟩
  obtain ⟨Uo, hUo, u0, u1, u2, u3, u4⟩ :=
    LinearReconstruction_of_search ops solver k j i geoID U space particle flow hdef.1 hst
  refine ⟨Uo, hUo, ?_⟩
  simp only [firstFive, u0, u1, u2, u3, u4, hval 0 (by omega), hval 1 (by omega),
    hval 2 (by omega), hval 3 (by omega), hval 4 (by omega)]

/-- Instance of C14: the ghost node `(2, 2, 1)` of the one-sphere input in the
field with primitives `rho = 1 + i`, `u = j`, `v = k`, `w = i + j`,
`p = 1 + k`, solved by Cramer's rule. Four fluid nodes are accepted, and the
result is the mirrored field value at the image point `(3/5, 2, 2)`. -/
theorem C14_linear_fit_exact_witness :
    ReconstructionDefined demoOps demoField oneSphereGrid oneSphere 2 2 1 0 ∧
    ProbesInBounds oneSphereGrid demoField (imageNode demoOps oneSphereGrid oneSphere 2 2 1 0) ∧
    (stencilSearch demoOps 2 2 1 0 demoField oneSphereGrid oneSphere demoFlow).map
      (fun st => st.tally) = some 4 ∧
    imagePoint demoOps oneSphereGrid oneSphere 2 2 1 0 = (3 / 5, 2, 2) ∧
    ∃ Uo, LinearReconstruction demoOps cramerSolver 2 2 1 0 demoField oneSphereGrid oneSphere
        demoFlow = some Uo ∧
      firstFive Uo = [1 + 3 / 5, -2, -2, -(3 / 5 + 2), 1 + 2] :=
  ⟨by decide!, by decide!, by decide!, by decide!,
    Exists.imp (fun _ h => ⟨h.1, h.2.trans (by decide!)⟩)
      (C14_linear_fit_exact demoOps cramerSolver 2 2 1 0 demoField oneSphereGrid oneSphere
        demoFlow (fun m => [1, 0, 0, 0, 1].getD m 0) (fun m => [1, 0, 0, 1, 0].getD m 0)
        (fun m => [0, 1, 0, 1, 0].getD m 0) (fun m => [0, 0, 1, 0, 1].getD m 0)
        ((stencilSearch demoOps 2 2 1 0 demoField oneSphereGrid oneSphere demoFlow).get
          (by decide!))
        (by decide!) (by decide!) (Option.some_get _).symm (by decide!) (by decide!) (by decide!)
        (by decide!)).2⟩

/-- C15: for every flag array and field, if the probes the search examines
stay inside the arrays, the stencil search around an image node returns a
stencil whose tally is `min 4 m`, `m` the number of probes among the 27 whose
node has flag `0`; row `r < tally` holds the `r`-th such probe in table
order (position row `[1, ih, jh, kh]`, right hand side the primitives of
that node), so only nodes with flag `0` are accepted; the other rows are
untouched. A probe preceded by four fluid probes is not examined: nothing is
assumed about it, it may lie outside the arrays. -/
theorem C15_stencil_search {R : Type} [Field R] (space : Space) (flow : Flow R) (U : List R)
    (node : Int × Int × Int) (h : ProbesInBounds space U node) :
    ∃ st, searchAround space flow U node = some st ∧
      st.tally = min 4 (fluidProbes space node 27).length ∧ st.tally ≤ 4 ∧
      (∀ r, r < st.tally → ∃ n cells, (fluidProbes space node 27)[r]? = some n ∧ n < 27 ∧
        readFlag space.nodeFlag (probeIdx space node n) = some 0 ∧
        cellsAt U (probeIdx space node n) = some cells ∧
        (st.posMatrix r 0 = 1 ∧ st.posMatrix r 1 = (((probeNode node n).1 : Int) : R) ∧
          st.posMatrix r 2 = (((probeNode node n).2.1 : Int) : R) ∧
          st.posMatrix r 3 = (((probeNode node n).2.2 : Int) : R)) ∧
        ∀ m, m < 5 → st.rhsVector r m = (primitiveOf flow.gamma cells).getD m 0) ∧
      ∀ r, st.tally ≤ r → ∀ c, st.posMatrix r c = 0 ∧ st.rhsVector r c = 0 := by
  obtain ⟨st, hst, h1, h2, h3⟩ := searchAround_of_inBounds space flow U node h
  refine ⟨st, hst, h1, by omega, fun r hr => ?_, h3⟩
  obtain ⟨n, cells, e1, e2, e3, e4⟩ := h2 r hr
  have hn := @fluidProbes_get space node 27 r n e1
  exact ⟨n, cells, e1, hn.1, hn.2, e2, e3, e4⟩

/-- Instance of C15 on an all-fluid flag array, around the corner node
`(0, 0, 0)`: probes 0 to 3 are accepted, and probe 8 (offset `(-1, 0, 0)`),
whose flat index `-1` lies outside the array, is never read. -/
theorem C15_stencil_search_witness :
    ProbesInBounds (stage demoSpace (List.replicate 125 0)) demoField (0, 0, 0) ∧
    readFlag (stage demoSpace (List.replicate 125 0)).nodeFlag
      (probeIdx (stage demoSpace (List.replicate 125 0)) (0, 0, 0) 8) = none ∧
    ∃ st, searchAround (stage demoSpace (List.replicate 125 0)) demoFlow demoField (0, 0, 0)
        = some st ∧
      st.tally = min 4 (fluidProbes (stage demoSpace (List.replicate 125 0)) (0, 0, 0) 27).length ∧
      st.tally ≤ 4 ∧
      (∀ r, r < st.tally → ∃ n cells,
        (fluidProbes (stage demoSpace (List.replicate 125 0)) (0, 0, 0) 27)[r]? = some n ∧
        n < 27 ∧
        readFlag (stage demoSpace (List.replicate 125 0)).nodeFlag
          (probeIdx (stage demoSpace (List.replicate 125 0)) (0, 0, 0) n) = some 0 ∧
        cellsAt demoField (probeIdx (stage demoSpace (List.replicate 125 0)) (0, 0, 0) n)
          = some cells ∧
        (st.posMatrix r 0 = 1 ∧ st.posMatrix r 1 = (((probeNode (0, 0, 0) n).1 : Int) : ℚ) ∧
          st.posMatrix r 2 = (((probeNode (0, 0, 0) n).2.1 : Int) : ℚ) ∧
          st.posMatrix r 3 = (((probeNode (0, 0, 0) n).2.2 : Int) : ℚ)) ∧
        ∀ m, m < 5 → st.rhsVector r m = (primitiveOf demoFlow.gamma cells).getD m 0) ∧
      ∀ r, st.tally ≤ r → ∀ c, st.posMatrix r c = 0 ∧ st.rhsVector r c = 0 :=
  ⟨by decide!, by decide!,
    C15_stencil_search (stage demoSpace (List.replicate 125 0)) demoFlow demoField (0, 0, 0)
      (by decide!)⟩

/-- C16: let `d = distToCenter > 0` be the distance of node `(k, j, i)` from
the centre of geometry `geoID` (the square root is exact: `d * d` is the
squared distance), `r` the radius, `d ≤ 2 * r`, and let the reciprocal
spacings be exact. Then the physical position `P` of the exact image point
is the node position plus `2 * (r - d)` times the unit normal, it lies on
the ray from the centre `C` through the node (`P - C` is the non-negative
multiple `(2 * r - d) / d` of `N - C`) at distance `2 * r - d` from the
centre, and for `d < r` it is strictly outside the sphere, as far from the
surface (`r - d`) as the node. -/
theorem C16_image_is_reflection {R : Type} [LinearOrderedField R] (ops : RealOps R)
    (space : Space) (particle : Particle) (k j i geoID : Int)
    (hx : (space.ddx : R) * (space.dx : R) = 1) (hy : (space.ddy : R) * (space.dy : R) = 1)
    (hz : (space.ddz : R) * (space.dz : R) = 1)
    (hd : 0 < distToCenter ops space particle k j i geoID)
    (hsq : distToCenter ops space particle k j i geoID
        * distToCenter ops space particle k j i geoID
      = distSq (space.position (((i : Int) : R), ((j : Int) : R), ((k : Int) : R)))
          (geoCentre particle geoID))
    (hr : distToCenter ops space particle k j i geoID ≤ 2 * geoEntry particle geoID 3) :
    (space.position (imagePoint ops space particle k j i geoID)
      = ((space.position (((i : Int) : R), ((j : Int) : R), ((k : Int) : R))).1
          + 2 * (geoEntry particle geoID 3 - distToCenter ops space particle k j i geoID)
            * (surfaceNormal ops space particle k j i geoID).1,
        (space.position (((i : Int) : R), ((j : Int) : R), ((k : Int) : R))).2.1
          + 2 * (geoEntry particle geoID 3 - distToCenter ops space particle k j i geoID)
            * (surfaceNormal ops space particle k j i geoID).2.1,
        (space.position (((i : Int) : R), ((j : Int) : R), ((k : Int) : R))).2.2
          + 2 * (geoEntry particle geoID 3 - distToCenter ops space particle k j i geoID)
            * (surfaceNormal ops space particle k j i geoID).2.2)) ∧
    0 ≤ (2 * geoEntry particle geoID 3 - distToCenter ops space particle k j i geoID)
      / distToCenter ops space particle k j i geoID ∧
    ((space.position (imagePoint ops space particle k j i geoID)).1
        - (geoCentre particle geoID : R × R × R).1
      = (2 * geoEntry particle geoID 3 - distToCenter ops space particle k j i geoID)
          / distToCenter ops space particle k j i geoID
        * ((space.position (((i : Int) : R), ((j : Int) : R), ((k : Int) : R))).1
          - (geoCentre particle geoID : R × R × R).1) ∧
      (space.position (imagePoint ops space particle k j i geoID)).2.1
        - (geoCentre particle geoID : R × R × R).2.1
      = (2 * geoEntry particle geoID 3 - distToCenter ops space particle k j i geoID)
          / distToCenter ops space particle k j i geoID
        * ((space.position (((i : Int) : R), ((j : Int) : R), ((k : Int) : R))).2.1
          - (geoCentre particle geoID : R × R × R).2.1) ∧
      (space.position (imagePoint ops space particle k j i geoID)).2.2
        - (geoCentre particle geoID : R × R × R).2.2
      = (2 * geoEntry particle geoID 3 - distToCenter ops space particle k j i geoID)
          / distToCenter ops space particle k j i geoID
        * ((space.position (((i : Int) : R), ((j : Int) : R), ((k : Int) : R))).2.2
          - (geoCentre particle geoID : R × R × R).2.2)) ∧
    distSq (space.position (imagePoint ops space particle k j i geoID))
        (geoCentre particle geoID)
      = (2 * geoEntry particle geoID 3 - distToCenter ops space particle k j i geoID)
        * (2 * geoEntry particle geoID 3 - distToCenter ops space particle k j i geoID) ∧
    (distToCenter ops space particle k j i geoID < geoEntry particle geoID 3 →
      geoEntry particle geoID 3
        < 2 * geoEntry particle geoID 3 - distToCenter ops space particle k j i geoID ∧
      (2 * geoEntry particle geoID 3 - distToCenter ops space particle k j i geoID)
          - geoEntry particle geoID 3
        = geoEntry particle geoID 3 - distToCenter ops space particle k j i geoID) := by
  set d := distToCenter ops space particle k j i geoID with hdef
  set r : R := geoEntry particle geoID 3 with hrdef
  have hd0 : d ≠ 0 := ne_of_gt hd
  have hpos : ∀ (a dd dx n c : R), dd * dx = 1 →
      (a + 2 * (r - d) * (n / d) * dd - c) * dx = (a - c) * dx + 2 * (r - d) * (n / d) := by
    intro a dd dx n c h
    have : 2 * (r - d) * (n / d) * dd * dx = 2 * (r - d) * (n / d) * (dd * dx) := by ring
    rw [sub_mul, add_mul, this, h]
    ring
  have hray : ∀ (n : R), n + 2 * (r - d) * (n / d) = (2 * r - d) / d * n := by
    intro n
    field_simp
    ring
  have hP : space.position (imagePoint ops space particle k j i geoID)
      = ((space.position (((i : Int) : R), ((j : Int) : R), ((k : Int) : R))).1
          + 2 * (r - d) * (surfaceNormal ops space particle k j i geoID).1,
        (space.position (((i : Int) : R), ((j : Int) : R), ((k : Int) : R))).2.1
          + 2 * (r - d) * (surfaceNormal ops space particle k j i geoID).2.1,
        (space.position (((i : Int) : R), ((j : Int) : R), ((k : Int) : R))).2.2
          + 2 * (r - d) * (surfaceNormal ops space particle k j i geoID).2.2) := by
    simp only [Space.position, imagePoint, distToSurface, surfaceNormal, ← hdef, ← hrdef]
    refine Prod.ext ?_ (Prod.ext ?_ ?_)
    · show _ + (_ + 2 * (r - d) * (_ / d) * _ - _) * _ = _ + (_ - _) * _ + _
      rw [hpos _ _ _ _ _ hx]
      ring
    · show _ + (_ + 2 * (r - d) * (_ / d) * _ - _) * _ = _ + (_ - _) * _ + _
      rw [hpos _ _ _ _ _ hy]
      ring
    · show _ + (_ + 2 * (r - d) * (_ / d) * _ - _) * _ = _ + (_ - _) * _ + _
      rw [hpos _ _ _ _ _ hz]
      ring
  have hN : (space.position (((i : Int) : R), ((j : Int) : R), ((k : Int) : R))).1
        - (geoCentre particle geoID : R × R × R).1
        = (centreToNode space particle k j i geoID).1 ∧
      (space.position (((i : Int) : R), ((j : Int) : R), ((k : Int) : R))).2.1
        - (geoCentre particle geoID : R × R × R).2.1
        = (centreToNode space particle k j i geoID).2.1 ∧
      (space.position (((i : Int) : R), ((j : Int) : R), ((k : Int) : R))).2.2
        - (geoCentre particle geoID : R × R × R).2.2
        = (centreToNode space particle k j i geoID).2.2 := by
    simp only [Space.position, geoCentre, centreToNode, Int.cast_sub]
    exact ⟨trivial, trivial, trivial⟩
  have hray3 : (space.position (imagePoint ops space particle k j i geoID)).1
        - (geoCentre particle geoID : R × R × R).1
      = (2 * r - d) / d
        * ((space.position (((i : Int) : R), ((j : Int) : R), ((k : Int) : R))).1
          - (geoCentre particle geoID : R × R × R).1) ∧
      (space.position (imagePoint ops space particle k j i geoID)).2.1
        - (geoCentre particle geoID : R × R × R).2.1
      = (2 * r - d) / d
        * ((space.position (((i : Int) : R), ((j : Int) : R), ((k : Int) : R))).2.1
          - (geoCentre particle geoID : R × R × R).2.1) ∧
      (space.position (imagePoint ops space particle k j i geoID)).2.2
        - (geoCentre particle geoID : R × R × R).2.2
      = (2 * r - d) / d
        * ((space.position (((i : Int) : R), ((j : Int) : R), ((k : Int) : R))).2.2
          - (geoCentre particle geoID : R × R × R).2.2) := by
    rw [hP]
    simp only [add_sub_right_comm _ _ _, hN.1, hN.2.1, hN.2.2, surfaceNormal, ← hdef]
    exact ⟨hray _, hray _, hray _⟩
  refine ⟨hP, div_nonneg (by linarith) hd.le, hray3, ?_, fun hlt => ⟨by linarith, by ring⟩⟩
  unfold distSq at hsq ⊢
  rw [hray3.1, hray3.2.1, hray3.2.2]
  have : ∀ (c a b e : R), c * a * (c * a) + c * b * (c * b) + c * e * (c * e)
      = c * c * (a * a + b * b + e * e) := by
    intro c a b e
    ring
  rw [this, ← hsq]
  field_simp

/-- Instance of C16: node `(2, 2, 1)` at distance `1/2` from the centre
`(3/2, 2, 2)` of the sphere of radius `3/5`; its image point lies at
distance `7/10` from the centre, `1/10` outside the surface. -/
theorem C16_image_is_reflection_witness :
    ((demoSpace.ddx : ℚ) * (demoSpace.dx : ℚ) = 1 ∧ (demoSpace.ddy : ℚ) * (demoSpace.dy : ℚ) = 1 ∧
      (demoSpace.ddz : ℚ) * (demoSpace.dz : ℚ) = 1) ∧
    distToCenter demoOps demoSpace offNodeSphere 2 2 1 0 = 1 / 2 ∧
    (geoEntry offNodeSphere 0 3 : ℚ) = 3 / 5 ∧
    distToCenter demoOps demoSpace offNodeSphere 2 2 1 0
        * distToCenter demoOps demoSpace offNodeSphere 2 2 1 0
      = distSq (demoSpace.position ((((1 : Int) : ℚ)), (((2 : Int) : ℚ)), (((2 : Int) : ℚ))))
          (geoCentre offNodeSphere 0) ∧
    distSq (demoSpace.position (imagePoint demoOps demoSpace offNodeSphere 2 2 1 0))
        (geoCentre offNodeSphere 0)
      = (2 * geoEntry offNodeSphere 0 3 - distToCenter demoOps demoSpace offNodeSphere 2 2 1 0)
        * (2 * geoEntry offNodeSphere 0 3
          - distToCenter demoOps demoSpace offNodeSphere 2 2 1 0) ∧
    (distToCenter demoOps demoSpace offNodeSphere 2 2 1 0 < geoEntry offNodeSphere 0 3 →
      (geoEntry offNodeSphere 0 3 : ℚ)
        < 2 * geoEntry offNodeSphere 0 3 - distToCenter demoOps demoSpace offNodeSphere 2 2 1 0 ∧
      (2 * geoEntry offNodeSphere 0 3 - distToCenter demoOps demoSpace offNodeSphere 2 2 1 0)
          - geoEntry offNodeSphere 0 3
        = geoEntry offNodeSphere 0 3
          - distToCenter demoOps demoSpace offNodeSphere 2 2 1 0) :=
  ⟨by decide!, by decide!, by decide!, by decide!,
    (C16_image_is_reflection demoOps demoSpace offNodeSphere 2 2 1 0 (by decide!) (by decide!)
      (by decide!) (by decide!) (by decide!) (by decide!)).2.2.2⟩

/-- C17: provided every index the call touches is in range and every
quotient it evaluates is defined (no reconstructed node lies on the centre of
its geometry, the densities of the fluid probes and `gamma - 1` are
non-zero), the boundary applicator returns (with status `0`) the entry field with, for every node of
region 0 whose flag is `≥ offset` or `≤ -offset - totalN`, the node's five
values replaced by `(rho, rho * u, rho * v, rho * w, p / (gamma - 1) + rho *
(u² + v² + w²) / 2)` of the primitives reconstructed from the entry field;
the values of every other grid node are unchanged. A reconstruction reads
the field only at nodes with flag `0`: on two fields that agree there it
returns the same result, so no value written during the call is read, and
the two loop nests produce the same field in whatever order each of them
visits the nodes of region 0. -/
theorem C17_applicator_frame {R : Type} [Field R] [DecidableEq R] (ops : RealOps R)
    (solver : (Nat → Nat → R) → (Nat → Nat → R) → Nat → Nat → R)
    (U : List R) (space : Space) (particle : Particle) (part : Partition) (flow : Flow R)
    (hwf : space.WellFormed) (hin : RangeInBounds space part)
    (hlen : (U.length : Int) = 5 * space.nodeFlag.length) (hoff : 0 < space.nodeFlagOffset)
    (hb : ApplicatorInBounds ops U space particle part)
    (hdef : ApplicatorDefined ops U space particle part flow) :
    ∃ U', BoundaryConditionGCIBM ops solver U space particle part flow = some (U', 0) ∧
      U'.length = U.length ∧
      (∀ k j i, InGrid space k j i → ∀ f, space.flagAt k j i = some f →
        (InRange part k j i → space.nodeFlagOffset ≤ f →
          ∃ Uo, LinearReconstruction ops solver k j i (f - space.nodeFlagOffset) U space
              particle flow = some Uo ∧
            cellsAt U' (space.nodeIdx k j i)
              = some (conservedOf flow.gamma (firstFive Uo))) ∧
        (InRange part k j i → f ≤ -space.nodeFlagOffset - particle.totalN →
          ∃ Uo, LinearReconstruction ops solver k j i
              (f + space.nodeFlagOffset + particle.totalN) U space particle flow = some Uo ∧
            cellsAt U' (space.nodeIdx k j i)
              = some (conservedOf flow.gamma (firstFive Uo))) ∧
        (¬ (InRange part k j i ∧
            (space.nodeFlagOffset ≤ f ∨ f ≤ -space.nodeFlagOffset - particle.totalN)) →
          cellsAt U' (space.nodeIdx k j i) = cellsAt U (space.nodeIdx k j i))) ∧
      (∀ V : List R, (∀ p, readFlag space.nodeFlag p = some 0 → ∀ m : Int, 0 ≤ m → m < 5 →
          readAt V (p * 5 + m) = readAt U (p * 5 + m)) →
        ∀ k j i geoID, LinearReconstruction ops solver k j i geoID V space particle flow
          = LinearReconstruction ops solver k j i geoID U space particle flow) ∧
      ∀ L1 L2 : List (Int × Int × Int), L1.Perm (rangeNodes part) →
        L2.Perm (rangeNodes part) →
        applyInOrder ops solver U space particle flow L1 L2 = some U' := by
  obtain ⟨U', e, eo, l, a1, a2, b⟩ := BoundaryConditionGCIBM_spec ops solver U space particle
    part flow hwf hin hlen hoff hb hdef
  refine ⟨U', e, l, fun k j i hg f hf => ⟨fun hx => a1 k j i hx f hf,
    fun hx => a2 k j i hx f hf, fun hno => ?_⟩, fun V hV k j i geoID =>
      LinearReconstruction_congr ops solver k j i geoID space particle flow hV,
    fun L1 L2 h1 h2 => (applyInOrder_order ops solver U space particle part flow L1 L2 h1 h2
      hwf hin hlen hoff hb hdef).trans eo⟩
  apply cellsAt_congr
  refine b _ (fun k' j' i' hx' f' hf' hact heq => hno ?_)
  obtain ⟨hj', hi', -⟩ := range_idx_bounds hwf hin hx'
  obtain ⟨h1, h2, h3⟩ := idx_inj hj' hi' hg.2.1 hg.2.2 heq
  subst h1 h2 h3
  rw [hf] at hf'
  cases Option.some.inj hf'
  exact ⟨hx', hact⟩

/-- Instance of C17 on the off-node input, whose one reconstructed node is
the ghost `(2, 2, 1)`, at distance `1/2` from the centre of the sphere. On the
one-sphere input, whose reconstructed centre node lies on the centre of the
sphere, the quotients are not all defined and the call does not return. -/
theorem C17_applicator_frame_witness :
    offNodeGrid.WellFormed ∧ RangeInBounds offNodeGrid demoPart ∧
    (demoField.length : Int) = 5 * offNodeGrid.nodeFlag.length ∧
    0 < offNodeGrid.nodeFlagOffset ∧
    ApplicatorInBounds demoOps demoField offNodeGrid offNodeSphere demoPart ∧
    ApplicatorDefined demoOps demoField offNodeGrid offNodeSphere demoPart demoFlow ∧
    (∃ U', BoundaryConditionGCIBM demoOps cramerSolver demoField offNodeGrid offNodeSphere
        demoPart demoFlow = some (U', 0) ∧ U'.length = demoField.length) ∧
    ¬ ApplicatorDefined demoOps demoField oneSphereGrid oneSphere demoPart demoFlow ∧
    BoundaryConditionGCIBM demoOps cramerSolver demoField oneSphereGrid oneSphere demoPart
      demoFlow = none :=
  ⟨by decide!, by decide!, by decide!, by decide!, by decide!, by decide!,
    Exists.imp (fun _ h => ⟨h.1, h.2.1⟩)
      (C17_applicator_frame demoOps cramerSolver demoField offNodeGrid offNodeSphere demoPart
        demoFlow (by decide!) (by decide!) (by decide!) (by decide!) (by decide!)
        (by decide!)),
    by decide!, by decide!⟩

/-- C18: for every `rho ≠ 0`, `gamma ≠ 1` and every `(u, v, w, p)`, the
primitives the stencil search recovers from the conserved state that the
boundary applicator writes for `(rho, u, v, w, p)` are `(rho, u, v, w, p)`. -/
theorem C18_round_trip {R : Type} [Field R] (gamma rho u v w p : R) (hrho : rho ≠ 0)
    (hgamma : gamma ≠ 1) :
    primitiveOf gamma (conservedOf gamma [rho, u, v, w, p]) = [rho, u, v, w, p] := by
  have hg : gamma - 1 ≠ 0 := sub_ne_zero.2 hgamma
  have e1 : rho * u / rho = u := by field_simp
  have e2 : rho * v / rho = v := by field_simp
  have e3 : rho * w / rho = w := by field_simp
  simp only [conservedOf, primitiveOf, e1, e2, e3]
  congr 4
  simp only [List.cons.injEq, and_true]
  field_simp
  ring

/-- Instance of C18 over the rationals with `gamma = 7/5`. -/
theorem C18_round_trip_witness :
    (2 : ℚ) ≠ 0 ∧ (7 / 5 : ℚ) ≠ 1 ∧
    primitiveOf (7 / 5 : ℚ) (conservedOf (7 / 5) [2, 3, -4, 5, 6]) = [2, 3, -4, 5, 6] :=
  ⟨by norm_num, by norm_num, C18_round_trip (7 / 5) 2 3 (-4) 5 6 (by norm_num) (by norm_num)⟩

/-- C19 fails on the code: classified over the line of the nodes `(2, 2, 1)`,
`(2, 2, 2)`, `(2, 2, 3)`, the off-node sphere makes `(2, 2, 1)` a ghost; only
one of the 27 probes around its image node is fluid, the search ends with
tally `1`, and for every solver the call returns status `0` with the state
of the node overwritten from the reconstruction. -/
theorem C19_counterexample :
    (ComputeDomainGeometryGCIBM demoSpace offNodeSphere linePart).map
      (fun s => (s.nodeFlagOffset, s.nodeFlag)) = some (10, lineFlags) ∧
    lineGrid.flagAt 2 2 1 = some 10 ∧
    (fluidProbes lineGrid (imageNode demoOps lineGrid offNodeSphere 2 2 1 0) 27).length = 1 ∧
    (stencilSearch demoOps 2 2 1 0 demoField lineGrid offNodeSphere demoFlow).map
      (fun st => st.tally) = some 1 ∧
    ∀ solver : (Nat → Nat → ℚ) → (Nat → Nat → ℚ) → Nat → Nat → ℚ,
      ∃ U' Uo, BoundaryConditionGCIBM demoOps solver demoField lineGrid offNodeSphere linePart
          demoFlow = some (U', 0) ∧
        LinearReconstruction demoOps solver 2 2 1 0 demoField lineGrid offNodeSphere demoFlow
          = some Uo ∧
        cellsAt U' 61 = some (conservedOf demoFlow.gamma (firstFive Uo)) := by
  refine ⟨by decide!, by decide!, by decide!, by decide!, fun solver => ?_⟩
  obtain ⟨U', e, -, -, a1, -, -⟩ := BoundaryConditionGCIBM_spec demoOps solver demoField lineGrid
    offNodeSphere linePart demoFlow (by decide!) (by decide!) (by decide!) (by decide!)
    (by decide!) (by decide!)
  obtain ⟨Uo, h1, h2⟩ := a1 2 2 1 (by decide!) 10 (by decide!) (by decide!)
  exact ⟨U', Uo, e, h1, h2⟩

/-- C19, amended: provided every index the call touches is in range and
every quotient it evaluates is defined (no reconstructed node lies on the
centre of its geometry, the densities of the fluid probes and `gamma - 1` are
non-zero), the boundary applicator returns status `0` whatever the tallies
are. For every
node it reconstructs, the search returns a stencil of `min 4 m` rows, `m` the
number of fluid probes, the remaining rows of the system are zero, and the
node's state is written from the solver's output for that system. -/
theorem C19_status_is_always_zero {R : Type} [Field R] [DecidableEq R] (ops : RealOps R)
    (solver : (Nat → Nat → R) → (Nat → Nat → R) → Nat → Nat → R)
    (U : List R) (space : Space) (particle : Particle) (part : Partition) (flow : Flow R)
    (hwf : space.WellFormed) (hin : RangeInBounds space part)
    (hlen : (U.length : Int) = 5 * space.nodeFlag.length) (hoff : 0 < space.nodeFlagOffset)
    (hb : ApplicatorInBounds ops U space particle part)
    (hdef : ApplicatorDefined ops U space particle part flow) :
    ∃ U', BoundaryConditionGCIBM ops solver U space particle part flow = some (U', 0) ∧
      ∀ k j i, InRange part k j i → ∀ f, space.flagAt k j i = some f → ∀ geoID,
        (space.nodeFlagOffset ≤ f ∧ geoID = f - space.nodeFlagOffset) ∨
          (f ≤ -space.nodeFlagOffset - particle.totalN ∧
            geoID = f + space.nodeFlagOffset + particle.totalN) →
        ∃ st Uo, stencilSearch ops k j i geoID U space particle flow = some st ∧
          st.tally
            = min 4 (fluidProbes space (imageNode ops space particle k j i geoID) 27).length ∧
          (∀ r, st.tally ≤ r → ∀ c, st.posMatrix r c = 0 ∧ st.rhsVector r c = 0) ∧
          LinearReconstruction ops solver k j i geoID U space particle flow = some Uo ∧
          firstFive Uo
            = [imageValue (solver st.posMatrix st.rhsVector)
                (imagePoint ops space particle k j i geoID) 0,
              -imageValue (solver st.posMatrix st.rhsVector)
                (imagePoint ops space particle k j i geoID) 1,
              -imageValue (solver st.posMatrix st.rhsVector)
                (imagePoint ops space particle k j i geoID) 2,
              -imageValue (solver st.posMatrix st.rhsVector)
                (imagePoint ops space particle k j i geoID) 3,
              imageValue (solver st.posMatrix st.rhsVector)
                (imagePoint ops space particle k j i geoID) 4] ∧
          cellsAt U' (space.nodeIdx k j i) = some (conservedOf flow.gamma (firstFive Uo)) := by
  obtain ⟨U', e, -, -, a1, a2, -⟩ := BoundaryConditionGCIBM_spec ops solver U space particle
    part flow hwf hin hlen hoff hb hdef
  refine ⟨U', e, fun k j i hx f hf geoID hgeo => ?_⟩
  have hnormal : NormalDefined ops space particle k j i geoID := by
    rcases hgeo with ⟨h1, rfl⟩ | ⟨h1, rfl⟩
    · exact ((hdef.2 (k, j, i) (mem_rangeNodes.2 hx) f hf).1 h1).1
    · exact ((hdef.2 (k, j, i) (mem_rangeNodes.2 hx) f hf).2 h1).1
  have hprobe : ProbesInBounds space U (imageNode ops space particle k j i geoID) := by
    rcases hgeo with ⟨h1, rfl⟩ | ⟨h1, rfl⟩
    · exact (hb (k, j, i) (mem_rangeNodes.2 hx) f hf).1 h1
    · exact (hb (k, j, i) (mem_rangeNodes.2 hx) f hf).2 h1
  have hcell : ∃ Uo, LinearReconstruction ops solver k j i geoID U space particle flow
      = some Uo ∧
      cellsAt U' (space.nodeIdx k j i) = some (conservedOf flow.gamma (firstFive Uo)) := by
    rcases hgeo with ⟨h1, rfl⟩ | ⟨h1, rfl⟩
    · exact a1 k j i hx f hf h1
    · exact a2 k j i hx f hf h1
  obtain ⟨Uo, hUo, hc⟩ := hcell
  obtain ⟨st, hst, h1, -, h3⟩ := searchAround_of_inBounds space flow U _ hprobe
  obtain ⟨Uo', hUo', u0, u1, u2, u3, u4⟩ :=
    LinearReconstruction_of_search ops solver k j i geoID U space particle flow hnormal hst
  rw [hUo] at hUo'
  cases Option.some.inj hUo'
  exact ⟨st, Uo, hst, h1, h3, hUo, by simp only [firstFive, u0, u1, u2, u3, u4], hc⟩

/-- Instance of the amended C19 on the line input, where the one
reconstructed node has tally `1`. -/
theorem C19_status_is_always_zero_witness :
    lineGrid.WellFormed ∧ RangeInBounds lineGrid linePart ∧
    (demoField.length : Int) = 5 * lineGrid.nodeFlag.length ∧ 0 < lineGrid.nodeFlagOffset ∧
    ApplicatorInBounds demoOps demoField lineGrid offNodeSphere linePart ∧
    ApplicatorDefined demoOps demoField lineGrid offNodeSphere linePart demoFlow ∧
    ∃ U', BoundaryConditionGCIBM demoOps cramerSolver demoField lineGrid offNodeSphere linePart
      demoFlow = some (U', 0) :=
  ⟨by decide!, by decide!, by decide!, by decide!, by decide!, by decide!,
    Exists.imp (fun _ h => h.1)
      (C19_status_is_always_zero demoOps cramerSolver demoField lineGrid offNodeSphere linePart
        demoFlow (by decide!) (by decide!) (by decide!) (by decide!) (by decide!)
        (by decide!))⟩

/-- C20 fails on the code: on the `5 × 5 × 5` grid the sphere of radius `1`
centred half a cell west of node `(2, 2, 2)` makes `(2, 2, 1)` a ghost of
geometry 0 at distance `1/2` from the centre; its truncated image node is
`(imageI, imageJ, imageK) = (0, 2, 2)`, only three of the first eight probes
are fluid, so probe 8 (offset `(-1, 0, 0)`) is examined, at `ih = -1`, outside
`[0, iMax)`. -/
theorem C20_counterexample :
    (ComputeDomainGeometryGCIBM demoSpace shiftedSphere demoPart).map
      (fun s => (s.nodeFlagOffset, s.nodeFlag)) = some (10, shiftedFlags) ∧
    shiftedGrid.flagAt 2 2 1 = some 10 ∧
    distToCenter demoOps shiftedGrid shiftedSphere 2 2 1 0 = 1 / 2 ∧
    imageNode demoOps shiftedGrid shiftedSphere 2 2 1 0 = (0, 2, 2) ∧
    (fluidProbes shiftedGrid (0, 2, 2) 8).length = 3 ∧
    probeNode (0, 2, 2) 8 = (-1, 2, 2) ∧
    ¬ InGrid shiftedGrid (probeNode (0, 2, 2) 8).2.2 (probeNode (0, 2, 2) 8).2.1
      (probeNode (0, 2, 2) 8).1 := by
  decide!

/-- C20, amended: for every classification the classifier produces, a node
of region 0 with final flag `f ≥ offset` has `f - offset` in `[0, totalN)`;
and whenever the truncated image node of a reconstruction lies in
`[1, iMax - 1) × [1, jMax - 1) × [1, kMax - 1)`, each of its 27 probes has
coordinates in `[0, iMax) × [0, jMax) × [0, kMax)` and a flat index inside the
flag array. -/
theorem C20_index_invariant {R : Type} [Field R] (ops : RealOps R) (space : Space)
    (particle : Particle) (part : Partition) (hwf : space.WellFormed)
    (hin : RangeInBounds space part) :
    ∃ s, ComputeDomainGeometryGCIBM space particle part = some s ∧
      (∀ k j i, InRange part k j i → ∀ f, s.flagAt k j i = some f → s.nodeFlagOffset ≤ f →
        0 ≤ f - s.nodeFlagOffset ∧ f - s.nodeFlagOffset < particle.totalN) ∧
      ∀ k j i geoID,
        (1 ≤ (imageNode ops s particle k j i geoID).1 ∧
          (imageNode ops s particle k j i geoID).1 < s.iMax - 1) ∧
        (1 ≤ (imageNode ops s particle k j i geoID).2.1 ∧
          (imageNode ops s particle k j i geoID).2.1 < s.jMax - 1) ∧
        (1 ≤ (imageNode ops s particle k j i geoID).2.2 ∧
          (imageNode ops s particle k j i geoID).2.2 < s.kMax - 1) →
        ∀ n, n < 27 →
          InGrid s (probeNode (imageNode ops s particle k j i geoID) n).2.2
            (probeNode (imageNode ops s particle k j i geoID) n).2.1
            (probeNode (imageNode ops s particle k j i geoID) n).1 ∧
          0 ≤ probeIdx s (imageNode ops s particle k j i geoID) n ∧
          probeIdx s (imageNode ops s particle k j i geoID) n < s.nodeFlag.length := by
  obtain ⟨f1, f2, f3, f4, -, -, -, -, hc, hI, hO⟩ := classifier_spec space particle part hwf hin
  refine ⟨stage space f4, hc, fun k j i hx f hf hge => ?_, fun k j i geoID him n hn => ?_⟩
  · obtain ⟨-, r2, r3, r4⟩ := hI k j i hx
    have hf' : readFlag f4 (space.nodeIdx k j i) = some f := hf
    rw [r4] at hf'
    have e4 := Option.some.inj hf'
    have hge' : (10 : Int) ≤ f := hge
    show 0 ≤ f - 10 ∧ f - 10 < (particle.totalN : Int)
    have c4 := ghostNeighbourRule_cases 10 particle.totalN space.jMax space.iMax (flagD f3)
      (space.nodeIdx k j i)
    have c3 := ghostRule_cases 10 space.jMax space.iMax (flagD f2) (space.nodeIdx k j i)
    have c2 := ownerFlag_range space particle part 10 k j i particle.totalN
    rw [flagD_of_read r3] at c4
    rw [flagD_of_read r2] at c3
    omega
  · have hp := path_offsets n hn
    have hg : InGrid space (probeNode (imageNode ops (stage space f4) particle k j i geoID) n).2.2
        (probeNode (imageNode ops (stage space f4) particle k j i geoID) n).2.1
        (probeNode (imageNode ops (stage space f4) particle k j i geoID) n).1 := by
      have him' : (1 ≤ (imageNode ops (stage space f4) particle k j i geoID).1 ∧
          (imageNode ops (stage space f4) particle k j i geoID).1 < space.iMax - 1) ∧
        (1 ≤ (imageNode ops (stage space f4) particle k j i geoID).2.1 ∧
          (imageNode ops (stage space f4) particle k j i geoID).2.1 < space.jMax - 1) ∧
        (1 ≤ (imageNode ops (stage space f4) particle k j i geoID).2.2 ∧
          (imageNode ops (stage space f4) particle k j i geoID).2.2 < space.kMax - 1) := him
      unfold InGrid probeNode
      simp only
      omega
    refine ⟨hg, ?_⟩
    have hread : ∃ v, readFlag f4 (space.nodeIdx
        (probeNode (imageNode ops (stage space f4) particle k j i geoID) n).2.2
        (probeNode (imageNode ops (stage space f4) particle k j i geoID) n).2.1
        (probeNode (imageNode ops (stage space f4) particle k j i geoID) n).1) = some v := by
      by_cases hx : InRange part
          (probeNode (imageNode ops (stage space f4) particle k j i geoID) n).2.2
          (probeNode (imageNode ops (stage space f4) particle k j i geoID) n).2.1
          (probeNode (imageNode ops (stage space f4) particle k j i geoID) n).1
      · exact ⟨_, (hI _ _ _ hx).2.2.2⟩
      · exact ⟨_, (hO _ _ _ hg hx).2.2.2⟩
    obtain ⟨v, hv⟩ := hread
    exact readFlag_bounds hv

/-- Instance of the amended C20 on the one-sphere input. -/
theorem C20_index_invariant_witness :
    demoSpace.WellFormed ∧ RangeInBounds demoSpace demoPart ∧
    ∃ s, ComputeDomainGeometryGCIBM demoSpace oneSphere demoPart = some s ∧
      ∀ k j i, InRange demoPart k j i → ∀ f, s.flagAt k j i = some f → s.nodeFlagOffset ≤ f →
        0 ≤ f - s.nodeFlagOffset ∧ f - s.nodeFlagOffset < oneSphere.totalN :=
  ⟨by decide!, by decide,
    Exists.imp (fun _ h => ⟨h.1, h.2.1⟩)
      (C20_index_invariant demoOps demoSpace oneSphere demoPart (by decide!) (by decide))⟩

/-! ## Regions of the partition, order of the sweeps, determinants and entropy fix -/

/-- A node of one of the 13 regions lies in the extended grid, has at least
two coordinates in the interior range of their axis, and the number of its
region is determined by its coordinates. -/
theorem region_sound (nameSize : Nat) (part : Partition) (space : Space)
    (hx : 2 ≤ space.nx) (hy : 2 ≤ space.ny) (hz : 2 ≤ space.nz) (hg : 0 ≤ space.ng)
    (k j i : Int) (n : Nat) (hn : n < 13)
    (h : InRegion (DomainPartition nameSize part space) n k j i) :
    InExtended space k j i ∧ TwoInterior space k j i ∧
      n = regionOf space k j i := by
  unfold InExtended TwoInterior InteriorRange regionOf
  interval_cases n
  · have e :
        (space.ng + 1 ≤ k ∧ k < space.nz + space.ng - 1) ∧
        (space.ng + 1 ≤ j ∧ j < space.ny + space.ng - 1) ∧
        (0 ≤ i ∧ i < space.ng) := h
    clear h
    refine ⟨by omega, by omega, ?_⟩
    rw [if_pos (show i < space.ng by omega)]
  · have e :
        (space.ng + 1 ≤ k ∧ k < space.nz + space.ng - 1) ∧
        (space.ng + 1 ≤ j ∧ j < space.ny + space.ng - 1) ∧
        (space.nx + space.ng ≤ i ∧ i < space.nx + 2 * space.ng) := h
    clear h
    refine ⟨by omega, by omega, ?_⟩
    rw [if_neg (show ¬ i < space.ng by omega),
      if_pos (show space.nx + space.ng ≤ i by omega)]
  · have e :
        (space.ng + 1 ≤ k ∧ k < space.nz + space.ng - 1) ∧
        (0 ≤ j ∧ j < space.ng) ∧
        (space.ng + 1 ≤ i ∧ i < space.nx + space.ng - 1) := h
    clear h
    refine ⟨by omega, by omega, ?_⟩
    rw [if_neg (show ¬ i < space.ng by omega),
      if_neg (show ¬ space.nx + space.ng ≤ i by omega),
      if_pos (show j < space.ng by omega)]
  · have e :
        (space.ng + 1 ≤ k ∧ k < space.nz + space.ng - 1) ∧
        (space.ny + space.ng ≤ j ∧ j < space.ny + 2 * space.ng) ∧
        (space.ng + 1 ≤ i ∧ i < space.nx + space.ng - 1) := h
    clear h
    refine ⟨by omega, by omega, ?_⟩
    rw [if_neg (show ¬ i < space.ng by omega),
      if_neg (show ¬ space.nx + space.ng ≤ i by omega),
      if_neg (show ¬ j < space.ng by omega),
      if_pos (show space.ny + space.ng ≤ j by omega)]
  · have e :
        (0 ≤ k ∧ k < space.ng) ∧
        (space.ng + 1 ≤ j ∧ j < space.ny + space.ng - 1) ∧
        (space.ng + 1 ≤ i ∧ i < space.nx + space.ng - 1) := h
    clear h
    refine ⟨by omega, by omega, ?_⟩
    rw [if_neg (show ¬ i < space.ng by omega),
      if_neg (show ¬ space.nx + space.ng ≤ i by omega),
      if_neg (show ¬ j < space.ng by omega),
      if_neg (show ¬ space.ny + space.ng ≤ j by omega),
      if_pos (show k < space.ng by omega)]
  · have e :
        (space.nz + space.ng ≤ k ∧ k < space.nz + 2 * space.ng) ∧
        (space.ng + 1 ≤ j ∧ j < space.ny + space.ng - 1) ∧
        (space.ng + 1 ≤ i ∧ i < space.nx + space.ng - 1) := h
    clear h
    refine ⟨by omega, by omega, ?_⟩
    rw [if_neg (show ¬ i < space.ng by omega),
      if_neg (show ¬ space.nx + space.ng ≤ i by omega),
      if_neg (show ¬ j < space.ng by omega),
      if_neg (show ¬ space.ny + space.ng ≤ j by omega),
      if_neg (show ¬ k < space.ng by omega),
      if_pos (show space.nz + space.ng ≤ k by omega)]
  · have e :
        (space.ng + 1 ≤ k ∧ k < space.nz + space.ng - 1) ∧
        (space.ng + 1 ≤ j ∧ j < space.ny + space.ng - 1) ∧
        (space.ng ≤ i ∧ i < space.ng + 1) := h
    clear h
    refine ⟨by omega, by omega, ?_⟩
    rw [if_neg (show ¬ i < space.ng by omega),
      if_neg (show ¬ space.nx + space.ng ≤ i by omega),
      if_neg (show ¬ j < space.ng by omega),
      if_neg (show ¬ space.ny + space.ng ≤ j by omega),
      if_neg (show ¬ k < space.ng by omega),
      if_neg (show ¬ space.nz + space.ng ≤ k by omega),
      if_pos (show i = space.ng by omega)]
  · have e :
        (space.ng + 1 ≤ k ∧ k < space.nz + space.ng - 1) ∧
        (space.ng + 1 ≤ j ∧ j < space.ny + space.ng - 1) ∧
        (space.nx + space.ng - 1 ≤ i ∧ i < space.nx + space.ng) := h
    clear h
    refine ⟨by omega, by omega, ?_⟩
    rw [if_neg (show ¬ i < space.ng by omega),
      if_neg (show ¬ space.nx + space.ng ≤ i by omega),
      if_neg (show ¬ j < space.ng by omega),
      if_neg (show ¬ space.ny + space.ng ≤ j by omega),
      if_neg (show ¬ k < space.ng by omega),
      if_neg (show ¬ space.nz + space.ng ≤ k by omega),
      if_neg (show ¬ i = space.ng by omega),
      if_pos (show i = space.nx + space.ng - 1 by omega)]
  · have e :
        (space.ng + 1 ≤ k ∧ k < space.nz + space.ng - 1) ∧
        (space.ng ≤ j ∧ j < space.ng + 1) ∧
        (space.ng + 1 ≤ i ∧ i < space.nx + space.ng - 1) := h
    clear h
    refine ⟨by omega, by omega, ?_⟩
    rw [if_neg (show ¬ i < space.ng by omega),
      if_neg (show ¬ space.nx + space.ng ≤ i by omega),
      if_neg (show ¬ j < space.ng by omega),
      if_neg (show ¬ space.ny + space.ng ≤ j by omega),
      if_neg (show ¬ k < space.ng by omega),
      if_neg (show ¬ space.nz + space.ng ≤ k by omega),
      if_neg (show ¬ i = space.ng by omega),
      if_neg (show ¬ i = space.nx + space.ng - 1 by omega),
      if_pos (show j = space.ng by omega)]
  · have e :
        (space.ng + 1 ≤ k ∧ k < space.nz + space.ng - 1) ∧
        (space.ny + space.ng - 1 ≤ j ∧ j < space.ny + space.ng) ∧
        (space.ng + 1 ≤ i ∧ i < space.nx + space.ng - 1) := h
    clear h
    refine ⟨by omega, by omega, ?_⟩
    rw [if_neg (show ¬ i < space.ng by omega),
      if_neg (show ¬ space.nx + space.ng ≤ i by omega),
      if_neg (show ¬ j < space.ng by omega),
      if_neg (show ¬ space.ny + space.ng ≤ j by omega),
      if_neg (show ¬ k < space.ng by omega),
      if_neg (show ¬ space.nz + space.ng ≤ k by omega),
      if_neg (show ¬ i = space.ng by omega),
      if_neg (show ¬ i = space.nx + space.ng - 1 by omega),
      if_neg (show ¬ j = space.ng by omega),
      if_pos (show j = space.ny + space.ng - 1 by omega)]
  · have e :
        (space.ng ≤ k ∧ k < space.ng + 1) ∧
        (space.ng + 1 ≤ j ∧ j < space.ny + space.ng - 1) ∧
        (space.ng + 1 ≤ i ∧ i < space.nx + space.ng - 1) := h
    clear h
    refine ⟨by omega, by omega, ?_⟩
    rw [if_neg (show ¬ i < space.ng by omega),
      if_neg (show ¬ space.nx + space.ng ≤ i by omega),
      if_neg (show ¬ j < space.ng by omega),
      if_neg (show ¬ space.ny + space.ng ≤ j by omega),
      if_neg (show ¬ k < space.ng by omega),
      if_neg (show ¬ space.nz + space.ng ≤ k by omega),
      if_neg (show ¬ i = space.ng by omega),
      if_neg (show ¬ i = space.nx + space.ng - 1 by omega),
      if_neg (show ¬ j = space.ng by omega),
      if_neg (show ¬ j = space.ny + space.ng - 1 by omega),
      if_pos (show k = space.ng by omega)]
  · have e :
        (space.nz + space.ng - 1 ≤ k ∧ k < space.nz + space.ng) ∧
        (space.ng + 1 ≤ j ∧ j < space.ny + space.ng - 1) ∧
        (space.ng + 1 ≤ i ∧ i < space.nx + space.ng - 1) := h
    clear h
    refine ⟨by omega, by omega, ?_⟩
    rw [if_neg (show ¬ i < space.ng by omega),
      if_neg (show ¬ space.nx + space.ng ≤ i by omega),
      if_neg (show ¬ j < space.ng by omega),
      if_neg (show ¬ space.ny + space.ng ≤ j by omega),
      if_neg (show ¬ k < space.ng by omega),
      if_neg (show ¬ space.nz + space.ng ≤ k by omega),
      if_neg (show ¬ i = space.ng by omega),
      if_neg (show ¬ i = space.nx + space.ng - 1 by omega),
      if_neg (show ¬ j = space.ng by omega),
      if_neg (show ¬ j = space.ny + space.ng - 1 by omega),
      if_neg (show ¬ k = space.ng by omega),
      if_pos (show k = space.nz + space.ng - 1 by omega)]
  · have e :
        (space.ng + 1 ≤ k ∧ k < space.nz + space.ng - 1) ∧
        (space.ng + 1 ≤ j ∧ j < space.ny + space.ng - 1) ∧
        (space.ng + 1 ≤ i ∧ i < space.nx + space.ng - 1) := h
    clear h
    refine ⟨by omega, by omega, ?_⟩
    rw [if_neg (show ¬ i < space.ng by omega),
      if_neg (show ¬ space.nx + space.ng ≤ i by omega),
      if_neg (show ¬ j < space.ng by omega),
      if_neg (show ¬ space.ny + space.ng ≤ j by omega),
      if_neg (show ¬ k < space.ng by omega),
      if_neg (show ¬ space.nz + space.ng ≤ k by omega),
      if_neg (show ¬ i = space.ng by omega),
      if_neg (show ¬ i = space.nx + space.ng - 1 by omega),
      if_neg (show ¬ j = space.ng by omega),
      if_neg (show ¬ j = space.ny + space.ng - 1 by omega),
      if_neg (show ¬ k = space.ng by omega),
      if_neg (show ¬ k = space.nz + space.ng - 1 by omega)]

/-- A node of the extended grid with at least two coordinates in the
interior range of their axis lies in the region its coordinates determine. -/
theorem region_complete (nameSize : Nat) (part : Partition) (space : Space)
    (k j i : Int) (hgrid : InExtended space k j i) (htwo : TwoInterior space k j i) :
    regionOf space k j i < 13 ∧
      InRegion (DomainPartition nameSize part space) (regionOf space k j i) k j i := by
  unfold InExtended at hgrid
  unfold TwoInterior InteriorRange at htwo
  unfold regionOf
  by_cases c0 : i < space.ng
  · rw [if_pos c0]
    exact ⟨by omega,
      show (space.ng + 1 ≤ k ∧ k < space.nz + space.ng - 1) ∧
        (space.ng + 1 ≤ j ∧ j < space.ny + space.ng - 1) ∧
        (0 ≤ i ∧ i < space.ng) by omega⟩
  rw [if_neg c0]
  by_cases c1 : space.nx + space.ng ≤ i
  · rw [if_pos c1]
    exact ⟨by omega,
      show (space.ng + 1 ≤ k ∧ k < space.nz + space.ng - 1) ∧
        (space.ng + 1 ≤ j ∧ j < space.ny + space.ng - 1) ∧
        (space.nx + space.ng ≤ i ∧ i < space.nx + 2 * space.ng) by omega⟩
  rw [if_neg c1]
  by_cases c2 : j < space.ng
  · rw [if_pos c2]
    exact ⟨by omega,
      show (space.ng + 1 ≤ k ∧ k < space.nz + space.ng - 1) ∧
        (0 ≤ j ∧ j < space.ng) ∧
        (space.ng + 1 ≤ i ∧ i < space.nx + space.ng - 1) by omega⟩
  rw [if_neg c2]
  by_cases c3 : space.ny + space.ng ≤ j
  · rw [if_pos c3]
    exact ⟨by omega,
      show (space.ng + 1 ≤ k ∧ k < space.nz + space.ng - 1) ∧
        (space.ny + space.ng ≤ j ∧ j < space.ny + 2 * space.ng) ∧
        (space.ng + 1 ≤ i ∧ i < space.nx + space.ng - 1) by omega⟩
  rw [if_neg c3]
  by_cases c4 : k < space.ng
  · rw [if_pos c4]
    exact ⟨by omega,
      show (0 ≤ k ∧ k < space.ng) ∧
        (space.ng + 1 ≤ j ∧ j < space.ny + space.ng - 1) ∧
        (space.ng + 1 ≤ i ∧ i < space.nx + space.ng - 1) by omega⟩
  rw [if_neg c4]
  by_cases c5 : space.nz + space.ng ≤ k
  · rw [if_pos c5]
    exact ⟨by omega,
      show (space.nz + space.ng ≤ k ∧ k < space.nz + 2 * space.ng) ∧
        (space.ng + 1 ≤ j ∧ j < space.ny + space.ng - 1) ∧
        (space.ng + 1 ≤ i ∧ i < space.nx + space.ng - 1) by omega⟩
  rw [if_neg c5]
  by_cases c6 : i = space.ng
  · rw [if_pos c6]
    exact ⟨by omega,
      show (space.ng + 1 ≤ k ∧ k < space.nz + space.ng - 1) ∧
        (space.ng + 1 ≤ j ∧ j < space.ny + space.ng - 1) ∧
        (space.ng ≤ i ∧ i < space.ng + 1) by omega⟩
  rw [if_neg c6]
  by_cases c7 : i = space.nx + space.ng - 1
  · rw [if_pos c7]
    exact ⟨by omega,
      show (space.ng + 1 ≤ k ∧ k < space.nz + space.ng - 1) ∧
        (space.ng + 1 ≤ j ∧ j < space.ny + space.ng - 1) ∧
        (space.nx + space.ng - 1 ≤ i ∧ i < space.nx + space.ng) by omega⟩
  rw [if_neg c7]
  by_cases c8 : j = space.ng
  · rw [if_pos c8]
    exact ⟨by omega,
      show (space.ng + 1 ≤ k ∧ k < space.nz + space.ng - 1) ∧
        (space.ng ≤ j ∧ j < space.ng + 1) ∧
        (space.ng + 1 ≤ i ∧ i < space.nx + space.ng - 1) by omega⟩
  rw [if_neg c8]
  by_cases c9 : j = space.ny + space.ng - 1
  · rw [if_pos c9]
    exact ⟨by omega,
      show (space.ng + 1 ≤ k ∧ k < space.nz + space.ng - 1) ∧
        (space.ny + space.ng - 1 ≤ j ∧ j < space.ny + space.ng) ∧
        (space.ng + 1 ≤ i ∧ i < space.nx + space.ng - 1) by omega⟩
  rw [if_neg c9]
  by_cases c10 : k = space.ng
  · rw [if_pos c10]
    exact ⟨by omega,
      show (space.ng ≤ k ∧ k < space.ng + 1) ∧
        (space.ng + 1 ≤ j ∧ j < space.ny + space.ng - 1) ∧
        (space.ng + 1 ≤ i ∧ i < space.nx + space.ng - 1) by omega⟩
  rw [if_neg c10]
  by_cases c11 : k = space.nz + space.ng - 1
  · rw [if_pos c11]
    exact ⟨by omega,
      show (space.nz + space.ng - 1 ≤ k ∧ k < space.nz + space.ng) ∧
        (space.ng + 1 ≤ j ∧ j < space.ny + space.ng - 1) ∧
        (space.ng + 1 ≤ i ∧ i < space.nx + space.ng - 1) by omega⟩
  rw [if_neg c11]
  exact ⟨by omega,
    show (space.ng + 1 ≤ k ∧ k < space.nz + space.ng - 1) ∧
        (space.ng + 1 ≤ j ∧ j < space.ny + space.ng - 1) ∧
        (space.ng + 1 ≤ i ∧ i < space.nx + space.ng - 1) by omega⟩

/-- Every face neighbour of a node of the Interior region (region 12) lies
in the Interior region or in one of the six boundary-face regions 6 to 11. -/
theorem face_neighbour_region (nameSize : Nat) (part : Partition) (space : Space)
    (k j i : Int) (hin : InRegion (DomainPartition nameSize part space) 12 k j i) :
    ∀ n ∈ faceNeighbours k j i, ∃ r, 6 ≤ r ∧ r ≤ 12 ∧
      InRegion (DomainPartition nameSize part space) r n.1 n.2.1 n.2.2 := by
  have e :
      (space.ng + 1 ≤ k ∧ k < space.nz + space.ng - 1) ∧
        (space.ng + 1 ≤ j ∧ j < space.ny + space.ng - 1) ∧
        (space.ng + 1 ≤ i ∧ i < space.nx + space.ng - 1) := hin
  clear hin
  intro n hn
  simp only [faceNeighbours, List.mem_cons, List.mem_singleton, List.not_mem_nil, or_false] at hn
  rcases hn with rfl | rfl | rfl | rfl | rfl | rfl
  · by_cases c : i - 1 = space.ng
    · exact ⟨6, by omega, by omega,
        show (space.ng + 1 ≤ k ∧ k < space.nz + space.ng - 1) ∧
        (space.ng + 1 ≤ j ∧ j < space.ny + space.ng - 1) ∧
        (space.ng ≤ (i - 1) ∧ (i - 1) < space.ng + 1) by omega⟩
    · exact ⟨12, by omega, by omega,
        show (space.ng + 1 ≤ k ∧ k < space.nz + space.ng - 1) ∧
        (space.ng + 1 ≤ j ∧ j < space.ny + space.ng - 1) ∧
        (space.ng + 1 ≤ (i - 1) ∧ (i - 1) < space.nx + space.ng - 1) by omega⟩
  · by_cases c : i + 1 = space.nx + space.ng - 1
    · exact ⟨7, by omega, by omega,
        show (space.ng + 1 ≤ k ∧ k < space.nz + space.ng - 1) ∧
        (space.ng + 1 ≤ j ∧ j < space.ny + space.ng - 1) ∧
        (space.nx + space.ng - 1 ≤ (i + 1) ∧ (i + 1) < space.nx + space.ng) by omega⟩
    · exact ⟨12, by omega, by omega,
        show (space.ng + 1 ≤ k ∧ k < space.nz + space.ng - 1) ∧
        (space.ng + 1 ≤ j ∧ j < space.ny + space.ng - 1) ∧
        (space.ng + 1 ≤ (i + 1) ∧ (i + 1) < space.nx + space.ng - 1) by omega⟩
  · by_cases c : j - 1 = space.ng
    · exact ⟨8, by omega, by omega,
        show (space.ng + 1 ≤ k ∧ k < space.nz + space.ng - 1) ∧
        (space.ng ≤ (j - 1) ∧ (j - 1) < space.ng + 1) ∧
        (space.ng + 1 ≤ i ∧ i < space.nx + space.ng - 1) by omega⟩
    · exact ⟨12, by omega, by omega,
        show (space.ng + 1 ≤ k ∧ k < space.nz + space.ng - 1) ∧
        (space.ng + 1 ≤ (j - 1) ∧ (j - 1) < space.ny + space.ng - 1) ∧
        (space.ng + 1 ≤ i ∧ i < space.nx + space.ng - 1) by omega⟩
  · by_cases c : j + 1 = space.ny + space.ng - 1
    · exact ⟨9, by omega, by omega,
        show (space.ng + 1 ≤ k ∧ k < space.nz + space.ng - 1) ∧
        (space.ny + space.ng - 1 ≤ (j + 1) ∧ (j + 1) < space.ny + space.ng) ∧
        (space.ng + 1 ≤ i ∧ i < space.nx + space.ng - 1) by omega⟩
    · exact ⟨12, by omega, by omega,
        show (space.ng + 1 ≤ k ∧ k < space.nz + space.ng - 1) ∧
        (space.ng + 1 ≤ (j + 1) ∧ (j + 1) < space.ny + space.ng - 1) ∧
        (space.ng + 1 ≤ i ∧ i < space.nx + space.ng - 1) by omega⟩
  · by_cases c : k - 1 = space.ng
    · exact ⟨10, by omega, by omega,
        show (space.ng ≤ (k - 1) ∧ (k - 1) < space.ng + 1) ∧
        (space.ng + 1 ≤ j ∧ j < space.ny + space.ng - 1) ∧
        (space.ng + 1 ≤ i ∧ i < space.nx + space.ng - 1) by omega⟩
    · exact ⟨12, by omega, by omega,
        show (space.ng + 1 ≤ (k - 1) ∧ (k - 1) < space.nz + space.ng - 1) ∧
        (space.ng + 1 ≤ j ∧ j < space.ny + space.ng - 1) ∧
        (space.ng + 1 ≤ i ∧ i < space.nx + space.ng - 1) by omega⟩
  · by_cases c : k + 1 = space.nz + space.ng - 1
    · exact ⟨11, by omega, by omega,
        show (space.nz + space.ng - 1 ≤ (k + 1) ∧ (k + 1) < space.nz + space.ng) ∧
        (space.ng + 1 ≤ j ∧ j < space.ny + space.ng - 1) ∧
        (space.ng + 1 ≤ i ∧ i < space.nx + space.ng - 1) by omega⟩
    · exact ⟨12, by omega, by omega,
        show (space.ng + 1 ≤ (k + 1) ∧ (k + 1) < space.nz + space.ng - 1) ∧
        (space.ng + 1 ≤ j ∧ j < space.ny + space.ng - 1) ∧
        (space.ng + 1 ≤ i ∧ i < space.nx + space.ng - 1) by omega⟩

/-- The six flat indices of passes 3 and 4 are the flat indices of the six
face neighbours. -/
theorem neighbourIdx_eq (space : Space) (k j i : Int) :
    neighbourIdx space k j i
      = (faceNeighbours k j i).map fun n => space.nodeIdx n.1 n.2.1 n.2.2 := by
  simp only [neighbourIdx, faceNeighbours, List.map_cons, List.map_nil, Space.nodeIdx,
    List.cons.injEq, and_true]
  refine ⟨by ring, by ring, by ring, by ring⟩

/-- A sweep whose body at `x` rewrites the cell `key x` from the cells as they
stood before the sweep gives the same array in every order of the visits. -/
theorem sweep_any_order {α : Type} (key : α → Int) (new : α → Int)
    (body : α → List Int → Option (List Int)) (old : List Int) (All : List α)
    (hnodup : (All.map key).Nodup)
    (hbody : ∀ x ∈ All, ∀ c, readFlag c (key x) = readFlag old (key x) →
      (∀ p, readFlag c p = readFlag old p ∨
        ∃ y ∈ All, key y = p ∧ readFlag c p = some (new y)) →
      ∃ c', body x c = some c' ∧
        ∀ p, readFlag c' p = if p = key x then some (new x) else readFlag c p)
    (L : List α) (hL : L.Perm All) : foldOpt body L old = foldOpt body All old := by
  obtain ⟨res, hres, hA, hB⟩ := foldOpt_pointwise key new body old All hnodup hbody
  obtain ⟨resL, hresL, hAL, hBL⟩ := foldOpt_pointwise key new body old L
    ((hL.map key).nodup_iff.2 hnodup)
    (fun x hx c hself hc => hbody x (hL.mem_iff.1 hx) c hself fun p =>
      (hc p).imp id fun ⟨y, hy, e⟩ => ⟨y, hL.mem_iff.1 hy, e⟩)
  rw [hres, hresL]
  congr 1
  apply readFlag_ext
  intro p
  by_cases hp : ∃ x ∈ All, key x = p
  · obtain ⟨x, hx, rfl⟩ := hp
    rw [hAL x (hL.mem_iff.2 hx), hA x hx]
  · have h1 : ∀ x ∈ All, key x ≠ p := fun x hx e => hp ⟨x, hx, e⟩
    rw [hB p h1, hBL p fun x hx => h1 x (hL.mem_iff.1 hx)]

/-- The keys of the nodes of region 0 are pairwise distinct. -/
theorem range_keys_nodup {space : Space} {part : Partition} (hwf : space.WellFormed)
    (hin : RangeInBounds space part) :
    ((rangeNodes part).map (nodeKey space.jMax space.iMax)).Nodup :=
  nodup_keys (nodup_boxNodes _ _ _ _ _ _) fun _ hx =>
    let b := range_idx_bounds hwf hin (mem_rangeNodes.1 hx)
    ⟨b.1, b.2.1⟩

/-- Pass 3 in any order of the visits gives the flags of the source order. -/
theorem ghostSweep_any_order (space : Space) (part : Partition) (hwf : space.WellFormed)
    (hin : RangeInBounds space part) (L : List (Int × Int × Int))
    (hL : L.Perm (rangeNodes part)) :
    foldOpt (fun x t => ghostBody space x.1 x.2.1 x.2.2 t) L space.nodeFlag
      = foldOpt (fun x t => ghostBody space x.1 x.2.1 x.2.2 t) (rangeNodes part)
        space.nodeFlag := by
  refine sweep_any_order (nodeKey space.jMax space.iMax)
    (fun x => ghostRule space.nodeFlagOffset space.jMax space.iMax (flagD space.nodeFlag)
      (nodeKey space.jMax space.iMax x))
    (fun x t => ghostBody space x.1 x.2.1 x.2.2 t) space.nodeFlag (rangeNodes part)
    (range_keys_nodup hwf hin) ?_ L hL
  rintro ⟨k, j, i⟩ hx c hself hc
  obtain ⟨-, -, hlo, hhi, h1, hst⟩ := range_idx_bounds hwf hin (mem_rangeNodes.1 hx)
  refine ghostBody_step space space.nodeFlag c k j i hlo hhi h1 hst hself fun q => ?_
  rcases hc q with h | ⟨y, -, hy, h⟩
  · exact Or.inl h
  · subst hy
    exact Or.inr h

/-- Pass 4 in any order of the visits gives the flags of the source order. -/
theorem ghostNeighbourSweep_any_order (space : Space) (particle : Particle) (part : Partition)
    (hwf : space.WellFormed) (hin : RangeInBounds space part) (L : List (Int × Int × Int))
    (hL : L.Perm (rangeNodes part)) :
    foldOpt (fun x t => ghostNeighbourBody space particle x.1 x.2.1 x.2.2 t) L space.nodeFlag
      = foldOpt (fun x t => ghostNeighbourBody space particle x.1 x.2.1 x.2.2 t)
        (rangeNodes part) space.nodeFlag := by
  refine sweep_any_order (nodeKey space.jMax space.iMax)
    (fun x => ghostNeighbourRule space.nodeFlagOffset particle.totalN space.jMax space.iMax
      (flagD space.nodeFlag) (nodeKey space.jMax space.iMax x))
    (fun x t => ghostNeighbourBody space particle x.1 x.2.1 x.2.2 t) space.nodeFlag
    (rangeNodes part) (range_keys_nodup hwf hin) ?_ L hL
  rintro ⟨k, j, i⟩ hx c hself hc
  obtain ⟨-, -, hlo, hhi, h1, hst⟩ := range_idx_bounds hwf hin (mem_rangeNodes.1 hx)
  refine ghostNeighbourBody_step space particle space.nodeFlag c k j i hlo hhi h1 hst
    hself fun q => ?_
  rcases hc q with h | ⟨y, -, hy, h⟩
  · exact Or.inl h
  · subst hy
    exact Or.inr h

/-- The flags of a fold that returns inside a pass. -/
theorem foldOpt_of_bind {body : Int × Int × Int → List Int → Option (List Int)}
    {L : List (Int × Int × Int)} {space : Space} {flags : List Int}
    (h : (foldOpt body L space.nodeFlag).bind
      (fun f => some { space with nodeFlag := f }) = some { space with nodeFlag := flags }) :
    foldOpt body L space.nodeFlag = some flags := by
  rcases hf : foldOpt body L space.nodeFlag with _ | f
  · rw [hf] at h
    exact Option.noConfusion h
  · rw [hf, Option.some_bind] at h
    have e := congrArg Space.nodeFlag (Option.some.inj h)
    exact congrArg some e

/-- A sum of three squares in a linear ordered field vanishes only when each
term does. -/
theorem sum_squares_eq_zero {R : Type} [LinearOrderedField R] {a b c : R} :
    a * a + b * b + c * c = 0 ↔ a = 0 ∧ b = 0 ∧ c = 0 := by
  constructor
  · intro h
    have ha := mul_self_nonneg a
    have hb := mul_self_nonneg b
    have hc := mul_self_nonneg c
    exact ⟨mul_self_eq_zero.1 (le_antisymm (by linarith) ha),
      mul_self_eq_zero.1 (le_antisymm (by linarith) hb),
      mul_self_eq_zero.1 (le_antisymm (by linarith) hc)⟩
  · rintro ⟨rfl, rfl, rfl⟩
    simp

/-- Expansion of a `4 × 4` determinant along its first row. -/
theorem det_fin_four {R : Type} [Field R] (A : Matrix (Fin 4) (Fin 4) R) :
    A.det = A 0 0 * det3 (A 1 1) (A 1 2) (A 1 3) (A 2 1) (A 2 2) (A 2 3) (A 3 1) (A 3 2) (A 3 3)
    - A 0 1 * det3 (A 1 0) (A 1 2) (A 1 3) (A 2 0) (A 2 2) (A 2 3) (A 3 0) (A 3 2) (A 3 3)
    + A 0 2 * det3 (A 1 0) (A 1 1) (A 1 3) (A 2 0) (A 2 1) (A 2 3) (A 3 0) (A 3 1) (A 3 3)
    - A 0 3 * det3 (A 1 0) (A 1 1) (A 1 2) (A 2 0) (A 2 1) (A 2 2) (A 3 0) (A 3 1) (A 3 2) := by
  have s00 : (0 : Fin 4).succAbove (0 : Fin 3) = 1 := rfl
  have s01 : (0 : Fin 4).succAbove (1 : Fin 3) = 2 := rfl
  have s02 : (0 : Fin 4).succAbove (2 : Fin 3) = 3 := rfl
  have s10 : (1 : Fin 4).succAbove (0 : Fin 3) = 0 := rfl
  have s11 : (1 : Fin 4).succAbove (1 : Fin 3) = 2 := rfl
  have s12 : (1 : Fin 4).succAbove (2 : Fin 3) = 3 := rfl
  have s20 : (2 : Fin 4).succAbove (0 : Fin 3) = 0 := rfl
  have s21 : (2 : Fin 4).succAbove (1 : Fin 3) = 1 := rfl
  have s22 : (2 : Fin 4).succAbove (2 : Fin 3) = 3 := rfl
  have s30 : (3 : Fin 4).succAbove (0 : Fin 3) = 0 := rfl
  have s31 : (3 : Fin 4).succAbove (1 : Fin 3) = 1 := rfl
  have s32 : (3 : Fin 4).succAbove (2 : Fin 3) = 2 := rfl
  have t0 : Fin.succ (0 : Fin 3) = (1 : Fin 4) := rfl
  have t1 : Fin.succ (1 : Fin 3) = (2 : Fin 4) := rfl
  have t2 : Fin.succ (2 : Fin 3) = (3 : Fin 4) := rfl
  rw [Matrix.det_succ_row_zero, Fin.sum_univ_four]
  simp only [Matrix.det_fin_three, Matrix.submatrix_apply, det3]
  simp only [s00, s01, s02, s10, s11, s12, s20, s21, s22, s30, s31, s32, t0, t1, t2, Fin.val_zero,
    Fin.val_one, Fin.val_two, pow_zero, pow_one, Fin.succ_zero_eq_one, Fin.succ_one_eq_two]
  have e3 : ((3 : Fin 4) : Nat) = 3 := rfl
  rw [e3]
  ring

/-- Determinant of the position matrix of the stencil with offsets
`(0,0,0)`, `(1,1,1)`, `(1,1,0)`, `(1,0,1)` around `(I, J, K)`. -/
theorem unit_cell_det {R : Type} [Field R] (I J K : R) (A : Matrix (Fin 4) (Fin 4) R)
    (h0 : A 0 0 = 1 ∧ A 0 1 = I ∧ A 0 2 = J ∧ A 0 3 = K)
    (h1 : A 1 0 = 1 ∧ A 1 1 = I + 1 ∧ A 1 2 = J + 1 ∧ A 1 3 = K + 1)
    (h2 : A 2 0 = 1 ∧ A 2 1 = I + 1 ∧ A 2 2 = J + 1 ∧ A 2 3 = K)
    (h3 : A 3 0 = 1 ∧ A 3 1 = I + 1 ∧ A 3 2 = J ∧ A 3 3 = K + 1) : A.det = -1 := by
  rw [det_fin_four, h0.1, h0.2.1, h0.2.2.1, h0.2.2.2, h1.1, h1.2.1, h1.2.2.1, h1.2.2.2,
    h2.1, h2.2.1, h2.2.2.1, h2.2.2.2, h3.1, h3.2.1, h3.2.2.1, h3.2.2.2]
  unfold det3
  ring

/-- When the eight nodes of the cell anchored at `node` are fluid, the first
four probes of the search path are fluid. -/
theorem unit_cell_probes {space : Space} {node : Int × Int × Int}
    (hfluid : ∀ d : Int × Int × Int, (d.1 = 0 ∨ d.1 = 1) → (d.2.1 = 0 ∨ d.2.1 = 1) →
      (d.2.2 = 0 ∨ d.2.2 = 1) →
      readFlag space.nodeFlag (((node.2.2 + d.2.2) * space.jMax + (node.2.1 + d.2.1))
        * space.iMax + (node.1 + d.1)) = some 0) :
    ∀ n, n < 8 → readFlag space.nodeFlag (probeIdx space node n) = some 0 := by
  intro n hn
  have h := hfluid (path.getD n (0, 0, 0))
    (by interval_cases n <;> decide) (by interval_cases n <;> decide)
    (by interval_cases n <;> decide)
  exact h

/-- With the first four probes fluid, the fluid probes among the first four
are the probes 0 to 3. -/
theorem fluidProbes_four {space : Space} {node : Int × Int × Int}
    (h : ∀ n, n < 4 → readFlag space.nodeFlag (probeIdx space node n) = some 0) :
    fluidProbes space node 4 = [0, 1, 2, 3] := by
  have hp : ∀ n, n < 4 → probeFluid space node n = true := fun n hn => by
    simp [probeFluid, h n hn]
  have e0 : fluidProbes space node 0 = [] := rfl
  rw [fluidProbes_succ, fluidProbes_succ, fluidProbes_succ, fluidProbes_succ, e0,
    if_pos (hp 0 (by omega)), if_pos (hp 1 (by omega)), if_pos (hp 2 (by omega)),
    if_pos (hp 3 (by omega))]
  rfl

/-- With the first four probes fluid and the field holding five values per
node, the search returns the stencil of the probes 0 to 3. -/
theorem unit_cell_search {R : Type} [Field R] (space : Space) (flow : Flow R) (U : List R)
    (node : Int × Int × Int)
    (h : ∀ n, n < 4 → readFlag space.nodeFlag (probeIdx space node n) = some 0)
    (hU : (U.length : Int) = 5 * (space.nodeFlag.length : Int)) :
    ∃ st, searchAround space flow U node = some st ∧ st.tally = 4 ∧
      (fluidProbes space node 27).take 4 = [0, 1, 2, 3] ∧
      ∀ r, r < 4 → st.posMatrix r 0 = 1 ∧
        st.posMatrix r 1 = (((probeNode node r).1 : Int) : R) ∧
        st.posMatrix r 2 = (((probeNode node r).2.1 : Int) : R) ∧
        st.posMatrix r 3 = (((probeNode node r).2.2 : Int) : R) := by
  have h4 := fluidProbes_four h
  have hlen : ∀ n, 4 ≤ n → 4 ≤ (fluidProbes space node n).length := fun n hn => by
    have := @fluidProbes_length_mono space node 4 n hn
    rw [h4] at this
    exact this
  have hin : ProbesInBounds space U node := by
    intro n _ hl
    have hn : n < 4 := by
      by_contra hge
      have := hlen n (by omega)
      omega
    refine ⟨by rw [h n hn]; rfl, fun _ => ?_⟩
    obtain ⟨b0, b1⟩ := readFlag_bounds (h n hn)
    obtain ⟨c, hc⟩ := cellsAt_of_length b0 b1 hU
    rw [hc]
    rfl
  obtain ⟨st, hst, ht, hrows, -⟩ := searchAround_of_inBounds space flow U node hin
  have ht4 : st.tally = 4 := by
    have := hlen 27 (by omega)
    omega
  have hget : ∀ r, r < 4 → (fluidProbes space node 27)[r]? = some r := fun r hr =>
    fluidProbes_get_mono (by omega : 4 ≤ 27) (by rw [h4]; interval_cases r <;> rfl)
  refine ⟨st, hst, ht4, ?_, fun r hr => ?_⟩
  · obtain ⟨t, e⟩ := fluidProbes_initial space node 4 23
    rw [← e, h4]
    rfl
  · obtain ⟨n, cells, e1, -, e3, -⟩ := hrows r (by omega)
    rw [hget r hr] at e1
    cases e1
    exact e3

/-- The quotient is defined for a non-zero divisor. -/
theorem divide_of_ne {R : Type} [LinearOrderedField R] (x : R) {y : R} (hy : y ≠ 0) :
    divide x y = some (x / y) := by
  unfold divide
  rw [if_neg hy]

/-- Below the threshold `Q` takes the quadratic branch, and its quotient is
defined. -/
theorem Q_below {R : Type} [LinearOrderedField R] {z delta : R} (h : |z| < delta) :
    Q z delta = some (1 / 2 * (z * z / delta + delta)) := by
  have hd : delta ≠ 0 := ne_of_gt (lt_of_le_of_lt (abs_nonneg z) h)
  unfold Q
  rw [if_neg (not_le.2 h), divide_of_ne _ hd]
  rfl

/-- At or above the threshold `Q` is the absolute value. -/
theorem Q_above {R : Type} [LinearOrderedField R] {z delta : R} (h : delta ≤ |z|) :
    Q z delta = some |z| := by
  unfold Q
  rw [if_pos h]

/-- The quadratic branch lies above the absolute value and above half the
threshold. -/
theorem quadratic_bounds {R : Type} [LinearOrderedField R] (z : R) {delta : R}
    (hd : 0 < delta) :
    |z| ≤ 1 / 2 * (z * z / delta + delta) ∧ delta / 2 ≤ 1 / 2 * (z * z / delta + delta) := by
  have hz : z * z = |z| * |z| := (abs_mul_abs_self z).symm
  have hsq : 0 ≤ (|z| - delta) * (|z| - delta) := mul_self_nonneg _
  have hq : z * z / delta = |z| * |z| / delta := by rw [hz]
  have h0 : 0 ≤ |z| * |z| / delta := div_nonneg (mul_self_nonneg _) hd.le
  have h1 : 2 * |z| - delta ≤ |z| * |z| / delta := by
    rw [le_div_iff₀ hd]
    nlinarith
  rw [hq]
  constructor <;> linarith

/-! ## Partition, search path, sweeps, product test, normal and entropy fix: claims C21 to C29 -/

/-- Claim C21. `DomainPartition` yields a cross-shaped partition: for
`nx, ny, nz ≥ 2` and `ng ≥ 0`, a node of the extended grid with at least two
coordinates in the interior range `[ng + 1, n + ng - 1)` of their axis belongs
to exactly one of the 13 regions `[sub, sup)`, a node of the extended grid
without two such coordinates (a corner part) belongs to none of them, and
every node of a region lies in the extended grid. -/
theorem C21_cross_shaped_partition (nameSize : Nat) (part : Partition) (space : Space)
    (hx : 2 ≤ space.nx) (hy : 2 ≤ space.ny) (hz : 2 ≤ space.nz) (hg : 0 ≤ space.ng)
    (k j i : Int) :
    (InExtended space k j i →
      (TwoInterior space k j i →
        ∃! n, n < 13 ∧ InRegion (DomainPartition nameSize part space) n k j i) ∧
      (¬ TwoInterior space k j i →
        ∀ n, n < 13 → ¬ InRegion (DomainPartition nameSize part space) n k j i)) ∧
    (∀ n, n < 13 → InRegion (DomainPartition nameSize part space) n k j i →
      InExtended space k j i) := by
  refine ⟨fun hgrid => ⟨fun htwo => ?_, fun hnot n hn h => ?_⟩, fun n hn h => ?_⟩
  · obtain ⟨h1, h2⟩ := region_complete nameSize part space k j i hgrid htwo
    exact ⟨regionOf space k j i, ⟨h1, h2⟩, fun m hm =>
      (region_sound nameSize part space hx hy hz hg k j i m hm.1 hm.2).2.2⟩
  · exact hnot (region_sound nameSize part space hx hy hz hg k j i n hn h).2.1
  · exact (region_sound nameSize part space hx hy hz hg k j i n hn h).1

/-- Instance of C21 on the grid of 5 nodes per axis with ghost width 2
(extended grid `9 × 9 × 9`): node `(4, 4, 0)` has `k` and `j` in the interior
range `[3, 6)` and belongs to exactly one region; the corner node `(0, 0, 4)`
belongs to none. -/
theorem C21_cross_shaped_partition_witness :
    ((2 : Int) ≤ ghostSpace.nx ∧ (2 : Int) ≤ ghostSpace.ny ∧ (2 : Int) ≤ ghostSpace.nz ∧
      (0 : Int) ≤ ghostSpace.ng) ∧
    (InExtended ghostSpace 4 4 0 ∧ TwoInterior ghostSpace 4 4 0) ∧
    (∃! n, n < 13 ∧ InRegion (DomainPartition 15 blankPart ghostSpace) n 4 4 0) ∧
    (InExtended ghostSpace 0 0 4 ∧ ¬ TwoInterior ghostSpace 0 0 4) ∧
    ∀ n, n < 13 → ¬ InRegion (DomainPartition 15 blankPart ghostSpace) n 0 0 4 :=
  ⟨by decide, by decide,
    ((C21_cross_shaped_partition 15 blankPart ghostSpace (by decide) (by decide) (by decide)
      (by decide) 4 4 0).1 (by decide)).1 (by decide),
    by decide,
    ((C21_cross_shaped_partition 15 blankPart ghostSpace (by decide) (by decide) (by decide)
      (by decide) 0 0 4).1 (by decide)).2 (by decide)⟩


/-- Claim C22. The search path of `LinearReconstruction` is a fixed table of
27 pairwise distinct offsets; an offset belongs to it exactly when each of its
three components is `-1`, `0` or `1`; its first entry is the identity offset
`(0, 0, 0)`; and an entry has all its components in `{0, 1}` exactly when it
stands at one of the first eight positions, so the eight such offsets come
before every offset with a `-1` component. -/
theorem C22_search_path_table :
    path.length = 27 ∧ path.Nodup ∧
      (∀ d : Int × Int × Int, d ∈ path ↔
        (-1 ≤ d.1 ∧ d.1 ≤ 1) ∧ (-1 ≤ d.2.1 ∧ d.2.1 ≤ 1) ∧ (-1 ≤ d.2.2 ∧ d.2.2 ≤ 1)) ∧
      path[0]? = some (0, 0, 0) ∧
      (∀ n : Fin 27, n.val < 8 ↔
        ((path.getD n.val (0, 0, 0)).1 = 0 ∨ (path.getD n.val (0, 0, 0)).1 = 1) ∧
        ((path.getD n.val (0, 0, 0)).2.1 = 0 ∨ (path.getD n.val (0, 0, 0)).2.1 = 1) ∧
        ((path.getD n.val (0, 0, 0)).2.2 = 0 ∨ (path.getD n.val (0, 0, 0)).2.2 = 1)) ∧
      (∀ n : Fin 27, 8 ≤ n.val ↔
        ((path.getD n.val (0, 0, 0)).1 = -1 ∨ (path.getD n.val (0, 0, 0)).2.1 = -1 ∨
          (path.getD n.val (0, 0, 0)).2.2 = -1)) := by
  refine ⟨rfl, by decide!, ?_, rfl, by decide!, by decide!⟩
  rintro ⟨a, b, c⟩
  constructor
  · intro h
    unfold path at h
    fin_cases h <;> decide
  · rintro ⟨⟨h1, h2⟩, ⟨h3, h4⟩, h5, h6⟩
    simp only at h1 h2 h3 h4 h5 h6
    interval_cases a <;> interval_cases b <;> interval_cases c <;> decide

/-- Claim C23 fails on the code: the cast `(int)` truncates toward zero. On
the one-sphere input node `(2, 2, 1)` is a ghost of geometry `0`; its image
displacement along `x` is `-2/5` node units, which the cast truncates to `0`
(the floor is `-1`), so the image node is `(1, 2, 2)` while the exact image
point is `(3/5, 2, 2)`: `imageI = 1 > imageX`, and the floor of `imageX` is
`0`. -/
theorem C23_truncation_toward_zero :
    (ComputeDomainGeometryGCIBM demoSpace oneSphere demoPart).map
      (fun s => (s.nodeFlagOffset, s.nodeFlag)) = some (10, oneSphereFlags) ∧
    oneSphereGrid.flagAt 2 2 1 = some 10 ∧ ghostGeoID oneSphereGrid 10 = 0 ∧
    2 * distToSurface demoOps oneSphereGrid oneSphere 2 2 1 0
      * (surfaceNormal demoOps oneSphereGrid oneSphere 2 2 1 0).1 * (oneSphereGrid.ddx : ℚ)
      = -2 / 5 ∧
    demoOps.toInt (-2 / 5) = 0 ∧ ⌊(-2 / 5 : ℚ)⌋ = -1 ∧
    imagePoint demoOps oneSphereGrid oneSphere 2 2 1 0 = (3 / 5, 2, 2) ∧
    imageNode demoOps oneSphereGrid oneSphere 2 2 1 0 = (1, 2, 2) ∧
    ¬ (((imageNode demoOps oneSphereGrid oneSphere 2 2 1 0).1 : ℚ)
      ≤ (imagePoint demoOps oneSphereGrid oneSphere 2 2 1 0).1) ∧
    ⌊(imagePoint demoOps oneSphereGrid oneSphere 2 2 1 0).1⌋ = 0 := by
  refine ⟨classified_inputs.1, by decide!, by decide!, by decide!, by decide!, by decide!,
    by decide!, by decide!, by decide!, by decide!⟩

/-- Claim C24. In-place sweeps equal simultaneous updates. For every flag
array with one entry per node and region 0 inside the grid away from the
first and last plane: pass 3 returns, the flag of every node of region 0 is
the value `ghostRule` computes from the flag array as it stood when the pass
began, every other cell is unchanged, and visiting the nodes of region 0 in
any order (any permutation of the `k`-`j`-`i` order, for example by `k`-slab)
gives the same flag array; likewise pass 4 with `ghostNeighbourRule`. -/
theorem C24_sweeps_are_simultaneous (space : Space) (particle : Particle) (part : Partition)
    (hwf : space.WellFormed) (hin : RangeInBounds space part) :
    (∃ flags, IdentifyGhostNodes space part = some { space with nodeFlag := flags } ∧
      (∀ k j i, InRange part k j i →
        readFlag flags (space.nodeIdx k j i) =
          some (ghostRule space.nodeFlagOffset space.jMax space.iMax
            (flagD space.nodeFlag) (space.nodeIdx k j i))) ∧
      (∀ p, (∀ k j i, InRange part k j i → space.nodeIdx k j i ≠ p) →
        readFlag flags p = readFlag space.nodeFlag p) ∧
      flags.length = space.nodeFlag.length ∧
      ∀ L : List (Int × Int × Int), L.Perm (rangeNodes part) →
        foldOpt (fun x t => ghostBody space x.1 x.2.1 x.2.2 t) L space.nodeFlag
          = some flags) ∧
    (∃ flags, IdentifySolidNodeWithGhostNeighbours space particle part
        = some { space with nodeFlag := flags } ∧
      (∀ k j i, InRange part k j i →
        readFlag flags (space.nodeIdx k j i) =
          some (ghostNeighbourRule space.nodeFlagOffset particle.totalN space.jMax space.iMax
            (flagD space.nodeFlag) (space.nodeIdx k j i))) ∧
      (∀ p, (∀ k j i, InRange part k j i → space.nodeIdx k j i ≠ p) →
        readFlag flags p = readFlag space.nodeFlag p) ∧
      flags.length = space.nodeFlag.length ∧
      ∀ L : List (Int × Int × Int), L.Perm (rangeNodes part) →
        foldOpt (fun x t => ghostNeighbourBody space particle x.1 x.2.1 x.2.2 t) L
          space.nodeFlag = some flags) := by
  constructor
  · obtain ⟨flags, h1, h2, h3, h4⟩ := IdentifyGhostNodes_spec space part hwf hin
    refine ⟨flags, h1, h2, h3, h4, fun L hL => ?_⟩
    rw [IdentifyGhostNodes_eq] at h1
    rw [ghostSweep_any_order space part hwf hin L hL]
    exact foldOpt_of_bind h1
  · obtain ⟨flags, h1, h2, h3, h4⟩ :=
      IdentifySolidNodeWithGhostNeighbours_spec space particle part hwf hin
    refine ⟨flags, h1, h2, h3, h4, fun L hL => ?_⟩
    rw [IdentifySolidNodeWithGhostNeighbours_eq] at h1
    rw [ghostNeighbourSweep_any_order space particle part hwf hin L hL]
    exact foldOpt_of_bind h1

/-- Instance of C24 on the one-sphere grid after passes 1 to 3: pass 4 in
the reversed order of the visits gives the flags of pass 4. -/
theorem C24_sweeps_are_simultaneous_witness :
    demoAfterPass3.WellFormed ∧ RangeInBounds demoAfterPass3 demoPart ∧
    ∃ flags, IdentifySolidNodeWithGhostNeighbours demoAfterPass3 oneSphere demoPart
        = some { demoAfterPass3 with nodeFlag := flags } ∧
      foldOpt (fun x t => ghostNeighbourBody demoAfterPass3 oneSphere x.1 x.2.1 x.2.2 t)
        (rangeNodes demoPart).reverse demoAfterPass3.nodeFlag = some flags :=
  ⟨by decide!, by decide,
    (C24_sweeps_are_simultaneous demoAfterPass3 oneSphere demoPart (by decide!)
      (by decide)).2.imp fun _ h => ⟨h.1, h.2.2.2.2 _ (List.reverse_perm _)⟩⟩

/-- Claim C25 fails on the code: with 55 geometries the flag of geometry 54
is `-64`. On the input of 54 small spheres and sphere 54 of radius `6/5` on
node `(2, 2, 2)`, after pass 2 that node and its six face neighbours all carry
`-64`, none of them is fluid, yet the wrapped 32-bit product of the six
neighbour flags is `0` (the exact product is `2^36`), and pass 3 turns the
node into a ghost (flag `64`). -/
theorem C25_product_wraps_to_zero :
    manySpheres.totalN = 55 ∧
    ((InitializeDomainGeometry demoSpace demoPart).bind fun s1 =>
      (LocateSolidGeometry s1 manySpheres demoPart).bind fun s2 =>
        (IdentifyGhostNodes s2 demoPart).map fun s3 =>
          (s2.nodeFlagOffset, s2.flagAt 2 2 2, s2.neighbourFlags 2 2 2, s3.flagAt 2 2 2))
      = some (10, some (-64),
          [some (-64), some (-64), some (-64), some (-64), some (-64), some (-64)],
          some 64) ∧
    prod32 (-64) (-64) (-64) (-64) (-64) (-64) = 0 ∧
    (-64 : Int) * (-64) * (-64) * (-64) * (-64) * (-64) = 2 ^ 36 := by
  refine ⟨rfl, by decide!, by decide!, by decide!⟩

/-- Claim C26. For `nx, ny, nz ≥ 3`, `ng ≥ 0`, extended dimensions
`n + 2 ng` and every node `(k, j, i)` of region 12 of `DomainPartition` (named
"Interior"): the six flat indices `idxW`, `idxE`, `idxS`, `idxN`, `idxF`, `idxB`
the classifier computes are `(k' * jMax + j') * iMax + i'` for the six
geometric face neighbours `(k', j', i')`, in this order; each neighbour lies in
the grid, its flat index lies in `[0, iMax * jMax * kMax)`, and it belongs to
the Interior region or to one of the regions 6 to 11 (named "Domain West" to
"Domain Back") and to none of the exterior-ghost regions 0 to 5. -/
theorem C26_interior_neighbours_in_bounds (nameSize : Nat) (part : Partition) (space : Space)
    (hx : 3 ≤ space.nx) (hy : 3 ≤ space.ny) (hz : 3 ≤ space.nz) (hg : 0 ≤ space.ng)
    (hi : space.iMax = space.nx + 2 * space.ng) (hj : space.jMax = space.ny + 2 * space.ng)
    (hk : space.kMax = space.nz + 2 * space.ng) (k j i : Int)
    (hin : InRegion (DomainPartition nameSize part space) 12 k j i) :
    partName.drop 6 = ["Domain West", "Domain East", "Domain South", "Domain North",
      "Domain Front", "Domain Back", "Interior"] ∧
    neighbourIdx space k j i
      = (faceNeighbours k j i).map (fun n => space.nodeIdx n.1 n.2.1 n.2.2) ∧
    ∀ n ∈ faceNeighbours k j i,
      InGrid space n.1 n.2.1 n.2.2 ∧
      (0 ≤ space.nodeIdx n.1 n.2.1 n.2.2 ∧
        space.nodeIdx n.1 n.2.1 n.2.2 < space.iMax * space.jMax * space.kMax) ∧
      (InRegion (DomainPartition nameSize part space) 12 n.1 n.2.1 n.2.2 ∨
        ∃ r, 6 ≤ r ∧ r < 12 ∧
          InRegion (DomainPartition nameSize part space) r n.1 n.2.1 n.2.2) ∧
      ∀ r, r < 6 → ¬ InRegion (DomainPartition nameSize part space) r n.1 n.2.1 n.2.2 := by
  refine ⟨rfl, neighbourIdx_eq space k j i, fun n hn => ?_⟩
  obtain ⟨r, h6, h12, hr⟩ := face_neighbour_region nameSize part space k j i hin n hn
  obtain ⟨hext, -, hcode⟩ := region_sound nameSize part space (by omega) (by omega) (by omega)
    hg n.1 n.2.1 n.2.2 r (by omega) hr
  have hgrid : InGrid space n.1 n.2.1 n.2.2 := by
    unfold InGrid
    unfold InExtended at hext
    rw [hi, hj, hk]
    exact hext
  have hs := idx_slab (a := 0) (b := space.kMax) hgrid.1 hgrid.2.1 hgrid.2.2
  refine ⟨hgrid, ⟨?_, ?_⟩, ?_, fun r2 h2 hr2 => ?_⟩
  · unfold Space.nodeIdx
    linarith [hs.1]
  · unfold Space.nodeIdx
    have e : space.iMax * space.jMax * space.kMax = space.kMax * (space.jMax * space.iMax) := by
      ring
    rw [e]
    exact hs.2
  · rcases Nat.lt_or_ge r 12 with hlt | hge
    · exact Or.inr ⟨r, h6, hlt, hr⟩
    · have e12 : r = 12 := by omega
      rw [e12] at hr
      exact Or.inl hr
  · have hcode2 := (region_sound nameSize part space (by omega) (by omega) (by omega)
      hg n.1 n.2.1 n.2.2 r2 (by omega) hr2).2.2
    omega

/-- Instance of C26 on the grid of 5 nodes per axis with ghost width 2 at
node `(3, 3, 3)`, the first node of the Interior region `[3, 6)³`. -/
theorem C26_interior_neighbours_in_bounds_witness :
    ((3 : Int) ≤ ghostSpace.nx ∧ (3 : Int) ≤ ghostSpace.ny ∧ (3 : Int) ≤ ghostSpace.nz ∧
      (0 : Int) ≤ ghostSpace.ng) ∧
    (ghostSpace.iMax = ghostSpace.nx + 2 * ghostSpace.ng ∧
      ghostSpace.jMax = ghostSpace.ny + 2 * ghostSpace.ng ∧
      ghostSpace.kMax = ghostSpace.nz + 2 * ghostSpace.ng) ∧
    InRegion (DomainPartition 15 blankPart ghostSpace) 12 3 3 3 ∧
    neighbourIdx ghostSpace 3 3 3
      = (faceNeighbours 3 3 3).map (fun n => ghostSpace.nodeIdx n.1 n.2.1 n.2.2) ∧
    ∀ n ∈ faceNeighbours 3 3 3,
      InGrid ghostSpace n.1 n.2.1 n.2.2 ∧
      (0 ≤ ghostSpace.nodeIdx n.1 n.2.1 n.2.2 ∧
        ghostSpace.nodeIdx n.1 n.2.1 n.2.2
          < ghostSpace.iMax * ghostSpace.jMax * ghostSpace.kMax) ∧
      (InRegion (DomainPartition 15 blankPart ghostSpace) 12 n.1 n.2.1 n.2.2 ∨
        ∃ r, 6 ≤ r ∧ r < 12 ∧
          InRegion (DomainPartition 15 blankPart ghostSpace) r n.1 n.2.1 n.2.2) ∧
      ∀ r, r < 6 → ¬ InRegion (DomainPartition 15 blankPart ghostSpace) r n.1 n.2.1 n.2.2 :=
  ⟨by decide, by decide, by decide,
    (C26_interior_neighbours_in_bounds 15 blankPart ghostSpace (by decide) (by decide)
      (by decide) (by decide) (by decide) (by decide) (by decide) 3 3 3 (by decide)).2⟩

/-- Claim C27 fails on the code: on the one-sphere input the centre node
`(2, 2, 2)` is a solid node with ghost neighbours (final flag `-11`, at most
`-offset - totalN`), so the boundary applicator reconstructs it, with geometry
`-11 + 10 + 1 = 0`; the node sits on the centre of that sphere, the vector
from the centre to the node is zero and `distToCenter` is `0`. -/
theorem C27_counterexample :
    (ComputeDomainGeometryGCIBM demoSpace oneSphere demoPart).map
      (fun s => (s.nodeFlagOffset, s.nodeFlag)) = some (10, oneSphereFlags) ∧
    oneSphereGrid.flagAt 2 2 2 = some (-11) ∧
    ¬ (-oneSphereGrid.nodeFlagOffset - (oneSphere.totalN : Int) < -11) ∧
    solidGeoID oneSphereGrid oneSphere (-11) = 0 ∧
    centreToNode oneSphereGrid oneSphere 2 2 2 0 = ((0, 0, 0) : ℚ × ℚ × ℚ) ∧
    distToCenter demoOps oneSphereGrid oneSphere 2 2 2 0 = 0 := by
  refine ⟨classified_inputs.1, by decide!, by decide!, by decide!, by decide!, by decide!⟩

/-- Claim C27, amended: with an exact square root (zero only at zero on the
non-negative numbers), for every node and geometry the distance
`distToCenter` is non-zero exactly when the node does not coincide with the
centre of the geometry used for it. -/
theorem C27_normal_defined_off_centre {R : Type} [LinearOrderedField R] (ops : RealOps R)
    (space : Space) (particle : Particle) (k j i geoID : Int)
    (hsqrt : ∀ x : R, 0 ≤ x → (ops.sqrt x = 0 ↔ x = 0)) :
    distToCenter ops space particle k j i geoID ≠ 0 ↔
      centreToNode space particle k j i geoID ≠ ((0, 0, 0) : R × R × R) := by
  unfold distToCenter
  rw [Ne, Ne, hsqrt _ (add_nonneg (add_nonneg (mul_self_nonneg _) (mul_self_nonneg _))
    (mul_self_nonneg _)), sum_squares_eq_zero]
  constructor
  · intro h e
    rw [e] at h
    exact h ⟨rfl, rfl, rfl⟩
  · rintro h ⟨h1, h2, h3⟩
    exact h (Prod.ext h1 (Prod.ext h2 h3))

/-- Instance of the amended C27 over the reals with the real square root, at
ghost node `(2, 2, 1)` of the one-sphere input: the node lies off the centre
and `distToCenter` is non-zero. -/
theorem C27_normal_defined_off_centre_witness :
    (∀ x : ℝ, 0 ≤ x → (Real.sqrt x = 0 ↔ x = 0)) ∧
    centreToNode oneSphereGrid oneSphere 2 2 1 0 ≠ ((0, 0, 0) : ℝ × ℝ × ℝ) ∧
    distToCenter (⟨Real.sqrt, fun x => ⌊x⌋⟩ : RealOps ℝ) oneSphereGrid oneSphere 2 2 1 0 ≠ 0 :=
  have hs : ∀ x : ℝ, 0 ≤ x → (Real.sqrt x = 0 ↔ x = 0) := fun _ hx => Real.sqrt_eq_zero hx
  have hoff : centreToNode oneSphereGrid oneSphere 2 2 1 0 ≠ ((0, 0, 0) : ℝ × ℝ × ℝ) := by
    intro h
    have h1 := congrArg Prod.fst h
    simp [centreToNode, geoEntry, oneSphereGrid, stage, demoSpace, oneSphere, sphereStore] at h1
    norm_num at h1
  ⟨hs, hoff,
    (C27_normal_defined_off_centre (⟨Real.sqrt, fun x => ⌊x⌋⟩ : RealOps ℝ) oneSphereGrid
      oneSphere 2 2 1 0 hs).2 hoff⟩

/-- Claim C28. When the eight nodes of the cell anchored at the truncated
image node `node = (I, J, K)` (offsets in `{0, 1}³`) are fluid and the field
holds five values per node, the stencil search returns four rows, the first
four fluid probes are the probes 0 to 3 of the search path, whose offsets are
`(0,0,0)`, `(1,1,1)`, `(1,1,0)`, `(1,0,1)`; the position matrix has the rows
`[1, I, J, K]`, `[1, I+1, J+1, K+1]`, `[1, I+1, J+1, K]`, `[1, I+1, J, K+1]`, its
determinant is `-1` for every image node, hence non-zero, and two coefficient
vectors that solve the linear system for the same right hand side are equal. -/
theorem C28_unit_cell_stencil {R : Type} [Field R] (space : Space) (flow : Flow R)
    (U : List R) (node : Int × Int × Int)
    (hfluid : ∀ d : Int × Int × Int, (d.1 = 0 ∨ d.1 = 1) → (d.2.1 = 0 ∨ d.2.1 = 1) →
      (d.2.2 = 0 ∨ d.2.2 = 1) →
      readFlag space.nodeFlag (((node.2.2 + d.2.2) * space.jMax + (node.2.1 + d.2.1))
        * space.iMax + (node.1 + d.1)) = some 0)
    (hU : (U.length : Int) = 5 * (space.nodeFlag.length : Int)) :
    ∃ st, searchAround space flow U node = some st ∧ st.tally = 4 ∧
      (fluidProbes space node 27).take 4 = [0, 1, 2, 3] ∧
      path.take 4 = [(0, 0, 0), (1, 1, 1), (1, 1, 0), (1, 0, 1)] ∧
      (List.range 4).map (fun r => (List.range 4).map (st.posMatrix r))
        = [[1, (node.1 : R), (node.2.1 : R), (node.2.2 : R)],
          [1, (node.1 : R) + 1, (node.2.1 : R) + 1, (node.2.2 : R) + 1],
          [1, (node.1 : R) + 1, (node.2.1 : R) + 1, (node.2.2 : R)],
          [1, (node.1 : R) + 1, (node.2.1 : R), (node.2.2 : R) + 1]] ∧
      (Matrix.of fun (r c : Fin 4) => st.posMatrix r c).det = -1 ∧
      (Matrix.of fun (r c : Fin 4) => st.posMatrix r c).det ≠ 0 ∧
      ∀ X Y : Nat → R,
        (∀ r, r < 4 → st.posMatrix r 0 * X 0 + st.posMatrix r 1 * X 1 + st.posMatrix r 2 * X 2
          + st.posMatrix r 3 * X 3 = st.posMatrix r 0 * Y 0 + st.posMatrix r 1 * Y 1
          + st.posMatrix r 2 * Y 2 + st.posMatrix r 3 * Y 3) →
        X 0 = Y 0 ∧ X 1 = Y 1 ∧ X 2 = Y 2 ∧ X 3 = Y 3 := by
  have hp := unit_cell_probes hfluid
  obtain ⟨st, hst, ht, hfp, hrows⟩ :=
    unit_cell_search space flow U node (fun n hn => hp n (by omega)) hU
  have r0 := hrows 0 (by omega)
  have r1 := hrows 1 (by omega)
  have r2 := hrows 2 (by omega)
  have r3 := hrows 3 (by omega)
  simp only [probeNode, path, List.getD_cons_zero, List.getD_cons_succ, add_zero, Int.cast_add,
    Int.cast_one] at r0 r1 r2 r3
  have hdet : (Matrix.of fun (r c : Fin 4) => st.posMatrix r c).det = -1 :=
    unit_cell_det (node.1 : R) (node.2.1 : R) (node.2.2 : R) _ r0 r1 r2 r3
  have hne : (Matrix.of fun (r c : Fin 4) => st.posMatrix r c).det ≠ 0 := by
    rw [hdet]
    exact neg_ne_zero.2 one_ne_zero
  refine ⟨st, hst, ht, hfp, rfl, ?_, hdet, hne, fun X Y h => solution_unique st.posMatrix hne X Y h⟩
  simp only [List.range, List.range.loop, List.map, r0, r1, r2, r3]

/-- Instance of C28 on the all-fluid `5 × 5 × 5` grid around the image node
`(1, 1, 1)`. -/
theorem C28_unit_cell_stencil_witness :
    (∀ d : Int × Int × Int, (d.1 = 0 ∨ d.1 = 1) → (d.2.1 = 0 ∨ d.2.1 = 1) →
      (d.2.2 = 0 ∨ d.2.2 = 1) →
      readFlag fluidGrid.nodeFlag (((1 + d.2.2) * fluidGrid.jMax + (1 + d.2.1))
        * fluidGrid.iMax + (1 + d.1)) = some 0) ∧
    (demoField.length : Int) = 5 * (fluidGrid.nodeFlag.length : Int) ∧
    ∃ st, searchAround fluidGrid demoFlow demoField (1, 1, 1) = some st ∧ st.tally = 4 ∧
      (Matrix.of fun (r c : Fin 4) => st.posMatrix r c).det = -1 :=
  have hfluid : ∀ d : Int × Int × Int, (d.1 = 0 ∨ d.1 = 1) → (d.2.1 = 0 ∨ d.2.1 = 1) →
      (d.2.2 = 0 ∨ d.2.2 = 1) →
      readFlag fluidGrid.nodeFlag (((1 + d.2.2) * fluidGrid.jMax + (1 + d.2.1))
        * fluidGrid.iMax + (1 + d.1)) = some 0 := by
    rintro ⟨a, b, c⟩ (rfl | rfl) (rfl | rfl) (rfl | rfl) <;> decide!
  have hU : (demoField.length : Int) = 5 * (fluidGrid.nodeFlag.length : Int) := by decide!
  ⟨hfluid, hU,
    (C28_unit_cell_stencil fluidGrid demoFlow demoField (1, 1, 1) hfluid hU).imp
      fun _ h => ⟨h.1, h.2.1, h.2.2.2.2.2.1⟩⟩

/-- Claim C29. Entropy fix `Q` of the TVD scheme in exact arithmetic, for
every `z` and `delta`: `Q` returns a value (it never divides by zero); the
branch that divides by `delta` is taken exactly when `|z| < delta`, and then
`0 ≤ |z| < delta`, the divisor is non-zero and the quotient is defined; when
`|z| ≥ delta` the value is `|z|`; and for `delta > 0` the value is at least
`|z|` and at least `delta / 2 > 0`. -/
theorem C29_entropy_fix {R : Type} [LinearOrderedField R] (z delta : R) :
    (∃ q, Q z delta = some q) ∧
      (¬ |z| ≥ delta → (0 ≤ |z| ∧ |z| < delta) ∧ delta ≠ 0 ∧
        divide (z * z) delta = some (z * z / delta) ∧
        Q z delta = some (1 / 2 * (z * z / delta + delta))) ∧
      (|z| ≥ delta → Q z delta = some |z|) ∧
      (0 < delta → ∀ q, Q z delta = some q → |z| ≤ q ∧ delta / 2 ≤ q ∧ 0 < delta / 2) := by
  refine ⟨?_, ?_, fun h => Q_above h, ?_⟩
  · rcases le_or_lt delta |z| with h | h
    · exact ⟨_, Q_above h⟩
    · exact ⟨_, Q_below h⟩
  · intro h
    have h1 : |z| < delta := not_le.1 h
    have hd : delta ≠ 0 := ne_of_gt (lt_of_le_of_lt (abs_nonneg z) h1)
    exact ⟨⟨abs_nonneg z, h1⟩, hd, divide_of_ne _ hd, Q_below h1⟩
  · intro hd q hq
    rcases le_or_lt delta |z| with h | h
    · rw [Q_above h] at hq
      cases hq
      exact ⟨le_rfl, by linarith, by linarith⟩
    · rw [Q_below h] at hq
      cases hq
      exact ⟨(quadratic_bounds z hd).1, (quadratic_bounds z hd).2, by linarith⟩

/-- Instance of claim C29 at `z = 1`, `delta = 2` (quadratic branch, value
`5/4`) over the rationals. -/
theorem C29_entropy_fix_witness :
    Q (1 : ℚ) 2 = some (5 / 4) ∧ |(1 : ℚ)| ≤ 5 / 4 ∧ (2 : ℚ) / 2 ≤ 5 / 4 ∧ (0 : ℚ) < 2 / 2 :=
  have h : Q (1 : ℚ) 2 = some (5 / 4) := by decide!
  ⟨h, (C29_entropy_fix (1 : ℚ) 2).2.2.2 (by norm_num) (5 / 4) h⟩

end ArtraCFD
